import Mathlib

/-!
# pet_service: authorization gate and result flattener

A shallow embedding of the Go sources of the pet-care backend
(`service/pet_service.go`, `handler/pet_handler.go`, `middleware/auth.go`,
`middleware/jwt.go`, `service/user_service.go`, `repository/*.go`,
`utils/*.go`) together with theorems about them.

Conventions of the embedding

* a Go `interface{}` value read from a scanned row is a `Value`; a failed
  unchecked type assertion `x.(T)` is a panic, modelled by `none` in the
  `Option` monad and surfaced as `Outcome.panic`;
* a Go `map[string]bool` is an association list read with default `false`;
* a Go slice that may be `nil` is an `Option (List _)`, `none` being `nil`;
* a function returning `(*T, error)` returns an `Outcome T`.
-/

namespace PetService

/-! ## utils/errors.go, utils/constants.go -/

def ErrCodeUnauthorized : String := "UNAUTHORIZED"
def ErrCodeInvalidToken : String := "INVALID_TOKEN"
def ErrCodeTokenExpired : String := "TOKEN_EXPIRED"
def ErrCodePermissionDenied : String := "PERMISSION_DENIED"
def ErrCodePetNotFound : String := "PET_NOT_FOUND"
def ErrCodeInternalError : String := "INTERNAL_ERROR"

def ErrorInvalidToken : String := "Invalid token"
def TokenExpired : String := "Token has expired"
def JTINotExist : String := "JTI does not exist"
def JTIInBlacklist : String := "Token has been revoked"
def PetIDNotExist : String := "Pet ID does not exist"

/-- Minutes; `AccessTokenExpire1Day` of utils/constants.go. -/
def AccessTokenExpire1Day : Nat := 1440

def StatusOK : Nat := 200
def StatusUnauthorized : Nat := 401
def StatusForbidden : Nat := 403
def StatusNotFound : Nat := 404
def StatusInternalServerError : Nat := 500

/-! ## Dynamic values of a scanned row -/

/-- The part of a `time.Time` that the layout "2006-01-02" prints. -/
structure Time where
  year : Nat
  month : Nat
  day : Nat
deriving DecidableEq, Repr

/-- Decimal digits of `n`, left-padded with zeros to at least `width` digits. -/
def zeroPad (width n : Nat) : String :=
  let digits := (Nat.toDigits 10 n)
  String.mk (List.replicate (width - digits.length) '0' ++ digits)

/-- The result of `t.Format("2006-01-02")`. -/
def Time.Format (t : Time) : String :=
  zeroPad 4 t.year ++ "-" ++ zeroPad 2 t.month ++ "-" ++ zeroPad 2 t.day

/-- A Go `interface{}` as it comes out of `Scan(&results)` into
`[]map[string]interface{}`. `null` is the nil interface (SQL NULL, or the
zero value a map lookup yields for an absent key); `int` stands for a value
of any dynamic type the code never asserts. -/
inductive Value where
  | null
  | str (s : String)
  | bool (b : Bool)
  | time (t : Time)
  | int (n : Int)
deriving DecidableEq, Repr

/-- The checked assertion `v, ok := x.(string)`; `none` is `ok = false`. Used
unchecked (`x.(string)`) the `none` case is a panic. -/
def Value.asString : Value → Option String
  | .str s => some s
  | _ => none

def Value.asBool : Value → Option Bool
  | .bool b => some b
  | _ => none

def Value.asTime : Value → Option Time
  | .time t => some t
  | _ => none

/-- One `map[string]interface{}` of the joined result set. -/
abbrev Row := List (String × Value)

/-- The map read `r[key]`: the nil interface when the key is absent. -/
def column (r : Row) (key : String) : Value :=
  match r.lookup key with
  | some v => v
  | none => Value.null

/-- A Go `map[string]bool`. -/
abbrev BoolMap := List (String × Bool)

/-- The map read `m[key]`, `false` when the key is absent. -/
def BoolMap.get (m : BoolMap) (key : String) : Bool :=
  match m.lookup key with
  | some b => b
  | none => false

/-- The map write `m[key] = true`. -/
def BoolMap.setTrue (m : BoolMap) (key : String) : BoolMap :=
  (key, true) :: m

/-- Go `append(s, x)` on a possibly nil slice. -/
def goAppend {α : Type} (s : Option (List α)) (x : α) : Option (List α) :=
  match s with
  | none => some [x]
  | some xs => some (xs ++ [x])

/-- What a Go function of result type `(*T, error)` does: return a value with
a nil error, return nil with an error, or panic. -/
inductive Outcome (α : Type) where
  | ok (value : α)
  | error (msg : String)
  | panic
deriving DecidableEq, Repr

/-! ## dto/dto.go -/

structure PetLifeEventItem where
  ID : String
  Title : String
  Date : String
  Location : String
  Story : String
deriving DecidableEq, Repr

structure MediaItem where
  ID : String
  URL : String
deriving DecidableEq, Repr

structure PetDetailResponse where
  ID : String
  Name : String
  Gender : Bool
  DateOfBirth : String
  DateOfDeath : String
  Breed : String
  Description : String
  Events : Option (List PetLifeEventItem)
  Medias : Option (List MediaItem)
deriving DecidableEq, Repr

/-- Body of a JSON response. -/
inductive Body where
  | errorResponse (code message : String)
  | petDetail (resp : PetDetailResponse)
deriving DecidableEq, Repr

/-- One call `c.JSON(status, body)`. -/
structure JSONResponse where
  status : Nat
  body : Body
deriving DecidableEq, Repr

/-! ## service/pet_service.go: GetPetDetail -/

/-- Local variables of the loop of `GetPetDetail`. -/
structure FlattenState where
  response : PetDetailResponse
  eventIDs : BoolMap
  mediaIDs : BoolMap
deriving DecidableEq, Repr

/-- The state before the loop: the zero `PetDetailResponse` with `Events` and
`Medias` set to empty non-nil slices, and two empty maps. -/
def FlattenState.init : FlattenState :=
  { response :=
      { ID := "", Name := "", Gender := false, DateOfBirth := "", DateOfDeath := "",
        Breed := "", Description := "", Events := some [], Medias := some [] },
    eventIDs := [],
    mediaIDs := [] }

/-- Lines 116-132: the block guarded by `response.ID == ""`. -/
def setPetInfo (response : PetDetailResponse) (r : Row) : Option PetDetailResponse :=
  if response.ID = "" then do
    let id ← (column r "pet_id").asString
    let name ← (column r "pet_name").asString
    let gender ← (column r "pet_gender").asBool
    let response := { response with ID := id, Name := name, Gender := gender }
    let response :=
      match (column r "pet_breed").asString with
      | some breed => { response with Breed := breed }
      | none => response
    let response :=
      match (column r "pet_description").asString with
      | some desc => { response with Description := desc }
      | none => response
    let response :=
      match (column r "pet_date_of_birth").asTime with
      | some dob => { response with DateOfBirth := dob.Format }
      | none => response
    let response :=
      match (column r "pet_date_of_death").asTime with
      | some dod => { response with DateOfDeath := dod.Format }
      | none => response
    pure response
  else
    some response

/-- Lines 136-148: the event view built from a row whose `event_id` is `eventID`. -/
def buildEvent (eventID : String) (r : Row) : Option PetLifeEventItem := do
  let title ← (column r "event_title").asString
  let event : PetLifeEventItem :=
    { ID := eventID, Title := title, Date := "", Location := "", Story := "" }
  let event :=
    match (column r "event_date").asTime with
    | some date => { event with Date := date.Format }
    | none => event
  let event :=
    match (column r "event_location").asString with
    | some loc => { event with Location := loc }
    | none => event
  let event :=
    match (column r "event_story").asString with
    | some story => { event with Story := story }
    | none => event
  pure event

/-- Lines 135-151. -/
def addEvent (st : FlattenState) (r : Row) : Option FlattenState :=
  match (column r "event_id").asString with
  | some eventID =>
    if eventID ≠ "" ∧ st.eventIDs.get eventID = false then do
      let event ← buildEvent eventID r
      pure { st with
        response := { st.response with Events := goAppend st.response.Events event },
        eventIDs := st.eventIDs.setTrue eventID }
    else some st
  | none => some st

/-- Lines 154-161. -/
def addMedia (st : FlattenState) (r : Row) : Option FlattenState :=
  match (column r "media_id").asString with
  | some mediaID =>
    if mediaID ≠ "" ∧ st.mediaIDs.get mediaID = false then do
      let url ← (column r "media_url").asString
      let media : MediaItem := { ID := mediaID, URL := url }
      pure { st with
        response := { st.response with Medias := goAppend st.response.Medias media },
        mediaIDs := st.mediaIDs.setTrue mediaID }
    else some st
  | none => some st

/-- One iteration of `for _, r := range results`. -/
def flattenRow (st : FlattenState) (r : Row) : Option FlattenState := do
  let response ← setPetInfo st.response r
  let st ← addEvent { st with response := response } r
  addMedia st r

/-- The loop `for _, r := range results`, lines 114-162. -/
def flattenLoop : List Row → FlattenState → Option FlattenState
  | [], st => some st
  | r :: rs, st =>
    match flattenRow st r with
    | some st1 => flattenLoop rs st1
    | none => none

/-- The service method `petService.GetPetDetail`, applied to what
`s.petRepo.GetPetDetail(petID)` returned: the rows and the error. -/
def GetPetDetail (results : List Row) (err : Option String) : Outcome PetDetailResponse :=
  if err ≠ none ∨ results.length = 0 then
    Outcome.error PetIDNotExist
  else
    match flattenLoop results FlattenState.init with
    | some st => Outcome.ok st.response
    | none => Outcome.panic

/-! ## handler/pet_handler.go: GetPetDetail -/

/-- The handler `PetHandler.GetPetDetail`, applied to what the service returned:
the JSON response written, or `none` when the service call panicked. -/
def PetHandler.GetPetDetail (svc : Outcome PetDetailResponse) : Option JSONResponse :=
  match svc with
  | Outcome.panic => none
  | Outcome.error msg =>
    if msg = PetIDNotExist then
      some { status := StatusNotFound, body := Body.errorResponse ErrCodePetNotFound PetIDNotExist }
    else
      some { status := StatusInternalServerError, body := Body.errorResponse ErrCodeInternalError msg }
  | Outcome.ok resp => some { status := StatusOK, body := Body.petDetail resp }

/-! ## Specification-side vocabulary for the flattener -/

/-- The child identifier a row carries in column `key`: the column is a
string (so not NULL) and not the empty string. -/
def childId (key : String) (r : Row) : Option String :=
  match column r key with
  | Value.str s => if s = "" then none else some s
  | _ => none

/-- The child identifiers carried by the rows, in row order, with repetitions. -/
def childIds (key : String) (rs : List Row) : List String :=
  rs.filterMap (childId key)

/-- The distinct elements of a list, each once, in order of first occurrence. -/
def firstOccurrences : List String → List String
  | [] => []
  | x :: xs => x :: (firstOccurrences xs).filter (fun y => decide (y ≠ x))

/-- The specification's reading of "the distinct values of `src`, each once,
in order of first occurrence", stated without reference to any algorithm. -/
def DistinctInFirstSeenOrder (ids src : List String) : Prop :=
  ids.Nodup ∧ (∀ x, x ∈ ids ↔ x ∈ src)
    ∧ ∀ x y, ids.indexOf x < ids.indexOf y ↔ src.indexOf x < src.indexOf y

/-- One step of "append the identifier unless already seen". -/
def seenStep (acc : List String) (o : Option String) : List String :=
  match o with
  | some x => if x ∈ acc then acc else acc ++ [x]
  | none => acc

/-- The unchecked assertions on the parent columns succeed on this row:
`pet_id` and `pet_name` are strings and `pet_gender` is a bool. -/
def petColumnsTyped (r : Row) : Bool :=
  (column r "pet_id").asString.isSome && (column r "pet_name").asString.isSome
    && (column r "pet_gender").asBool.isSome

/-- A row that carries an event id has a string `event_title`. -/
def eventColumnsTyped (r : Row) : Bool :=
  (childId "event_id" r).isNone || (column r "event_title").asString.isSome

/-- A row that carries a media id has a string `media_url`. -/
def mediaColumnsTyped (r : Row) : Bool :=
  (childId "media_id" r).isNone || (column r "media_url").asString.isSome

def rowTyped (r : Row) : Bool :=
  petColumnsTyped r && eventColumnsTyped r && mediaColumnsTyped r

/-- The scalar fields of a pet view. -/
def scalarsOf (resp : PetDetailResponse) :
    String × String × Bool × String × String × String × String :=
  (resp.ID, resp.Name, resp.Gender, resp.Breed, resp.Description, resp.DateOfBirth,
    resp.DateOfDeath)

def eventIdsOf (resp : PetDetailResponse) : List String :=
  (resp.Events.getD []).map (fun e => e.ID)

def mediaIdsOf (resp : PetDetailResponse) : List String :=
  (resp.Medias.getD []).map (fun m => m.ID)

def stringOrEmpty (v : Value) : String := v.asString.getD ""

def boolOrFalse (v : Value) : Bool := v.asBool.getD false

def dateOrEmpty (v : Value) : String := (v.asTime.map Time.Format).getD ""

/-- The scalar fields of a pet view as one row holds them: the string, bool
and date columns as they are, an absent optional column as the empty string. -/
def rowScalars (r : Row) : String × String × Bool × String × String × String × String :=
  (stringOrEmpty (column r "pet_id"), stringOrEmpty (column r "pet_name"),
    boolOrFalse (column r "pet_gender"), stringOrEmpty (column r "pet_breed"),
    stringOrEmpty (column r "pet_description"), dateOrEmpty (column r "pet_date_of_birth"),
    dateOrEmpty (column r "pet_date_of_death"))

/-- Loop invariant of `GetPetDetail`: both slices are non-nil and each map
holds exactly the identifiers of the views appended so far. -/
structure SeenInv (st : FlattenState) : Prop where
  events_some : st.response.Events.isSome = true
  medias_some : st.response.Medias.isSome = true
  events : ∀ k, st.eventIDs.get k = true ↔ k ∈ eventIdsOf st.response
  medias : ∀ k, st.mediaIDs.get k = true ↔ k ∈ mediaIdsOf st.response

/-! ### Concrete result sets -/

/-- A joined row of pet `p1` with the given event and media columns. -/
def joinedRow (eventID eventTitle mediaID mediaURL : Value) : Row :=
  [("pet_id", Value.str "p1"), ("pet_name", Value.str "Rex"), ("pet_gender", Value.bool true),
   ("pet_breed", Value.str "Beagle"), ("pet_description", Value.null),
   ("pet_date_of_birth", Value.time { year := 2020, month := 3, day := 7 }),
   ("pet_date_of_death", Value.null),
   ("event_id", eventID), ("event_title", eventTitle), ("event_date", Value.null),
   ("event_location", Value.null), ("event_story", Value.null),
   ("media_id", mediaID), ("media_url", mediaURL)]

/-- Two events times three medias: the six rows of the cross product. -/
def sixRows : List Row :=
  [ joinedRow (.str "e1") (.str "Adopted") (.str "m1") (.str "u1"),
    joinedRow (.str "e1") (.str "Adopted") (.str "m2") (.str "u2"),
    joinedRow (.str "e1") (.str "Adopted") (.str "m3") (.str "u3"),
    joinedRow (.str "e2") (.str "Vaccinated") (.str "m1") (.str "u1"),
    joinedRow (.str "e2") (.str "Vaccinated") (.str "m2") (.str "u2"),
    joinedRow (.str "e2") (.str "Vaccinated") (.str "m3") (.str "u3") ]

/-- A pet without events or medias: one row, all child columns NULL. -/
def childlessRows : List Row :=
  [ joinedRow .null .null .null .null ]

/-- A childless pet whose nullable `gender` column holds NULL. -/
def nullGenderRows : List Row :=
  [ [("pet_id", .str "p1"), ("pet_name", .str "Rex"), ("pet_gender", .null),
     ("event_id", .null), ("media_id", .null)] ]

/-- A row whose parent columns are given and whose child columns are NULL. -/
def parentRow (petID petName : String) (gender : Bool) : Row :=
  [("pet_id", .str petID), ("pet_name", .str petName), ("pet_gender", .bool gender),
   ("event_id", .null), ("media_id", .null)]

/-- Two rows, the first with the empty string as `pet_id`. -/
def emptyIdThenOther : List Row :=
  [ parentRow "" "Rex" true, parentRow "p2" "Bella" false ]

/-- Two rows that both have the empty string as `pet_id` and differ in `pet_name`. -/
def emptyIdRows : List Row :=
  [ parentRow "" "Rex" true, parentRow "" "Bella" true ]


/-! ## models/models.go

The timestamp columns `created_at` and `updated_at` and the preloaded
associations are left out: no operation embedded here reads them. -/

structure BaseModel where
  ID : String
  CreatedBy : String
  UpdatedBy : String
  IsActive : Bool
deriving DecidableEq, Repr

structure User where
  base : BaseModel
  FirstName : String
  LastName : String
  Email : String
  Phone : String
  Username : String
  Gender : Bool
  Password : String
  AvatarURL : String
  IsAdmin : Bool
deriving DecidableEq, Repr

structure Role where
  base : BaseModel
  Name : String
deriving DecidableEq, Repr

structure Permission where
  base : BaseModel
  Name : String
deriving DecidableEq, Repr

structure RolePermission where
  base : BaseModel
  RoleID : String
  PermissionID : String
deriving DecidableEq, Repr

structure UserRole where
  base : BaseModel
  UserID : String
  RoleID : String
deriving DecidableEq, Repr

structure Pet where
  base : BaseModel
  Name : String
  DateOfBirth : Option Time
  DateOfDeath : Option Time
  Gender : Bool
  Breed : String
  Description : String
  AvtURL : String
  Type_ : String
  UserID : String
deriving DecidableEq, Repr

structure Media where
  base : BaseModel
  Type_ : String
  Name : String
  URL : String
  PetID : String
deriving DecidableEq, Repr

structure Comment where
  base : BaseModel
  Content : String
  PetID : String
  ParentID : String
deriving DecidableEq, Repr

structure PetLifeEvent where
  base : BaseModel
  PetID : String
  Title : String
  Date : Time
  Location : String
  Story : String
deriving DecidableEq, Repr

structure LoginHistory where
  base : BaseModel
  UserID : String
  JTI : String
  RefreshToken : String
  AccessToken : String
deriving DecidableEq, Repr

structure TokenBlacklist where
  base : BaseModel
  JTI : String
deriving DecidableEq, Repr

/-- The tables behind `*gorm.DB` that the repositories and the middleware touch. -/
structure DB where
  users : List User
  roles : List Role
  permissions : List Permission
  role_permissions : List RolePermission
  user_roles : List UserRole
  pets : List Pet
  medias : List Media
  comments : List Comment
  pet_life_events : List PetLifeEvent
  login_history : List LoginHistory
  token_blacklist : List TokenBlacklist
deriving DecidableEq, Repr

def DB.empty : DB :=
  { users := [], roles := [], permissions := [], role_permissions := [], user_roles := [],
    pets := [], medias := [], comments := [], pet_life_events := [], login_history := [],
    token_blacklist := [] }

/-- The hook `BaseModel.BeforeCreate`: an empty ID is replaced by a fresh UUID,
here the argument `newID`. -/
def BaseModel.BeforeCreate (base : BaseModel) (newID : String) : BaseModel :=
  if base.ID = "" then { base with ID := newID } else base

/-- The column default of `is_active` (tag `default:true`) as `Create` applies
it: a zero-valued field that has a default is left out of the INSERT, so the
stored row gets the default. -/
def BaseModel.insertDefaults (base : BaseModel) : BaseModel :=
  if base.IsActive = false then { base with IsActive := true } else base

/-- What `Create` stores for the embedded `BaseModel`. -/
def BaseModel.created (base : BaseModel) (newID : String) : BaseModel :=
  (base.BeforeCreate newID).insertDefaults

/-- What `Save` does to a table: every row with the primary key of `x` is
overwritten with all fields of `x`; without such a row `x` is inserted. -/
def saveRow {α : Type} (key : α → String) (x : α) (table : List α) : List α :=
  if table.any (fun y => decide (key y = key x)) then
    table.map (fun y => if key y = key x then x else y)
  else
    table ++ [x]

/-- What `First` returns: the matching row with the least primary key, `none`
standing for `ErrRecordNotFound`. -/
def firstByID {α : Type} (key : α → String) (rows : List α) : Option α :=
  rows.foldl
    (fun best x =>
      match best with
      | none => some x
      | some b => if key x < key b then some x else some b)
    none

/-! ## repository/user_repository.go, repository/pet_repository.go

Every statement takes `fault`, the error the database reports for it, if any
(lost connection, violated constraint); a failed statement changes nothing. -/

/-- The method `CreateUser`. The column `gender` has the tag `default:true`, so a
zero-valued (false) `Gender` is left out of the INSERT and stored as true. -/
def UserRepository.CreateUser (db : DB) (fault : Option String) (newID : String) (user : User) :
    Except String (DB × User) :=
  match fault with
  | some e => Except.error e
  | none =>
    let stored : User :=
      { user with base := user.base.created newID,
                  Gender := if user.Gender = false then true else user.Gender }
    Except.ok ({ db with users := db.users ++ [stored] }, stored)

def UserRepository.CreateUserRole (db : DB) (fault : Option String) (newID : String)
    (userRole : UserRole) : Except String (DB × UserRole) :=
  match fault with
  | some e => Except.error e
  | none =>
    let stored : UserRole := { userRole with base := userRole.base.created newID }
    Except.ok ({ db with user_roles := db.user_roles ++ [stored] }, stored)

def UserRepository.UpdateUser (db : DB) (fault : Option String) (user : User) : Except String DB :=
  match fault with
  | some e => Except.error e
  | none => Except.ok { db with users := saveRow (fun u => u.base.ID) user db.users }

def UserRepository.CreateLoginHistory (db : DB) (fault : Option String) (newID : String)
    (history : LoginHistory) : Except String (DB × LoginHistory) :=
  match fault with
  | some e => Except.error e
  | none =>
    let stored : LoginHistory := { history with base := history.base.created newID }
    Except.ok ({ db with login_history := db.login_history ++ [stored] }, stored)

def UserRepository.GetLoginHistoryByJTI (db : DB) (fault : Option String) (jti : String) :
    Except String LoginHistory :=
  match fault with
  | some e => Except.error e
  | none =>
    match firstByID (fun h => h.base.ID)
        (db.login_history.filter (fun h => decide (h.JTI = jti) && h.base.IsActive)) with
    | some history => Except.ok history
    | none => Except.error "record not found"

def UserRepository.UpdateLoginHistory (db : DB) (fault : Option String) (history : LoginHistory) :
    Except String DB :=
  match fault with
  | some e => Except.error e
  | none =>
    Except.ok { db with login_history := saveRow (fun h => h.base.ID) history db.login_history }

def UserRepository.CreateTokenBlacklist (db : DB) (fault : Option String) (newID : String)
    (token : TokenBlacklist) : Except String (DB × TokenBlacklist) :=
  match fault with
  | some e => Except.error e
  | none =>
    let stored : TokenBlacklist := { token with base := token.base.created newID }
    Except.ok ({ db with token_blacklist := db.token_blacklist ++ [stored] }, stored)

/-- The statement `Where("jti = ? AND is_active = ?", jti, true).Count(&count)`
on `token_blacklist`. -/
def countActiveBlacklist (db : DB) (fault : Option String) (jti : String) : Except String Nat :=
  match fault with
  | some e => Except.error e
  | none =>
    Except.ok (db.token_blacklist.filter (fun t => decide (t.JTI = jti) && t.base.IsActive)).length

def UserRepository.CreateComment (db : DB) (fault : Option String) (newID : String)
    (comment : Comment) : Except String (DB × Comment) :=
  match fault with
  | some e => Except.error e
  | none =>
    let stored : Comment := { comment with base := comment.base.created newID }
    Except.ok ({ db with comments := db.comments ++ [stored] }, stored)

def UserRepository.UpdateComment (db : DB) (fault : Option String) (comment : Comment) :
    Except String DB :=
  match fault with
  | some e => Except.error e
  | none => Except.ok { db with comments := saveRow (fun c => c.base.ID) comment db.comments }

/-- The method `CreatePet`. The column `gender` has the tag `default:true`, so a
zero-valued (false) `Gender` is left out of the INSERT and stored as true. -/
def PetRepository.CreatePet (db : DB) (fault : Option String) (newID : String) (pet : Pet) :
    Except String (DB × Pet) :=
  match fault with
  | some e => Except.error e
  | none =>
    let stored : Pet :=
      { pet with base := pet.base.created newID,
                 Gender := if pet.Gender = false then true else pet.Gender }
    Except.ok ({ db with pets := db.pets ++ [stored] }, stored)

def PetRepository.UpdatePet (db : DB) (fault : Option String) (pet : Pet) : Except String DB :=
  match fault with
  | some e => Except.error e
  | none => Except.ok { db with pets := saveRow (fun p => p.base.ID) pet db.pets }

def PetRepository.CreateLifeEvent (db : DB) (fault : Option String) (newID : String)
    (event : PetLifeEvent) : Except String (DB × PetLifeEvent) :=
  match fault with
  | some e => Except.error e
  | none =>
    let stored : PetLifeEvent := { event with base := event.base.created newID }
    Except.ok ({ db with pet_life_events := db.pet_life_events ++ [stored] }, stored)

/-- The batch insert `Create(&medias)`; `newIDs` supplies the fresh UUIDs, one
per element (used where the element has no ID yet). -/
def PetRepository.CreateMediaBatch (db : DB) (fault : Option String) (newIDs : List String)
    (medias : List Media) : Except String DB :=
  match fault with
  | some e => Except.error e
  | none =>
    let stored : List Media :=
      List.zipWith (fun (m : Media) (newID : String) => { m with base := m.base.created newID })
        medias newIDs
    Except.ok { db with medias := db.medias ++ stored }

/-- One successful write of a repository method: the only ways the services,
handlers and middleware change the tables. -/
inductive RepoWrite : DB → DB → Prop where
  | createUser (db db1 : DB) (newID : String) (x x1 : User) :
      UserRepository.CreateUser db none newID x = Except.ok (db1, x1) → RepoWrite db db1
  | createUserRole (db db1 : DB) (newID : String) (x x1 : UserRole) :
      UserRepository.CreateUserRole db none newID x = Except.ok (db1, x1) → RepoWrite db db1
  | updateUser (db db1 : DB) (x : User) :
      UserRepository.UpdateUser db none x = Except.ok db1 → RepoWrite db db1
  | createLoginHistory (db db1 : DB) (newID : String) (x x1 : LoginHistory) :
      UserRepository.CreateLoginHistory db none newID x = Except.ok (db1, x1) → RepoWrite db db1
  | updateLoginHistory (db db1 : DB) (x : LoginHistory) :
      UserRepository.UpdateLoginHistory db none x = Except.ok db1 → RepoWrite db db1
  | createTokenBlacklist (db db1 : DB) (newID : String) (x x1 : TokenBlacklist) :
      UserRepository.CreateTokenBlacklist db none newID x = Except.ok (db1, x1) → RepoWrite db db1
  | createComment (db db1 : DB) (newID : String) (x x1 : Comment) :
      UserRepository.CreateComment db none newID x = Except.ok (db1, x1) → RepoWrite db db1
  | updateComment (db db1 : DB) (x : Comment) :
      UserRepository.UpdateComment db none x = Except.ok db1 → RepoWrite db db1
  | createPet (db db1 : DB) (newID : String) (x x1 : Pet) :
      PetRepository.CreatePet db none newID x = Except.ok (db1, x1) → RepoWrite db db1
  | updatePet (db db1 : DB) (x : Pet) :
      PetRepository.UpdatePet db none x = Except.ok db1 → RepoWrite db db1
  | createLifeEvent (db db1 : DB) (newID : String) (x x1 : PetLifeEvent) :
      PetRepository.CreateLifeEvent db none newID x = Except.ok (db1, x1) → RepoWrite db db1
  | createMediaBatch (db db1 : DB) (newIDs : List String) (xs : List Media) :
      PetRepository.CreateMediaBatch db none newIDs xs = Except.ok db1 → RepoWrite db db1

/-- The states reachable from `db` by any number of repository writes. -/
def Reachable (db db1 : DB) : Prop := Relation.ReflTransGen RepoWrite db db1

/-- The table `token_blacklist` holds an active entry for `jti`. -/
def activeBlacklistEntry (db : DB) (jti : String) : Prop :=
  ∃ t ∈ db.token_blacklist, t.JTI = jti ∧ t.base.IsActive = true

/-! ## The token library, as the middleware uses it -/

/-- A Go `jwt.MapClaims`. -/
abbrev MapClaims := List (String × Value)

/-- The map read `claims[key]`: the nil interface when the key is absent. -/
def claim (claims : MapClaims) (key : String) : Value :=
  match claims.lookup key with
  | some v => v
  | none => Value.null

/-- Modelled from the spec: a signed token as the external package
`github.com/golang-jwt/jwt/v5` (not part of the sources) sees it. The spec has
a token as a "signed assertion" of claims, "signed with the same process-wide
secret using HMAC-SHA256"; the signature is kept symbolically, as the secret
under which it verifies. -/
structure Token where
  alg : String
  claims : MapClaims
  key : String
deriving DecidableEq, Repr

/-- Modelled from the spec: the wire format of the external token package, "a
three-part signed string per standard bearer-token convention". `SignedString`
serialises and signs (it fails "only on signing-backend errors"), `decode`
reads a token string back, `none` for a malformed one. -/
structure JwtCodec where
  SignedString : Token → Except String String
  decode : String → Option Token

/-- The failure reasons of decoding that the spec tells apart. -/
inductive ParseError where
  | malformed
  | signatureInvalid
  | expired
deriving DecidableEq, Repr

/-- Modelled from the spec: the "standard expiry" check of the external token
package. A token without an `exp` claim does not expire; a numeric `exp` must
lie after `now` (Unix seconds). -/
def verifyExpiresAt (claims : MapClaims) (now : Int) : Except ParseError Unit :=
  match claim claims "exp" with
  | Value.null => Except.ok ()
  | Value.int exp => if now < exp then Except.ok () else Except.error ParseError.expired
  | _ => Except.error ParseError.malformed

/-- Modelled from the spec: `jwt.Parse(tokenString, keyFunc)` of the external
token package with the key function of `AuthMiddleware`, which always returns
`secret`. As the spec says, it "verifies signature and standard expiry". An
error result covers both `err != nil` and `!token.Valid`. -/
def jwtParse (codec : JwtCodec) (tokenString secret : String) (now : Int) :
    Except ParseError MapClaims :=
  match codec.decode tokenString with
  | none => Except.error ParseError.malformed
  | some token =>
    if token.key = secret then
      match verifyExpiresAt token.claims now with
      | Except.ok _ => Except.ok token.claims
      | Except.error e => Except.error e
    else
      Except.error ParseError.signatureInvalid

/-- The function `strings.Split` for a separator of one character, on the
characters of the string. -/
def splitChars (sep : Char) : List Char → List (List Char)
  | [] => [[]]
  | c :: cs =>
    if c = sep then
      [] :: splitChars sep cs
    else
      match splitChars sep cs with
      | [] => [[c]]
      | p :: ps => (c :: p) :: ps

def stringsSplit (s : String) (sep : Char) : List String :=
  (splitChars sep s.toList).map String.mk

/-! ## config/config.go -/

/-- The field of `config.AppConfig` that the middleware reads. -/
structure Config where
  SecretKey : String
deriving DecidableEq, Repr

/-! ## middleware/auth.go, middleware/jwt.go -/

structure UserInfo where
  UserID : String
  Username : String
  FirstName : String
  LastName : String
  Email : String
  IsAdmin : Bool
  JTI : String
  TokenType : String
deriving DecidableEq, Repr

/-- The part of a `gin.Context` that the middleware reads and writes: the
`Authorization` request header (empty when absent), the JSON responses written
so far, whether `c.Abort()` was called, the value stored under the key
"current_user", and whether `c.Next()` was called. -/
structure Context where
  authorization : String
  written : List JSONResponse
  aborted : Bool
  currentUser : Option UserInfo
  nextCalled : Bool
deriving DecidableEq, Repr

/-- A fresh request context carrying the given `Authorization` header. -/
def Context.request (authorization : String) : Context :=
  { authorization := authorization, written := [], aborted := false, currentUser := none,
    nextCalled := false }

/-- The three statements `c.JSON(status, utils.NewErrorResponse(code, message))`,
`c.Abort()`, `return`. -/
def abortWithError (c : Context) (status : Nat) (code message : String) : Context :=
  { c with
    written := c.written ++ [{ status := status, body := Body.errorResponse code message }],
    aborted := true }

/-- The function `isBlacklisted`: the error of the count statement is dropped
and `count` keeps its zero value when the statement fails. -/
def isBlacklisted (db : DB) (fault : Option String) (jti : String) : Bool :=
  let count : Nat :=
    match countActiveBlacklist db fault jti with
    | Except.ok n => n
    | Except.error _ => 0
  decide (count > 0)

/-- Lines 82-91: the unchecked assertions that build the `UserInfo`; `none` is
a panic. -/
def bindUserInfo (claims : MapClaims) (jti tokenType : String) : Option UserInfo := do
  let userID ← (claim claims "user_id").asString
  let username ← (claim claims "username").asString
  let firstName ← (claim claims "first_name").asString
  let lastName ← (claim claims "last_name").asString
  let email ← (claim claims "email").asString
  let isAdmin ← (claim claims "is_admin").asBool
  pure { UserID := userID, Username := username, FirstName := firstName, LastName := lastName,
         Email := email, IsAdmin := isAdmin, JTI := jti, TokenType := tokenType }

/-- The handler returned by `AuthMiddleware()`, run on context `c` at time `now`
(Unix seconds) against the tables `db`; `fault` is the error, if any, that the
database reports for the blacklist count. The result is the context afterwards,
`none` when the handler panics. The assertion `token.Claims.(jwt.MapClaims)`
cannot fail on a token parsed by `jwt.Parse`, so its error branch is not
represented. -/
def AuthMiddleware (cfg : Config) (codec : JwtCodec) (db : DB) (fault : Option String)
    (now : Int) (c : Context) : Option Context :=
  let authHeader := c.authorization
  if authHeader = "" then
    some (abortWithError c StatusUnauthorized ErrCodeUnauthorized "Authorization header required")
  else
    match stringsSplit authHeader ' ' with
    | [scheme, tokenString] =>
      if scheme ≠ "Bearer" then
        some (abortWithError c StatusUnauthorized ErrCodeUnauthorized
          "Invalid authorization format")
      else
        match jwtParse codec tokenString cfg.SecretKey now with
        | Except.error _ =>
          some (abortWithError c StatusUnauthorized ErrCodeInvalidToken ErrorInvalidToken)
        | Except.ok claims =>
          let tokenType := (claim claims "token_type").asString.getD ""
          if tokenType ≠ "access_token" then
            some (abortWithError c StatusUnauthorized ErrCodeInvalidToken ErrorInvalidToken)
          else
            let jti := (claim claims "jti").asString.getD ""
            if isBlacklisted db fault jti = true then
              some (abortWithError c StatusUnauthorized ErrCodeUnauthorized JTIInBlacklist)
            else
              match bindUserInfo claims jti tokenType with
              | none => none
              | some userInfo => some { c with currentUser := some userInfo, nextCalled := true }
    | _ =>
      some (abortWithError c StatusUnauthorized ErrCodeUnauthorized "Invalid authorization format")

/-- The claims of the access token of `GenerateToken`. -/
def accessClaims (userID username firstName lastName email jti : String) (isAdmin : Bool)
    (exp : Int) : MapClaims :=
  [("user_id", Value.str userID), ("username", Value.str username),
   ("first_name", Value.str firstName), ("last_name", Value.str lastName),
   ("email", Value.str email), ("is_admin", Value.bool isAdmin), ("jti", Value.str jti),
   ("token_type", Value.str "access_token"), ("exp", Value.int exp)]

/-- The claims of the refresh token of `GenerateToken`. -/
def refreshClaims (userID username firstName lastName email jti : String) (isAdmin : Bool)
    (exp : Int) : MapClaims :=
  [("user_id", Value.str userID), ("username", Value.str username),
   ("first_name", Value.str firstName), ("last_name", Value.str lastName),
   ("email", Value.str email), ("is_admin", Value.bool isAdmin), ("jti", Value.str jti),
   ("token_type", Value.str "refresh_token"), ("exp", Value.int exp)]

/-- The function `GenerateToken`. `now1` and `now2` are the Unix seconds of its two
calls of `time.Now()`. -/
def GenerateToken (cfg : Config) (codec : JwtCodec) (now1 now2 : Int)
    (userID username firstName lastName email jti : String) (isAdmin : Bool) :
    Outcome (String × String × Int) :=
  let accessTokenExp : Int := now1 + (AccessTokenExpire1Day : Int) * 60
  let accessToken : Token :=
    { alg := "HS256",
      claims := accessClaims userID username firstName lastName email jti isAdmin accessTokenExp,
      key := cfg.SecretKey }
  match codec.SignedString accessToken with
  | Except.error e => Outcome.error e
  | Except.ok accessTokenString =>
    let refreshTokenExp : Int := now2 + 365 * 24 * 3600
    let refreshToken : Token :=
      { alg := "HS256",
        claims :=
          refreshClaims userID username firstName lastName email jti isAdmin refreshTokenExp,
        key := cfg.SecretKey }
    match codec.SignedString refreshToken with
    | Except.error e => Outcome.error e
    | Except.ok refreshTokenString =>
      Outcome.ok (accessTokenString, refreshTokenString, accessTokenExp)

/-! ## service/user_service.go: Logout -/

structure MessageResponse where
  Message : String
deriving DecidableEq, Repr

/-- The errors the database reports for the three statements of `Logout`. -/
structure LogoutFaults where
  getHistory : Option String
  updateHistory : Option String
  createBlacklist : Option String
deriving DecidableEq, Repr

def LogoutFaults.none : LogoutFaults :=
  { getHistory := Option.none, updateHistory := Option.none, createBlacklist := Option.none }

/-- The service method `userService.Logout`: what it returns and the tables afterwards. -/
def userService.Logout (db : DB) (faults : LogoutFaults) (newID : String) (userInfo : UserInfo) :
    Outcome MessageResponse × DB :=
  match UserRepository.GetLoginHistoryByJTI db faults.getHistory userInfo.JTI with
  | Except.error _ => (Outcome.error JTINotExist, db)
  | Except.ok history =>
    let history : LoginHistory := { history with base := { history.base with IsActive := false } }
    match UserRepository.UpdateLoginHistory db faults.updateHistory history with
    | Except.error e => (Outcome.error e, db)
    | Except.ok db1 =>
      let blacklist : TokenBlacklist :=
        { base := { ID := "", CreatedBy := userInfo.UserID, UpdatedBy := "", IsActive := false },
          JTI := userInfo.JTI }
      match UserRepository.CreateTokenBlacklist db1 faults.createBlacklist newID blacklist with
      | Except.error e => (Outcome.error e, db1)
      | Except.ok (db2, _) => (Outcome.ok { Message := "Logout successfully" }, db2)

/-! ## Specification-side vocabulary and concrete inputs for the gate -/

/-- The law of the external token package that the round-trip properties rest
on: decoding reads back the token that signing serialised. -/
def JwtCodec.RoundTrip (codec : JwtCodec) : Prop :=
  ∀ token s, codec.SignedString token = Except.ok s → codec.decode s = some token

/-- The claim `jti` as `AuthMiddleware` reads it: `claims["jti"].(string)` with
the failure of the assertion ignored. -/
def jtiOf (claims : MapClaims) : String :=
  (claim claims "jti").asString.getD ""

def demoConfig : Config := { SecretKey := "s3cret" }

/-- The access token issued to Ann at Unix time 100 under `demoConfig`. -/
def annAccessToken : Token :=
  { alg := "HS256",
    claims := accessClaims "u1" "ann" "Ann" "Lee" "ann@example.com" "j1" false 86500,
    key := "s3cret" }

/-- The refresh token issued with it, the clock read again at Unix time 130. -/
def annRefreshToken : Token :=
  { alg := "HS256",
    claims := refreshClaims "u1" "ann" "Ann" "Lee" "ann@example.com" "j1" false 31536130,
    key := "s3cret" }

/-- A wire format that knows the two tokens of Ann. -/
def demoCodec : JwtCodec :=
  { SignedString := fun token =>
      if token = annAccessToken then Except.ok "aaa.bbb.ccc"
      else if token = annRefreshToken then Except.ok "rrr.sss.ttt"
      else Except.error "unsupported token",
    decode := fun s =>
      if s = "aaa.bbb.ccc" then some annAccessToken
      else if s = "rrr.sss.ttt" then some annRefreshToken
      else none }

def annInfo : UserInfo :=
  { UserID := "u1", Username := "ann", FirstName := "Ann", LastName := "Lee",
    Email := "ann@example.com", IsAdmin := false, JTI := "j1", TokenType := "access_token" }

/-- Tables in which the JTI `j1` has an active blacklist entry. -/
def revokedDB : DB :=
  { DB.empty with
    token_blacklist :=
      [{ base := { ID := "b1", CreatedBy := "u1", UpdatedBy := "", IsActive := true },
         JTI := "j1" }] }

/-- Tables after the login of Ann: one active login-history record for `j1`. -/
def loggedInDB : DB :=
  { DB.empty with
    login_history :=
      [{ base := { ID := "h1", CreatedBy := "u1", UpdatedBy := "", IsActive := true },
         UserID := "u1", JTI := "j1", RefreshToken := "rrr.sss.ttt",
         AccessToken := "aaa.bbb.ccc" }] }

/-- The tables after Ann logs out of `loggedInDB`, the blacklist row getting ID `b1`. -/
def loggedOutDB : DB :=
  { DB.empty with
    login_history :=
      [{ base := { ID := "h1", CreatedBy := "u1", UpdatedBy := "", IsActive := false },
         UserID := "u1", JTI := "j1", RefreshToken := "rrr.sss.ttt",
         AccessToken := "aaa.bbb.ccc" }],
    token_blacklist :=
      [{ base := { ID := "b1", CreatedBy := "u1", UpdatedBy := "", IsActive := true },
         JTI := "j1" }] }

/-- A comment written after the logout. -/
def laterComment : Comment :=
  { base := { ID := "", CreatedBy := "u2", UpdatedBy := "", IsActive := false },
    Content := "hello", PetID := "p1", ParentID := "" }

/-- The tables `loggedOutDB` after `laterComment` is created with ID `c1`. -/
def laterDB : DB :=
  { loggedOutDB with
    comments :=
      [{ base := { ID := "c1", CreatedBy := "u2", UpdatedBy := "", IsActive := true },
         Content := "hello", PetID := "p1", ParentID := "" }] }

/-! ## utils/errors.go, further messages -/

def PermissionDenied : String := "Permission denied"
def UserHasNoPermission : String := "User has no permissions"

/-! ## middleware/auth.go: PermissionMiddleware -/

/-- The statement of lines 120-125: `permissions` joined with `role_permissions`
on the permission id and with `user_roles` on the role id, restricted by
`user_roles.user_id = ? AND permissions.is_active = true`, of which
`permissions.name` is plucked. One name per joined row, so a name can repeat. -/
def permissionNamesQuery (db : DB) (fault : Option String) (userID : String) :
    Except String (List String) :=
  match fault with
  | some e => Except.error e
  | none =>
    Except.ok
      (db.permissions.flatMap (fun p =>
        db.role_permissions.flatMap (fun rp =>
          db.user_roles.filterMap (fun ur =>
            if rp.PermissionID = p.base.ID ∧ ur.RoleID = rp.RoleID ∧ ur.UserID = userID
                ∧ p.base.IsActive = true then
              some p.Name
            else none))))

/-- The method `UserRepository.GetPermissionsByUserID`: the same two joins,
restricted by `user_roles.user_id = ?` alone. -/
def UserRepository.GetPermissionsByUserID (db : DB) (fault : Option String) (userID : String) :
    Except String (List String) :=
  match fault with
  | some e => Except.error e
  | none =>
    Except.ok
      (db.permissions.flatMap (fun p =>
        db.role_permissions.flatMap (fun rp =>
          db.user_roles.filterMap (fun ur =>
            if rp.PermissionID = p.base.ID ∧ ur.RoleID = rp.RoleID ∧ ur.UserID = userID then
              some p.Name
            else none))))

/-- What one run of the handler of `PermissionMiddleware` leaves behind: the
context, and the number of statements it sent to the database. -/
structure PermissionRun where
  context : Context
  queries : Nat
deriving DecidableEq, Repr

/-- Lines 134-137: the map built from the plucked names. -/
def permissionMapOf (userPermissions : List String) : BoolMap :=
  userPermissions.foldl (fun m p => m.setTrue p) []

/-- Lines 139-145: the first required permission that the map lacks, if any. -/
def firstMissing (permissionMap : BoolMap) : List String → Option String
  | [] => none
  | required :: rest =>
    if permissionMap.get required = false then some required
    else firstMissing permissionMap rest

/-- The handler returned by `PermissionMiddleware(requiredPermissions)`, run on
context `c` against the tables `db`; `fault` is the error, if any, that the
database reports for the permission statement. `Pluck` leaves `userPermissions`
nil when the statement fails, and its error is not read. The assertion
`userInfo.(UserInfo)` cannot fail: the only writer of "current_user" is
`AuthMiddleware`, which stores a `UserInfo`. -/
def PermissionMiddleware (requiredPermissions : List String) (db : DB) (fault : Option String)
    (c : Context) : PermissionRun :=
  match c.currentUser with
  | none =>
    { context := abortWithError c StatusUnauthorized ErrCodeUnauthorized "Unauthorized",
      queries := 0 }
  | some user =>
    if user.IsAdmin = true then
      { context := { c with nextCalled := true }, queries := 0 }
    else
      let userPermissions : List String :=
        match permissionNamesQuery db fault user.UserID with
        | Except.ok names => names
        | Except.error _ => []
      if userPermissions.length = 0 then
        { context := abortWithError c StatusForbidden ErrCodePermissionDenied UserHasNoPermission,
          queries := 1 }
      else
        let permissionMap := permissionMapOf userPermissions
        match firstMissing permissionMap requiredPermissions with
        | some _ =>
          { context := abortWithError c StatusForbidden ErrCodePermissionDenied PermissionDenied,
            queries := 1 }
        | none => { context := { c with nextCalled := true }, queries := 1 }

/-! ## Specification-side vocabulary for C11 to C20 -/

/-- The effective permission names of a user as `PermissionMiddleware` computes
them: the names its statement returns, none when the statement fails. -/
def effectivePermissions (db : DB) (fault : Option String) (userID : String) : List String :=
  match permissionNamesQuery db fault userID with
  | Except.ok names => names
  | Except.error _ => []

/-- The reasons for which the gate of spec section 4.4 ends a request. -/
inductive GateFailure where
  | headerMissing
  | headerMalformed
  | decodeFailed (e : ParseError)
  | wrongKind
  | revoked
deriving DecidableEq, Repr

/-- The steps Extract, Decode and Revocation check of the state machine of spec
section 4.4, "terminal on first failure": the claims of the token when every
check passes, the first reason to stop otherwise. -/
def gateChecks (cfg : Config) (codec : JwtCodec) (db : DB) (fault : Option String) (now : Int)
    (authorization : String) : Except GateFailure MapClaims :=
  if authorization = "" then Except.error GateFailure.headerMissing
  else
    match stringsSplit authorization ' ' with
    | [scheme, tokenString] =>
      if scheme ≠ "Bearer" then Except.error GateFailure.headerMalformed
      else
        match jwtParse codec tokenString cfg.SecretKey now with
        | Except.error e => Except.error (GateFailure.decodeFailed e)
        | Except.ok claims =>
          if (claim claims "token_type").asString.getD "" ≠ "access_token" then
            Except.error GateFailure.wrongKind
          else if isBlacklisted db fault (jtiOf claims) = true then
            Except.error GateFailure.revoked
          else Except.ok claims
    | _ => Except.error GateFailure.headerMalformed

/-- The error code and message `AuthMiddleware` answers for each reason. -/
def GateFailure.response : GateFailure → String × String
  | GateFailure.headerMissing => ("UNAUTHORIZED", "Authorization header required")
  | GateFailure.headerMalformed => ("UNAUTHORIZED", "Invalid authorization format")
  | GateFailure.decodeFailed _ => ("INVALID_TOKEN", "Invalid token")
  | GateFailure.wrongKind => ("INVALID_TOKEN", "Invalid token")
  | GateFailure.revoked => ("UNAUTHORIZED", "Token has been revoked")

/-- A header is of the form `Bearer <token>` with a token free of spaces; the
token may be empty. -/
def bearerFormat (authorization : String) : Prop :=
  ∃ tokenString : String,
    authorization = "Bearer " ++ tokenString ∧ ' ' ∉ tokenString.toList

/-- No two active login-history records with the JTI have different IDs: the
JTI stands for one login. -/
def singleLogin (db : DB) (jti : String) : Prop :=
  ∀ h1 ∈ db.login_history, ∀ h2 ∈ db.login_history,
    h1.JTI = jti → h1.base.IsActive = true → h2.JTI = jti → h2.base.IsActive = true →
    h1.base.ID = h2.base.ID

/-- The scenario of C15 on the tables: every link of user `u` goes to role
`editor`, every link of role `editor` goes to permission `viewPet` or `editPet`,
both links exist, and the two permission ids are the active rows named
`view_pet` and `edit_pet`. -/
structure EditorScenario (db : DB) (u editor viewPet editPet : String) : Prop where
  linked : ∃ ur ∈ db.user_roles, ur.UserID = u ∧ ur.RoleID = editor
  only_editor : ∀ ur ∈ db.user_roles, ur.UserID = u → ur.RoleID = editor
  only_two : ∀ rp ∈ db.role_permissions, rp.RoleID = editor →
    rp.PermissionID = viewPet ∨ rp.PermissionID = editPet
  has_view : ∃ rp ∈ db.role_permissions, rp.RoleID = editor ∧ rp.PermissionID = viewPet
  has_edit : ∃ rp ∈ db.role_permissions, rp.RoleID = editor ∧ rp.PermissionID = editPet
  view_row : ∃ p ∈ db.permissions, p.base.ID = viewPet
  edit_row : ∃ p ∈ db.permissions, p.base.ID = editPet
  view_named : ∀ p ∈ db.permissions, p.base.ID = viewPet →
    p.Name = "view_pet" ∧ p.base.IsActive = true
  edit_named : ∀ p ∈ db.permissions, p.base.ID = editPet →
    p.Name = "edit_pet" ∧ p.base.IsActive = true

/-! ### Concrete inputs for C11 to C20 -/

def activeBase (id : String) : BaseModel :=
  { ID := id, CreatedBy := "", UpdatedBy := "", IsActive := true }

def inactiveBase (id : String) : BaseModel :=
  { ID := id, CreatedBy := "", UpdatedBy := "", IsActive := false }

/-- The non-admin principal Bob. -/
def bobInfo : UserInfo :=
  { UserID := "u2", Username := "bob", FirstName := "Bob", LastName := "Ray",
    Email := "bob@example.com", IsAdmin := false, JTI := "j2", TokenType := "access_token" }

/-- The admin principal Eve. -/
def eveInfo : UserInfo :=
  { UserID := "u9", Username := "eve", FirstName := "Eve", LastName := "Kim",
    Email := "eve@example.com", IsAdmin := true, JTI := "j9", TokenType := "access_token" }

/-- A context in which `AuthMiddleware` has bound the given principal. -/
def Context.boundTo (user : UserInfo) : Context :=
  { authorization := "Bearer aaa.bbb.ccc", written := [], aborted := false,
    currentUser := some user, nextCalled := false }

/-- Bob is Editor, Editor has `view_pet` and `edit_pet`; a second role Admin,
held by another user, has `delete_pet`. All rows active. -/
def editorDB : DB :=
  { DB.empty with
    roles := [{ base := activeBase "r-editor", Name := "Editor" },
              { base := activeBase "r-admin", Name := "Admin" }],
    permissions := [{ base := activeBase "p-view", Name := "view_pet" },
                    { base := activeBase "p-edit", Name := "edit_pet" },
                    { base := activeBase "p-del", Name := "delete_pet" }],
    role_permissions :=
      [{ base := activeBase "rp1", RoleID := "r-editor", PermissionID := "p-view" },
       { base := activeBase "rp2", RoleID := "r-editor", PermissionID := "p-edit" },
       { base := activeBase "rp3", RoleID := "r-admin", PermissionID := "p-del" }],
    user_roles := [{ base := activeBase "ur1", UserID := "u2", RoleID := "r-editor" },
                   { base := activeBase "ur2", UserID := "u7", RoleID := "r-admin" }] }

/-- Bob is linked to role Editor and Editor to `edit_pet`, but the role, the
`user_roles` row and the `role_permissions` row are all inactive; only the
permission row is active. -/
def inactiveLinksDB : DB :=
  { DB.empty with
    roles := [{ base := inactiveBase "r-editor", Name := "Editor" }],
    permissions := [{ base := activeBase "p-edit", Name := "edit_pet" }],
    role_permissions :=
      [{ base := inactiveBase "rp2", RoleID := "r-editor", PermissionID := "p-edit" }],
    user_roles := [{ base := inactiveBase "ur1", UserID := "u2", RoleID := "r-editor" }] }

/-- Tables in which `j1` has a blacklist entry that is not active. -/
def inactiveEntryDB : DB :=
  { DB.empty with
    token_blacklist :=
      [{ base := { ID := "b1", CreatedBy := "u1", UpdatedBy := "", IsActive := false },
         JTI := "j1" }] }

/-- A wire format with three token strings: the access token of Ann, her
refresh token, and her access token signed with another key; every other
string is malformed. -/
def threeTokenCodec : JwtCodec :=
  { SignedString := fun _ => Except.error "unsupported token",
    decode := fun s =>
      if s = "aaa.bbb.ccc" then some annAccessToken
      else if s = "rrr.sss.ttt" then some annRefreshToken
      else if s = "aaa.bbb.xxx" then some { annAccessToken with key := "other" }
      else none }

/-! ## utils/errors.go, utils/constants.go: the messages and names of the account services -/

def UserIsNotExist : String := "User does not exist"
def PasswordInvalid : String := "Invalid password"
def LoginError : String := "Login error"
def EmailTaken : String := "Email is already taken"
def RoleUser : String := "User"

/-! ## utils/functions.go: HashPassword, VerifyPassword -/

/-- The two functions of the external package `golang.org/x/crypto/bcrypt` that
the repository calls. `GenerateFromPassword password cost` yields the hash or an
error (the salt it draws is part of the parameter); `CompareHashAndPassword
hashedPassword password` yields `none` for the nil error. -/
structure Bcrypt where
  GenerateFromPassword : String → Nat → Except String String
  CompareHashAndPassword : String → String → Option String

/-- The constant `bcrypt.DefaultCost`. -/
def Bcrypt.DefaultCost : Nat := 10

def HashPassword (bcrypt : Bcrypt) (password : String) : Except String String :=
  bcrypt.GenerateFromPassword password Bcrypt.DefaultCost

def VerifyPassword (bcrypt : Bcrypt) (password hash : String) : Bool :=
  match bcrypt.CompareHashAndPassword hash password with
  | none => true
  | some _ => false

/-! ## repository/user_repository.go: the lookups of the account services -/

/-- The method `GetUserByEmail`: `Where("email = ? AND is_active = ?", email, true).First`. -/
def UserRepository.GetUserByEmail (db : DB) (fault : Option String) (email : String) :
    Except String User :=
  match fault with
  | some e => Except.error e
  | none =>
    match firstByID (fun u => u.base.ID)
        (db.users.filter (fun u => decide (u.Email = email) && u.base.IsActive)) with
    | some user => Except.ok user
    | none => Except.error "record not found"

/-- The method `GetRoleByName`: `Where("name = ? AND is_active = ?", name, true).First`. -/
def UserRepository.GetRoleByName (db : DB) (fault : Option String) (name : String) :
    Except String Role :=
  match fault with
  | some e => Except.error e
  | none =>
    match firstByID (fun r => r.base.ID)
        (db.roles.filter (fun r => decide (r.Name = name) && r.base.IsActive)) with
    | some role => Except.ok role
    | none => Except.error "record not found"

/-- The method `GetCommentByID`: `Where("id = ? AND is_active = ?", id, true).First`. -/
def UserRepository.GetCommentByID (db : DB) (fault : Option String) (id : String) :
    Except String Comment :=
  match fault with
  | some e => Except.error e
  | none =>
    match firstByID (fun c => c.base.ID)
        (db.comments.filter (fun c => decide (c.base.ID = id) && c.base.IsActive)) with
    | some comment => Except.ok comment
    | none => Except.error "record not found"

/-- The method `GetRolesPermissionsByUserID`: `roles` joined with `user_roles`
and `role_permissions` on the role id and with `permissions` on the permission
id, restricted by `user_roles.user_id = ?`; one map per joined row, in the
order the tables are listed. -/
def UserRepository.GetRolesPermissionsByUserID (db : DB) (fault : Option String)
    (userID : String) : Except String (List Row) :=
  match fault with
  | some e => Except.error e
  | none =>
    Except.ok
      (db.roles.flatMap (fun r =>
        db.user_roles.flatMap (fun ur =>
          db.role_permissions.flatMap (fun rp =>
            db.permissions.filterMap (fun p =>
              if ur.RoleID = r.base.ID ∧ rp.RoleID = r.base.ID ∧ p.base.ID = rp.PermissionID
                  ∧ ur.UserID = userID then
                some [("role_name", Value.str r.Name), ("role_id", Value.str r.base.ID),
                      ("permission_name", Value.str p.Name),
                      ("permission_id", Value.str p.base.ID)]
              else none)))))

/-! ## dto/dto.go: the requests and responses of the account services -/

structure UserRegisterRequest where
  FirstName : String
  LastName : String
  Email : String
  Phone : String
  Gender : Bool
  Password : String
deriving DecidableEq, Repr

structure LoginRequest where
  Email : String
  Password : String
deriving DecidableEq, Repr

structure LoginResponse where
  AccessToken : String
  RefreshToken : String
  Expire : Int
deriving DecidableEq, Repr

structure UserResponse where
  ID : String
  FirstName : String
  LastName : String
  Email : String
  Phone : String
  IsAdmin : Bool
  Avatar : String
  Roles : Option (List String)
  Permissions : Option (List String)
deriving DecidableEq, Repr

structure CommentRequest where
  Content : String
  ParentID : String
deriving DecidableEq, Repr

structure CommentResponse where
  ID : String
  Content : String
  CreatedAt : String
  UpdatedAt : String
  ParentID : String
  UserID : String
  FirstName : String
  LastName : String
  AvatarURL : String
deriving DecidableEq, Repr

/-! ## service/user_service.go: Register, Login, EditComment -/

/-- The loop `for _, r := range roles { if r == name { found = true; break } }`
followed by `if !found { roles = append(roles, name) }`. -/
def appendIfMissing (names : Option (List String)) (name : String) : Option (List String) :=
  if (names.getD []).any (fun r => decide (r = name)) then names else goAppend names name

/-- The loop of `Register` over the joined rows: the role names and the
permission names, each in order of first appearance. Both slices start nil. -/
def collectRolesPermissions (rolesPermissions : List Row) :
    Option (List String) × Option (List String) :=
  rolesPermissions.foldl
    (fun (acc : Option (List String) × Option (List String)) rp =>
      let roles :=
        match (column rp "role_name").asString with
        | some roleName => appendIfMissing acc.1 roleName
        | none => acc.1
      let permissions :=
        match (column rp "permission_name").asString with
        | some permName => appendIfMissing acc.2 permName
        | none => acc.2
      (roles, permissions))
    (none, none)

/-- The errors the database reports for the statements of `Register`. -/
structure RegisterFaults where
  getUser : Option String
  createUser : Option String
  getRole : Option String
  createUserRole : Option String
  getRolesPermissions : Option String
deriving DecidableEq, Repr

def RegisterFaults.none : RegisterFaults :=
  { getUser := Option.none, createUser := Option.none, getRole := Option.none,
    createUserRole := Option.none, getRolesPermissions := Option.none }

/-- The user that `Register` hands to `CreateUser`. -/
def registeredUser (req : UserRegisterRequest) (hashedPassword : String) : User :=
  { base := { ID := "", CreatedBy := "", UpdatedBy := "", IsActive := false },
    FirstName := req.FirstName,
    LastName := req.LastName,
    Email := req.Email,
    Phone := req.Phone,
    Username := (stringsSplit req.Email '@').headD "",
    Gender := req.Gender,
    Password := hashedPassword,
    AvatarURL := "",
    IsAdmin := false }

/-- The service method `userService.Register`: what it returns and the tables
afterwards. `newUserID` and `newLinkID` are the fresh UUIDs of the two inserts.
The error of the first lookup, of `CreateUserRole` and of the last query is
dropped, as in the source. -/
def userService.Register (bcrypt : Bcrypt) (db : DB) (faults : RegisterFaults)
    (newUserID newLinkID : String) (req : UserRegisterRequest) : Outcome UserResponse × DB :=
  match UserRepository.GetUserByEmail db faults.getUser req.Email with
  | Except.ok _ => (Outcome.error EmailTaken, db)
  | Except.error _ =>
    match HashPassword bcrypt req.Password with
    | Except.error e => (Outcome.error e, db)
    | Except.ok hashedPassword =>
      match UserRepository.CreateUser db faults.createUser newUserID
          (registeredUser req hashedPassword) with
      | Except.error e => (Outcome.error e, db)
      | Except.ok (db1, user) =>
        let db2 : DB :=
          match UserRepository.GetRoleByName db1 faults.getRole RoleUser with
          | Except.error _ => db1
          | Except.ok role =>
            let userRole : UserRole :=
              { base := { ID := "", CreatedBy := user.base.ID, UpdatedBy := "",
                          IsActive := false },
                UserID := user.base.ID, RoleID := role.base.ID }
            match UserRepository.CreateUserRole db1 faults.createUserRole newLinkID userRole with
            | Except.error _ => db1
            | Except.ok (dbr, _) => dbr
        let rolesPermissions : List Row :=
          match UserRepository.GetRolesPermissionsByUserID db2 faults.getRolesPermissions
              user.base.ID with
          | Except.ok rows => rows
          | Except.error _ => []
        let collected := collectRolesPermissions rolesPermissions
        (Outcome.ok
          { ID := user.base.ID, FirstName := user.FirstName, LastName := user.LastName,
            Email := user.Email, Phone := user.Phone, IsAdmin := user.IsAdmin,
            Avatar := user.AvatarURL, Roles := collected.1, Permissions := collected.2 },
         db2)

/-- The errors the database reports for the two statements of `Login`. -/
structure LoginFaults where
  getUser : Option String
  createHistory : Option String
deriving DecidableEq, Repr

def LoginFaults.none : LoginFaults := { getUser := Option.none, createHistory := Option.none }

/-- The service method `userService.Login`: what it returns and the tables
afterwards. `jti` is the result of `utils.GenerateUUID()`, `newID` the fresh
UUID of the inserted history row, `now1` and `now2` the two clock readings of
`GenerateToken`. -/
def userService.Login (cfg : Config) (codec : JwtCodec) (bcrypt : Bcrypt) (db : DB)
    (faults : LoginFaults) (jti newID : String) (now1 now2 : Int) (req : LoginRequest) :
    Outcome LoginResponse × DB :=
  match UserRepository.GetUserByEmail db faults.getUser req.Email with
  | Except.error _ => (Outcome.error UserIsNotExist, db)
  | Except.ok user =>
    if VerifyPassword bcrypt req.Password user.Password = false then
      (Outcome.error PasswordInvalid, db)
    else
      match GenerateToken cfg codec now1 now2 user.base.ID user.Username user.FirstName
          user.LastName user.Email jti user.IsAdmin with
      | Outcome.panic => (Outcome.panic, db)
      | Outcome.error _ => (Outcome.error LoginError, db)
      | Outcome.ok (accessToken, refreshToken, expire) =>
        let history : LoginHistory :=
          { base := { ID := "", CreatedBy := user.base.ID, UpdatedBy := "", IsActive := false },
            UserID := user.base.ID, JTI := jti, RefreshToken := refreshToken,
            AccessToken := accessToken }
        match UserRepository.CreateLoginHistory db faults.createHistory newID history with
        | Except.error e => (Outcome.error e, db)
        | Except.ok (db1, _) =>
          (Outcome.ok
            { AccessToken := accessToken, RefreshToken := refreshToken, Expire := expire },
           db1)

/-- The errors the database reports for the two statements of `EditComment`. -/
structure EditCommentFaults where
  getComment : Option String
  updateComment : Option String
deriving DecidableEq, Repr

def EditCommentFaults.none : EditCommentFaults :=
  { getComment := Option.none, updateComment := Option.none }

/-- The service method `userService.EditComment`: what it returns and the tables
afterwards. `updatedAt` is `time.Now()` in the layout "2006-01-02 15:04:05". The
parameter `petID` is received and never read, as in the source. -/
def userService.EditComment (db : DB) (faults : EditCommentFaults) (updatedAt : String)
    (userInfo : UserInfo) (petID commentID : String) (req : CommentRequest) :
    Outcome CommentResponse × DB :=
  let _ := petID
  match UserRepository.GetCommentByID db faults.getComment commentID with
  | Except.error _ => (Outcome.error "Comment not found", db)
  | Except.ok comment =>
    let comment : Comment :=
      { comment with Content := req.Content,
                     base := { comment.base with UpdatedBy := userInfo.UserID } }
    match UserRepository.UpdateComment db faults.updateComment comment with
    | Except.error e => (Outcome.error e, db)
    | Except.ok db1 =>
      (Outcome.ok
        { ID := comment.base.ID, Content := comment.Content, CreatedAt := "",
          UpdatedAt := updatedAt, ParentID := "", UserID := userInfo.UserID,
          FirstName := userInfo.FirstName, LastName := userInfo.LastName, AvatarURL := "" },
       db1)

/-! ## utils/functions.go: ParseDateTime -/

/-- The layout constant `time.RFC3339`. -/
def RFC3339 : String := "2006-01-02T15:04:05Z07:00"

/-- The function `ParseDateTime`. `timeParse layout value` is `time.Parse` of the
standard library, `none` when it returns an error. The result is the pointer
`*time.Time`, `none` for nil; the error result is nil on every path of the
source, so it is not represented. -/
def ParseDateTime (timeParse : String → String → Option Time) (dateStr : String) :
    Option Time :=
  ["2006-01-02", "2006-01-02 15:04:05", RFC3339].findSome?
    (fun layout => timeParse layout dateStr)

/-! ## dto/dto.go: the requests and responses of the pet services -/

structure PetCreateRequest where
  Name : String
  Gender : Bool
  DateOfBirth : String
  DateOfDeath : String
  Breed : String
  Description : String
  Type_ : String
deriving DecidableEq, Repr

structure PetResponse where
  ID : String
  Name : String
  Gender : Bool
  DateOfBirth : String
  DateOfDeath : String
  Breed : String
  Description : String
  Type_ : String
  AvtURL : String
deriving DecidableEq, Repr

structure PetLifeEventRequest where
  PetID : String
  Title : String
  Date : String
  Location : String
  Story : String
deriving DecidableEq, Repr

structure PetLifeEventResponse where
  ID : String
  PetID : String
  Title : String
  Date : String
deriving DecidableEq, Repr

/-! ## service/pet_service.go: CreatePet, CreatePetLifeEvent -/

/-- The service method `petService.CreatePet`: what it returns and the tables
afterwards. The response is built after the insert; its `DateOfBirth` calls
`Format` through the pointer `pet.DateOfBirth`, which panics on nil. -/
def petService.CreatePet (timeParse : String → String → Option Time) (db : DB)
    (fault : Option String) (newID : String) (userInfo : UserInfo) (req : PetCreateRequest) :
    Outcome PetResponse × DB :=
  let dateOfBirth := ParseDateTime timeParse req.DateOfBirth
  let dateOfDeath : Option Time :=
    if req.DateOfDeath ≠ "" then ParseDateTime timeParse req.DateOfDeath else none
  let pet : Pet :=
    { base := { ID := "", CreatedBy := userInfo.UserID, UpdatedBy := "", IsActive := false },
      Name := req.Name,
      DateOfBirth := dateOfBirth,
      DateOfDeath := dateOfDeath,
      Gender := req.Gender,
      Breed := req.Breed,
      Description := req.Description,
      AvtURL := "",
      Type_ := req.Type_,
      UserID := userInfo.UserID }
  match PetRepository.CreatePet db fault newID pet with
  | Except.error e => (Outcome.error e, db)
  | Except.ok (db1, pet) =>
    match pet.DateOfBirth with
    | none => (Outcome.panic, db1)
    | some birth =>
      (Outcome.ok
        { ID := pet.base.ID, Name := pet.Name, Gender := pet.Gender,
          DateOfBirth := birth.Format, DateOfDeath := "", Breed := pet.Breed,
          Description := pet.Description, Type_ := pet.Type_, AvtURL := "" },
       db1)

/-- The service method `petService.CreatePetLifeEvent`: what it returns and the
tables afterwards. The event literal dereferences the parsed date (`*date`),
which panics on nil, before the insert. -/
def petService.CreatePetLifeEvent (timeParse : String → String → Option Time) (db : DB)
    (fault : Option String) (newID : String) (userInfo : UserInfo)
    (req : PetLifeEventRequest) : Outcome PetLifeEventResponse × DB :=
  match ParseDateTime timeParse req.Date with
  | none => (Outcome.panic, db)
  | some date =>
    let event : PetLifeEvent :=
      { base := { ID := "", CreatedBy := userInfo.UserID, UpdatedBy := "", IsActive := false },
        PetID := req.PetID,
        Title := req.Title,
        Date := date,
        Location := req.Location,
        Story := req.Story }
    match PetRepository.CreateLifeEvent db fault newID event with
    | Except.error e => (Outcome.error e, db)
    | Except.ok (db1, event) =>
      (Outcome.ok
        { ID := event.base.ID, PetID := event.PetID, Title := event.Title,
          Date := event.Date.Format },
       db1)

/-! ## scheduler/scheduler.go, service/appointment_service.go -/

/-- The scheduler behind `scheduler.GetScheduler()`: `AddJob spec` is
`cron.AddFunc` of the external package `github.com/robfig/cron/v3` on the
instance made by `cron.New()`, yielding the entry id or the error of parsing
`spec`. -/
structure Scheduler where
  AddJob : String → Except String Nat

/-- The fields of `sendTime` that `RegisterAppointment` prints. -/
structure SendTime where
  second : Nat
  minute : Nat
  hour : Nat
  day : Nat
  month : Nat
deriving DecidableEq, Repr

/-- The string `fmt.Sprintf("%d %d %d %d %d *", ...)` of the five fields of `sendTime`. -/
def cronSpec (sendTime : SendTime) : String :=
  toString sendTime.second ++ " " ++ toString sendTime.minute ++ " " ++ toString sendTime.hour
    ++ " " ++ toString sendTime.day ++ " " ++ toString sendTime.month ++ " *"

structure AppointmentRequest where
  StartTime : String
  Message : String
deriving DecidableEq, Repr

structure AppointmentResponse where
  Code : String
  StartTime : String
deriving DecidableEq, Repr

/-- What one call of `RegisterAppointment` does: the response it returns (its
error result is always nil), the id of the job it added, if any, and the line
it logged when `AddJob` failed. -/
structure AppointmentRun where
  response : AppointmentResponse
  job : Option Nat
  logged : Option String
deriving DecidableEq, Repr

/-- The service method `appointmentService.RegisterAppointment`. `code` is the
result of `utils.GenerateTransactionCode()` and `sendTime` is
`time.Now().Add(10 * time.Second)`. -/
def appointmentService.RegisterAppointment (sch : Scheduler) (code : String)
    (sendTime : SendTime) (req : AppointmentRequest) : AppointmentRun :=
  let response : AppointmentResponse := { Code := code, StartTime := req.StartTime }
  match sch.AddJob (cronSpec sendTime) with
  | Except.ok id => { response := response, job := some id, logged := none }
  | Except.error err =>
    { response := response, job := none, logged := some ("Failed to schedule email: " ++ err) }

/-- The predicate `unicode.IsSpace`: the white space characters of Latin-1
and the Unicode category Z. -/
def isSpace (c : Char) : Bool :=
  c == '\t' || c == '\n' || c == '\x0b' || c == '\x0c' || c == '\r' || c == ' '
    || c == '\u0085' || c == '\u00a0' || c == '\u1680'
    || (decide ('\u2000' ≤ c) && decide (c ≤ '\u200a'))
    || c == '\u2028' || c == '\u2029' || c == '\u202f' || c == '\u205f' || c == '\u3000'

/-- The function `strings.Fields` on the characters of a string: the maximal
runs of characters that are not white space. `cur` holds the run being read,
last character first. -/
def fieldsAux : List Char → List Char → List (List Char)
  | [], cur => if cur = [] then [] else [cur.reverse]
  | c :: cs, cur =>
    if isSpace c = true then
      if cur = [] then fieldsAux cs [] else cur.reverse :: fieldsAux cs []
    else
      fieldsAux cs (c :: cur)

def stringsFields (s : String) : List String :=
  (fieldsAux s.toList []).map String.mk

/-- The law of the external package `github.com/robfig/cron/v3` for a scheduler
made by `cron.New()` without options, whose parser takes the five fields
minute, hour, day of month, month and day of week: a spec that begins with a
digit (so neither a descriptor `@...` nor a time-zone prefix) is accepted only
if it has exactly five fields. -/
def Scheduler.StandardParser (sch : Scheduler) : Prop :=
  ∀ spec id, sch.AddJob spec = Except.ok id →
    (∃ c cs, spec.toList = c :: cs ∧ c.isDigit = true) → (stringsFields spec).length = 5

/-! ## Concrete inputs for the account, pet and appointment services -/

/-- A wire format given by a finite table of tokens and their strings. -/
def tableCodec (table : List (Token × String)) : JwtCodec :=
  { SignedString := fun token =>
      match table.find? (fun e => decide (e.1 = token)) with
      | some e => Except.ok e.2
      | none => Except.error "unsupported token",
    decode := fun s => (table.find? (fun e => decide (e.2 = s))).map Prod.fst }

/-- The refresh token issued to Ann when the clock still reads 100 at the
second reading. -/
def annRefreshTokenAt100 : Token :=
  { alg := "HS256",
    claims := refreshClaims "u1" "ann" "Ann" "Lee" "ann@example.com" "j1" false 31536100,
    key := "s3cret" }

/-- A wire format that knows the two tokens issued to Ann within the second 100. -/
def sameSecondCodec : JwtCodec :=
  tableCodec [(annAccessToken, "aaa.bbb.ccc"), (annRefreshTokenAt100, "rrr.sss.uuu")]

/-- A stand-in for the password package: the hash of `p` is `p` behind a fixed
prefix, and only that string verifies against it. -/
def demoBcrypt : Bcrypt :=
  { GenerateFromPassword := fun password _ => Except.ok ("$2a$10$" ++ password),
    CompareHashAndPassword := fun hashedPassword password =>
      if hashedPassword = "$2a$10$" ++ password then none
      else some "hashedPassword is not the hash of the given password" }

/-- The row of Ann in `users`, as `Register` stores it. -/
def annUser : User :=
  { base := { ID := "u1", CreatedBy := "", UpdatedBy := "", IsActive := true },
    FirstName := "Ann", LastName := "Lee", Email := "ann@example.com", Phone := "0123",
    Username := "ann", Gender := true, Password := "$2a$10$hunter22", AvatarURL := "",
    IsAdmin := false }

/-- Tables that hold the account of Ann and nothing else. -/
def annDB : DB := { DB.empty with users := [annUser] }

def annLogin : LoginRequest := { Email := "ann@example.com", Password := "hunter22" }

/-- The token that `GenerateToken` signs first. -/
def issuedAccessToken (cfg : Config) (now1 : Int)
    (userID username firstName lastName email jti : String) (isAdmin : Bool) : Token :=
  { alg := "HS256",
    claims := accessClaims userID username firstName lastName email jti isAdmin
      (now1 + (AccessTokenExpire1Day : Int) * 60),
    key := cfg.SecretKey }

/-- The token that `GenerateToken` signs second. -/
def issuedRefreshToken (cfg : Config) (now2 : Int)
    (userID username firstName lastName email jti : String) (isAdmin : Bool) : Token :=
  { alg := "HS256",
    claims := refreshClaims userID username firstName lastName email jti isAdmin
      (now2 + 365 * 24 * 3600),
    key := cfg.SecretKey }

/-- The login-history record that `Login` hands to `CreateLoginHistory`. -/
def loginRecord (user : User) (jti accessToken refreshToken : String) : LoginHistory :=
  { base := { ID := "", CreatedBy := user.base.ID, UpdatedBy := "", IsActive := false },
    UserID := user.base.ID, JTI := jti, RefreshToken := refreshToken,
    AccessToken := accessToken }

/-- The login of Ann with a wrong password. -/
def annWrongLogin : LoginRequest := { Email := "ann@example.com", Password := "letmein" }

/-- The history row that the login of Ann at the second 100 inserts with id `h1`. -/
def annLoginRecord : LoginHistory :=
  { base := { ID := "h1", CreatedBy := "u1", UpdatedBy := "", IsActive := true },
    UserID := "u1", JTI := "j1", RefreshToken := "rrr.sss.uuu", AccessToken := "aaa.bbb.ccc" }

/-- An account with the address of Ann whose user name is not the part of the
address before the `@` (a seeded account), so that a second registration of
the address does not collide on the unique column `username`. -/
def rootUser : User :=
  { base := { ID := "u0", CreatedBy := "", UpdatedBy := "", IsActive := true },
    FirstName := "Root", LastName := "Account", Email := "ann@example.com", Phone := "0000",
    Username := "root", Gender := true, Password := "$2a$10$changeme", AvatarURL := "",
    IsAdmin := true }

def rootDB : DB := { DB.empty with users := [rootUser] }

def annRegistration : UserRegisterRequest :=
  { FirstName := "Ann", LastName := "Lee", Email := "ann@example.com", Phone := "0123",
    Gender := true, Password := "hunter22" }

/-- The row that `annRegistration` inserts with id `u1`. -/
def annRegistered : User :=
  { base := { ID := "u1", CreatedBy := "", UpdatedBy := "", IsActive := true },
    FirstName := "Ann", LastName := "Lee", Email := "ann@example.com", Phone := "0123",
    Username := "ann", Gender := true, Password := "$2a$10$hunter22", AvatarURL := "",
    IsAdmin := false }

/-- A token signed under the configured secret whose claims are the JTI, the
token type and the expiry only: none of the six identity claims is present. -/
def bareAccessToken : Token :=
  { alg := "HS256",
    claims := [("jti", Value.str "j7"), ("token_type", Value.str "access_token"),
               ("exp", Value.int 86500)],
    key := "s3cret" }

/-- The access token of Ann with the claim `is_admin` written as the string
"false" instead of a boolean. -/
def stringAdminToken : Token :=
  { alg := "HS256",
    claims := [("user_id", Value.str "u1"), ("username", Value.str "ann"),
               ("first_name", Value.str "Ann"), ("last_name", Value.str "Lee"),
               ("email", Value.str "ann@example.com"), ("is_admin", Value.str "false"),
               ("jti", Value.str "j8"), ("token_type", Value.str "access_token"),
               ("exp", Value.int 86500)],
    key := "s3cret" }

/-- A wire format that knows the two tokens above. -/
def foreignCodec : JwtCodec :=
  tableCodec [(bareAccessToken, "ddd.eee.fff"), (stringAdminToken, "ggg.hhh.iii")]

/-- A stand-in for `time.Parse` that knows one date under the layout
"2006-01-02" and rejects every other input, among them "someday", which the
function of the standard library rejects under each of the three layouts too. -/
def demoTimeParse (layout value : String) : Option Time :=
  if layout = "2006-01-02" ∧ value = "2020-05-17" then
    some { year := 2020, month := 5, day := 17 }
  else none

def rexRequest : PetCreateRequest :=
  { Name := "Rex", Gender := true, DateOfBirth := "2020-05-17", DateOfDeath := "",
    Breed := "Beagle", Description := "", Type_ := "dog" }

/-- The request `rexRequest` with a date of birth that matches no layout. -/
def rexSomedayRequest : PetCreateRequest := { rexRequest with DateOfBirth := "someday" }

def birthdayRequest : PetLifeEventRequest :=
  { PetID := "p1", Title := "Birthday", Date := "2020-05-17", Location := "", Story := "" }

/-- The request `birthdayRequest` with a date that matches no layout. -/
def somedayEventRequest : PetLifeEventRequest := { birthdayRequest with Date := "someday" }

/-- The row that `rexSomedayRequest` of Ann inserts with id `p1`: no date of birth. -/
def rexWithoutBirth : Pet :=
  { base := { ID := "p1", CreatedBy := "u1", UpdatedBy := "", IsActive := true },
    Name := "Rex", DateOfBirth := none, DateOfDeath := none, Gender := true,
    Breed := "Beagle", Description := "", AvtURL := "", Type_ := "dog", UserID := "u1" }

/-- A scheduler whose parser takes exactly five fields, as the one of `cron.New()`. -/
def fiveFieldScheduler : Scheduler :=
  { AddJob := fun spec =>
      if (stringsFields spec).length = 5 then Except.ok 1
      else
        Except.error
          ("expected exactly 5 fields, found " ++ toString (stringsFields spec).length) }

/-- The send time 13:07:05 on 4 November. -/
def novemberSendTime : SendTime := { second := 5, minute := 7, hour := 13, day := 4, month := 11 }

/-! # Theorems

## The result flattener -/

theorem mem_firstOccurrences (l : List String) (x : String) :
    x ∈ firstOccurrences l ↔ x ∈ l := by
  induction l with
  | nil => simp [firstOccurrences]
  | cons a l ih =>
    simp only [firstOccurrences, List.mem_cons, List.mem_filter, ih]
    by_cases h : x = a <;> simp [h]

theorem nodup_firstOccurrences (l : List String) : (firstOccurrences l).Nodup := by
  induction l with
  | nil => simp [firstOccurrences]
  | cons a l ih =>
    simp only [firstOccurrences, List.nodup_cons, List.mem_filter]
    exact ⟨by simp, ih.filter _⟩

theorem foldl_seenStep (os : List (Option String)) (acc : List String) :
    os.foldl seenStep acc
      = acc ++ (firstOccurrences (os.filterMap id)).filter (fun y => decide (y ∉ acc)) := by
  induction os generalizing acc with
  | nil => simp [firstOccurrences]
  | cons o os ih =>
    cases o with
    | none => simpa [seenStep] using ih acc
    | some x =>
      by_cases hx : x ∈ acc
      · simp only [List.foldl_cons, seenStep, hx, if_true, ih, List.filterMap_cons, id,
          firstOccurrences]
        congr 1
        rw [List.filter_cons_of_neg (by simpa using hx), List.filter_filter]
        apply List.filter_congr
        intro y _
        by_cases hy : y ∈ acc
        · simp [hy]
        · have : y ≠ x := fun h => hy (h ▸ hx)
          simp [hy, this]
      · simp only [List.foldl_cons, seenStep, hx, if_false, ih, List.filterMap_cons, id,
          firstOccurrences]
        rw [List.filter_cons_of_pos (by simpa using hx), List.filter_filter, List.append_assoc]
        congr 1
        simp only [List.singleton_append]
        congr 1
        apply List.filter_congr
        intro y _
        by_cases hy : y ∈ acc <;> by_cases hyx : y = x <;> simp [hy, hyx]

theorem indexOf_filter_lt (p : String → Bool) (l : List String) (x y : String)
    (hx : p x = true) (hy : p y = true) :
    (l.filter p).indexOf x < (l.filter p).indexOf y ↔ l.indexOf x < l.indexOf y := by
  induction l with
  | nil => simp
  | cons a l ih =>
    by_cases ha : p a = true
    · rw [List.filter_cons_of_pos ha]
      by_cases hxa : x = a <;> by_cases hya : y = a
      · subst hxa; subst hya; simp
      · subst hxa; simp [List.indexOf_cons_ne _ (Ne.symm hya)]
      · subst hya; simp [List.indexOf_cons_ne _ (Ne.symm hxa)]
      · simp [List.indexOf_cons_ne _ (Ne.symm hxa), List.indexOf_cons_ne _ (Ne.symm hya), ih]
    · rw [List.filter_cons_of_neg ha]
      have hxa : a ≠ x := fun h => ha (h ▸ hx)
      have hya : a ≠ y := fun h => ha (h ▸ hy)
      simp [List.indexOf_cons_ne _ hxa, List.indexOf_cons_ne _ hya, ih]

theorem firstOccurrences_order (l : List String) (x y : String) :
    (firstOccurrences l).indexOf x < (firstOccurrences l).indexOf y
      ↔ l.indexOf x < l.indexOf y := by
  induction l with
  | nil => simp [firstOccurrences]
  | cons a l ih =>
    simp only [firstOccurrences]
    by_cases hxa : x = a <;> by_cases hya : y = a
    · subst hxa; subst hya; simp
    · subst hxa; simp [List.indexOf_cons_ne _ (Ne.symm hya)]
    · subst hya; simp [List.indexOf_cons_ne _ (Ne.symm hxa)]
    · simp only [List.indexOf_cons_ne _ (Ne.symm hxa), List.indexOf_cons_ne _ (Ne.symm hya),
        Nat.succ_lt_succ_iff, Nat.add_lt_add_iff_right]
      rw [indexOf_filter_lt _ _ _ _ (by simpa using hxa) (by simpa using hya)]
      exact ih



theorem BoolMap.get_setTrue (m : BoolMap) (k k' : String) :
    (m.setTrue k).get k' = (decide (k' = k) || m.get k') := by
  by_cases h : k' = k
  · subst h; simp [BoolMap.get, BoolMap.setTrue, List.lookup]
  · have : (k' == k) = false := by simpa using h
    simp [BoolMap.get, BoolMap.setTrue, List.lookup, this, h]

theorem setPetInfo_of_ne (resp : PetDetailResponse) (r : Row) (h : resp.ID ≠ "") :
    setPetInfo resp r = some resp := by
  simp [setPetInfo, h]

theorem setPetInfo_children (resp resp' : PetDetailResponse) (r : Row)
    (h : setPetInfo resp r = some resp') :
    resp'.Events = resp.Events ∧ resp'.Medias = resp.Medias := by
  unfold setPetInfo at h
  split at h
  · cases h1 : (column r "pet_id").asString <;> cases h2 : (column r "pet_name").asString <;>
      cases h3 : (column r "pet_gender").asBool <;>
      simp [h1, h2, h3] at h
    subst h
    constructor <;> (split <;> split <;> split <;> split <;> rfl)
  · cases h; exact ⟨rfl, rfl⟩

theorem setPetInfo_typed (resp : PetDetailResponse) (r : Row) (h : petColumnsTyped r = true) :
    ∃ resp', setPetInfo resp r = some resp' := by
  simp only [petColumnsTyped, Bool.and_eq_true, Option.isSome_iff_exists] at h
  obtain ⟨⟨⟨a, ha⟩, ⟨b, hb⟩⟩, ⟨c, hc⟩⟩ := h
  unfold setPetInfo
  split
  · simp [ha, hb, hc]
  · exact ⟨_, rfl⟩



theorem childId_of_asString (key : String) (r : Row) :
    childId key r =
      match (column r key).asString with
      | some s => if s = "" then none else some s
      | none => none := by
  unfold childId
  cases column r key <;> rfl

theorem eventIdsOf_append (resp : PetDetailResponse) (es : List PetLifeEventItem)
    (e : PetLifeEventItem) (h : resp.Events = some es) :
    eventIdsOf { resp with Events := goAppend resp.Events e } = eventIdsOf resp ++ [e.ID] := by
  simp [eventIdsOf, h, goAppend]

theorem mediaIdsOf_append (resp : PetDetailResponse) (ms : List MediaItem)
    (m : MediaItem) (h : resp.Medias = some ms) :
    mediaIdsOf { resp with Medias := goAppend resp.Medias m } = mediaIdsOf resp ++ [m.ID] := by
  simp [mediaIdsOf, h, goAppend]

theorem buildEvent_id (eventID : String) (r : Row) (e : PetLifeEventItem)
    (h : buildEvent eventID r = some e) : e.ID = eventID := by
  unfold buildEvent at h
  cases h1 : (column r "event_title").asString <;> simp [h1] at h
  subst h
  split <;> split <;> split <;> rfl

theorem buildEvent_typed (eventID : String) (r : Row)
    (h : (column r "event_title").asString.isSome = true) :
    ∃ e, buildEvent eventID r = some e := by
  obtain ⟨t, ht⟩ := Option.isSome_iff_exists.mp h
  simp [buildEvent, ht]

theorem addEvent_typed (st : FlattenState) (r : Row) (h : eventColumnsTyped r = true) :
    ∃ st', addEvent st r = some st' := by
  unfold addEvent
  cases hE : (column r "event_id").asString with
  | none => exact ⟨_, rfl⟩
  | some eventID =>
    simp only
    split
    · rename_i hc
      have hid : childId "event_id" r = some eventID := by
        rw [childId_of_asString, hE]; simp [hc.1]
      simp only [eventColumnsTyped, hid, Option.isNone_some, Bool.false_or] at h
      obtain ⟨e, he⟩ := buildEvent_typed eventID r h
      simp [he]
    · exact ⟨_, rfl⟩

theorem addEvent_spec (st st' : FlattenState) (r : Row)
    (hinv : ∀ k, st.eventIDs.get k = true ↔ k ∈ eventIdsOf st.response)
    (hsome : st.response.Events.isSome = true)
    (h : addEvent st r = some st') :
    eventIdsOf st'.response = seenStep (eventIdsOf st.response) (childId "event_id" r)
      ∧ (∀ k, st'.eventIDs.get k = true ↔ k ∈ eventIdsOf st'.response)
      ∧ st'.response.Events.isSome = true
      ∧ st'.response.Medias = st.response.Medias ∧ st'.mediaIDs = st.mediaIDs
      ∧ scalarsOf st'.response = scalarsOf st.response := by
  obtain ⟨es, hes⟩ := Option.isSome_iff_exists.mp hsome
  unfold addEvent at h
  rw [childId_of_asString]
  cases hE : (column r "event_id").asString with
  | none =>
    simp only [hE] at h
    cases h
    exact ⟨by simp [seenStep], hinv, hsome, rfl, rfl, rfl⟩
  | some eventID =>
    simp only [hE] at h
    split at h
    · rename_i hc
      cases hb : buildEvent eventID r with
      | none => simp [hb] at h
      | some e =>
        have hid := buildEvent_id eventID r e hb
        simp only [hb, Option.bind_eq_bind, Option.some_bind, Option.pure_def, Option.some.injEq] at h
        subst h
        have hnot : eventID ∉ eventIdsOf st.response := by
          intro hmem
          have := (hinv eventID).mpr hmem
          rw [hc.2] at this
          exact Bool.noConfusion this
        refine ⟨?_, ?_, ?_, rfl, rfl, rfl⟩
        · simp only [eventIdsOf_append _ es e hes, hid]
          simp [seenStep, hc.1, hnot]
        · intro k
          simp only [eventIdsOf_append _ es e hes, hid, BoolMap.get_setTrue, Bool.or_eq_true,
            decide_eq_true_eq, hinv k, List.mem_append, List.mem_singleton]
          tauto
        · simp [hes, goAppend]
    · rename_i hc
      cases h
      refine ⟨?_, hinv, hsome, rfl, rfl, rfl⟩
      by_cases he : eventID = ""
      · simp [he, seenStep]
      · have hget : st.eventIDs.get eventID = true := by
          by_contra hg
          exact hc ⟨he, by simpa using hg⟩
        simp [he, seenStep, (hinv eventID).mp hget]

theorem addMedia_typed (st : FlattenState) (r : Row) (h : mediaColumnsTyped r = true) :
    ∃ st', addMedia st r = some st' := by
  unfold addMedia
  cases hE : (column r "media_id").asString with
  | none => exact ⟨_, rfl⟩
  | some mediaID =>
    simp only
    split
    · rename_i hc
      have hid : childId "media_id" r = some mediaID := by
        rw [childId_of_asString, hE]; simp [hc.1]
      simp only [mediaColumnsTyped, hid, Option.isNone_some, Bool.false_or] at h
      obtain ⟨u, hu⟩ := Option.isSome_iff_exists.mp h
      simp [hu]
    · exact ⟨_, rfl⟩

theorem addMedia_spec (st st' : FlattenState) (r : Row)
    (hinv : ∀ k, st.mediaIDs.get k = true ↔ k ∈ mediaIdsOf st.response)
    (hsome : st.response.Medias.isSome = true)
    (h : addMedia st r = some st') :
    mediaIdsOf st'.response = seenStep (mediaIdsOf st.response) (childId "media_id" r)
      ∧ (∀ k, st'.mediaIDs.get k = true ↔ k ∈ mediaIdsOf st'.response)
      ∧ st'.response.Medias.isSome = true
      ∧ st'.response.Events = st.response.Events ∧ st'.eventIDs = st.eventIDs
      ∧ scalarsOf st'.response = scalarsOf st.response := by
  obtain ⟨ms, hms⟩ := Option.isSome_iff_exists.mp hsome
  unfold addMedia at h
  rw [childId_of_asString]
  cases hE : (column r "media_id").asString with
  | none =>
    simp only [hE] at h
    cases h
    exact ⟨by simp [seenStep], hinv, hsome, rfl, rfl, rfl⟩
  | some mediaID =>
    simp only [hE] at h
    split at h
    · rename_i hc
      cases hb : (column r "media_url").asString with
      | none => simp [hb] at h
      | some url =>
        simp only [hb, Option.bind_eq_bind, Option.some_bind, Option.pure_def, Option.some.injEq] at h
        subst h
        have hnot : mediaID ∉ mediaIdsOf st.response := by
          intro hmem
          have := (hinv mediaID).mpr hmem
          rw [hc.2] at this
          exact Bool.noConfusion this
        refine ⟨?_, ?_, ?_, rfl, rfl, rfl⟩
        · simp only [mediaIdsOf_append _ ms _ hms]
          simp [seenStep, hc.1, hnot]
        · intro k
          simp only [mediaIdsOf_append _ ms _ hms, BoolMap.get_setTrue, Bool.or_eq_true,
            decide_eq_true_eq, hinv k, List.mem_append, List.mem_singleton]
          tauto
        · simp [hms, goAppend]
    · rename_i hc
      cases h
      refine ⟨?_, hinv, hsome, rfl, rfl, rfl⟩
      by_cases he : mediaID = ""
      · simp [he, seenStep]
      · have hget : st.mediaIDs.get mediaID = true := by
          by_contra hg
          exact hc ⟨he, by simpa using hg⟩
        simp [he, seenStep, (hinv mediaID).mp hget]



theorem SeenInv_init : SeenInv FlattenState.init := by
  constructor <;> simp [FlattenState.init, eventIdsOf, mediaIdsOf, BoolMap.get]

theorem flattenRow_spec (st st' : FlattenState) (r : Row) (hinv : SeenInv st)
    (h : flattenRow st r = some st') :
    SeenInv st'
      ∧ eventIdsOf st'.response = seenStep (eventIdsOf st.response) (childId "event_id" r)
      ∧ mediaIdsOf st'.response = seenStep (mediaIdsOf st.response) (childId "media_id" r)
      ∧ ∃ resp1, setPetInfo st.response r = some resp1
          ∧ scalarsOf st'.response = scalarsOf resp1 := by
  unfold flattenRow at h
  cases h1 : setPetInfo st.response r with
  | none => simp [h1] at h
  | some resp1 =>
    obtain ⟨hE, hM⟩ := setPetInfo_children _ _ _ h1
    cases h2 : addEvent { st with response := resp1 } r with
    | none => simp [h1, h2] at h
    | some st2 =>
      simp only [h1, h2, Option.bind_eq_bind, Option.some_bind] at h
      have hev : ∀ k, st.eventIDs.get k = true ↔ k ∈ eventIdsOf resp1 := by
        intro k; rw [hinv.events k]; simp [eventIdsOf, hE]
      have a := addEvent_spec { st with response := resp1 } st2 r hev
        (by simpa [hE] using hinv.events_some) h2
      obtain ⟨a1, a2, a3, a4, a5, a6⟩ := a
      simp only at a1 a4 a5 a6
      have hmd : ∀ k, st2.mediaIDs.get k = true ↔ k ∈ mediaIdsOf st2.response := by
        intro k; rw [a5, hinv.medias k]; simp [mediaIdsOf, a4, hM]
      have b := addMedia_spec st2 st' r hmd (by rw [a4, hM]; exact hinv.medias_some) h
      obtain ⟨b1, b2, b3, b4, b5, b6⟩ := b
      refine ⟨⟨?_, b3, ?_, b2⟩, ?_, ?_, resp1, rfl, ?_⟩
      · rw [b4]; exact a3
      · intro k; rw [b5, a2 k]; simp [eventIdsOf, b4]
      · have : eventIdsOf st'.response = eventIdsOf st2.response := by simp [eventIdsOf, b4]
        rw [this, a1]; simp [eventIdsOf, hE]
      · rw [b1]; simp [mediaIdsOf, a4, hM]
      · rw [b6, a6]

theorem flattenRow_typed (st : FlattenState) (r : Row) (h : rowTyped r = true) :
    ∃ st', flattenRow st r = some st' := by
  simp only [rowTyped, Bool.and_eq_true] at h
  obtain ⟨⟨hp, he⟩, hm⟩ := h
  obtain ⟨resp1, h1⟩ := setPetInfo_typed st.response r hp
  obtain ⟨st2, h2⟩ := addEvent_typed { st with response := resp1 } r he
  obtain ⟨st3, h3⟩ := addMedia_typed st2 r hm
  exact ⟨st3, by simp [flattenRow, h1, h2, h3]⟩

theorem flattenLoop_typed (rs : List Row) (st : FlattenState)
    (h : ∀ r ∈ rs, rowTyped r = true) : ∃ st', flattenLoop rs st = some st' := by
  induction rs generalizing st with
  | nil => exact ⟨st, rfl⟩
  | cons r rs ih =>
    obtain ⟨st1, h1⟩ := flattenRow_typed st r (h r (List.mem_cons_self _ _))
    obtain ⟨st2, h2⟩ := ih st1 (fun x hx => h x (List.mem_cons_of_mem _ hx))
    exact ⟨st2, by simp [flattenLoop, h1, h2]⟩

theorem flattenLoop_spec (rs : List Row) (st st' : FlattenState) (hinv : SeenInv st)
    (h : flattenLoop rs st = some st') :
    SeenInv st'
      ∧ eventIdsOf st'.response
          = (rs.map (childId "event_id")).foldl seenStep (eventIdsOf st.response)
      ∧ mediaIdsOf st'.response
          = (rs.map (childId "media_id")).foldl seenStep (mediaIdsOf st.response)
      ∧ (st.response.ID ≠ "" → scalarsOf st'.response = scalarsOf st.response) := by
  induction rs generalizing st with
  | nil =>
    simp only [flattenLoop, Option.some.injEq] at h
    subst h
    exact ⟨hinv, rfl, rfl, fun _ => rfl⟩
  | cons r rs ih =>
    unfold flattenLoop at h
    cases h1 : flattenRow st r with
    | none => simp [h1] at h
    | some st1 =>
      simp only [h1] at h
      obtain ⟨i1, e1, m1, resp1, hp, hs⟩ := flattenRow_spec st st1 r hinv h1
      obtain ⟨i2, e2, m2, s2⟩ := ih st1 i1 h
      refine ⟨i2, ?_, ?_, ?_⟩
      · rw [e2, e1]; rfl
      · rw [m2, m1]; rfl
      · intro hne
        rw [setPetInfo_of_ne _ _ hne] at hp
        cases hp
        have hne1 : st1.response.ID ≠ "" := by
          have := congrArg Prod.fst hs
          simp only [scalarsOf] at this
          rw [this]; exact hne
        rw [s2 hne1, hs]



theorem firstOccurrences_distinct (l : List String) :
    DistinctInFirstSeenOrder (firstOccurrences l) l :=
  ⟨nodup_firstOccurrences l, mem_firstOccurrences l, firstOccurrences_order l⟩

theorem foldl_seenStep_nil (f : Row → Option String) (rs : List Row) :
    (rs.map f).foldl seenStep [] = firstOccurrences (rs.filterMap f) := by
  rw [foldl_seenStep]
  simp [List.filterMap_map]

theorem GetPetDetail_of_rows (r : Row) (rs : List Row) :
    GetPetDetail (r :: rs) none =
      match flattenLoop (r :: rs) FlattenState.init with
      | some st => Outcome.ok st.response
      | none => Outcome.panic := by
  simp [GetPetDetail]

theorem GetPetDetail_ok_iff (rs : List Row) (hne : rs ≠ []) (v : PetDetailResponse) :
    GetPetDetail rs none = Outcome.ok v
      ↔ ∃ st, flattenLoop rs FlattenState.init = some st ∧ st.response = v := by
  cases rs with
  | nil => exact absurd rfl hne
  | cons r rs =>
    rw [GetPetDetail_of_rows]
    cases flattenLoop (r :: rs) FlattenState.init <;> simp

/-- On well-typed rows the whole loop runs and leaves, per child type, the
identifiers of the rows in order of first occurrence. -/
theorem flatten_children (rs : List Row) (hne : rs ≠ [])
    (htyped : ∀ r ∈ rs, rowTyped r = true) :
    ∃ v es ms, GetPetDetail rs none = Outcome.ok v
      ∧ v.Events = some es ∧ v.Medias = some ms
      ∧ es.map (fun e => e.ID) = firstOccurrences (childIds "event_id" rs)
      ∧ ms.map (fun m => m.ID) = firstOccurrences (childIds "media_id" rs) := by
  obtain ⟨st, hst⟩ := flattenLoop_typed rs FlattenState.init htyped
  obtain ⟨hinv, he, hm, _⟩ := flattenLoop_spec rs FlattenState.init st SeenInv_init hst
  obtain ⟨es, hes⟩ := Option.isSome_iff_exists.mp hinv.events_some
  obtain ⟨ms, hms⟩ := Option.isSome_iff_exists.mp hinv.medias_some
  refine ⟨st.response, es, ms, (GetPetDetail_ok_iff rs hne _).mpr ⟨st, hst, rfl⟩, hes, hms, ?_, ?_⟩
  · have : eventIdsOf st.response = es.map (fun e => e.ID) := by simp [eventIdsOf, hes]
    rw [← this, he]
    exact foldl_seenStep_nil _ rs
  · have : mediaIdsOf st.response = ms.map (fun m => m.ID) := by simp [mediaIdsOf, hms]
    rw [← this, hm]
    exact foldl_seenStep_nil _ rs

theorem setPetInfo_init_scalars (r : Row) (resp1 : PetDetailResponse)
    (h : setPetInfo FlattenState.init.response r = some resp1) :
    scalarsOf resp1 = rowScalars r := by
  unfold setPetInfo at h
  simp only [FlattenState.init, if_true] at h
  cases h1 : (column r "pet_id").asString <;> cases h2 : (column r "pet_name").asString <;>
    cases h3 : (column r "pet_gender").asBool <;>
    simp [h1, h2, h3] at h
  subst h
  cases h4 : (column r "pet_breed").asString <;>
    cases h5 : (column r "pet_description").asString <;>
    cases h6 : (column r "pet_date_of_birth").asTime <;>
    cases h7 : (column r "pet_date_of_death").asTime <;>
    simp [scalarsOf, rowScalars, stringOrEmpty, boolOrFalse, dateOrEmpty, h1, h2, h3, h4, h5,
      h6, h7]

/-- When the first row's `pet_id` is a non-empty string, the scalar fields of
the returned view are those of the first row, whatever later rows hold. -/
theorem GetPetDetail_first_row_scalars (r0 : Row) (rest : List Row) (v : PetDetailResponse)
    (h : GetPetDetail (r0 :: rest) none = Outcome.ok v)
    (hid : stringOrEmpty (column r0 "pet_id") ≠ "") :
    scalarsOf v = rowScalars r0 := by
  obtain ⟨st, hst, hv⟩ := (GetPetDetail_ok_iff _ (List.cons_ne_nil _ _) v).mp h
  subst hv
  unfold flattenLoop at hst
  cases h1 : flattenRow FlattenState.init r0 with
  | none => simp [h1] at hst
  | some st1 =>
    simp only [h1] at hst
    obtain ⟨i1, _, _, resp1, hp, hs⟩ := flattenRow_spec _ st1 r0 SeenInv_init h1
    have hsc := setPetInfo_init_scalars r0 resp1 hp
    obtain ⟨_, _, _, s2⟩ := flattenLoop_spec rest st1 st i1 hst
    have hne1 : st1.response.ID ≠ "" := by
      have := congrArg Prod.fst (hs.trans hsc)
      simp only [scalarsOf, rowScalars] at this
      rw [this]; exact hid
    rw [s2 hne1, hs, hsc]

/-! ### Appending rows that already occur -/

theorem flattenLoop_append (rs ds : List Row) (st : FlattenState) :
    flattenLoop (rs ++ ds) st = (flattenLoop rs st).bind (flattenLoop ds) := by
  induction rs generalizing st with
  | nil => simp [flattenLoop]
  | cons r rs ih =>
    simp only [List.cons_append, flattenLoop]
    cases flattenRow st r with
    | none => simp
    | some st1 => simpa using ih st1

theorem addEvent_seen (st : FlattenState) (r : Row)
    (h : ∀ x, childId "event_id" r = some x → st.eventIDs.get x = true) :
    addEvent st r = some st := by
  unfold addEvent
  cases hE : (column r "event_id").asString with
  | none => rfl
  | some eventID =>
    simp only
    split
    · rename_i hc
      have hid : childId "event_id" r = some eventID := by
        rw [childId_of_asString, hE]; simp [hc.1]
      rw [h eventID hid] at hc
      exact absurd hc.2 (by simp)
    · rfl

theorem addMedia_seen (st : FlattenState) (r : Row)
    (h : ∀ x, childId "media_id" r = some x → st.mediaIDs.get x = true) :
    addMedia st r = some st := by
  unfold addMedia
  cases hE : (column r "media_id").asString with
  | none => rfl
  | some mediaID =>
    simp only
    split
    · rename_i hc
      have hid : childId "media_id" r = some mediaID := by
        rw [childId_of_asString, hE]; simp [hc.1]
      rw [h mediaID hid] at hc
      exact absurd hc.2 (by simp)
    · rfl

theorem setPetInfo_typed_of_some (resp resp' : PetDetailResponse) (r : Row)
    (hid : resp.ID = "") (h : setPetInfo resp r = some resp') : petColumnsTyped r = true := by
  unfold setPetInfo at h
  simp only [hid, if_true] at h
  cases h1 : (column r "pet_id").asString <;> cases h2 : (column r "pet_name").asString <;>
    cases h3 : (column r "pet_gender").asBool <;>
    simp [h1, h2, h3] at h
  simp [petColumnsTyped, h1, h2, h3]

/-- A run that ends with the identifier still empty has read the parent
columns of every row. -/
theorem flattenLoop_empty_id_typed (rs : List Row) (st st' : FlattenState) (hinv : SeenInv st)
    (h : flattenLoop rs st = some st') (hid : st'.response.ID = "") :
    ∀ r ∈ rs, petColumnsTyped r = true := by
  induction rs generalizing st with
  | nil => intro r hr; cases hr
  | cons r0 rs ih =>
    unfold flattenLoop at h
    cases h1 : flattenRow st r0 with
    | none => simp [h1] at h
    | some st1 =>
      simp only [h1] at h
      obtain ⟨i1, _, _, resp1, hp, hs⟩ := flattenRow_spec st st1 r0 hinv h1
      have hst : st.response.ID = "" := by
        by_contra hne
        obtain ⟨_, _, _, s⟩ := flattenLoop_spec (r0 :: rs) st st' hinv
          (by simp [flattenLoop, h1, h])
        have := congrArg Prod.fst (s hne)
        simp only [scalarsOf] at this
        exact hne (this ▸ hid)
      intro r hr
      rcases List.mem_cons.mp hr with rfl | hr
      · exact setPetInfo_typed_of_some _ _ _ hst hp
      · exact ih st1 i1 h r hr

theorem mem_childIds (key : String) (rs : List Row) (r : Row) (x : String) (hr : r ∈ rs)
    (hx : childId key r = some x) : x ∈ childIds key rs := by
  simp only [childIds, List.mem_filterMap]
  exact ⟨r, hr, hx⟩

/-- After a run over `rs`, processing once more a row of `rs` changes neither
child collection, and changes nothing at all when the identifier is set. -/
theorem flattenRow_seen_row (rs : List Row) (st : FlattenState) (r : Row)
    (h : flattenLoop rs FlattenState.init = some st) (hr : r ∈ rs) :
    ∃ st', flattenRow st r = some st'
      ∧ st'.response.Events = st.response.Events ∧ st'.response.Medias = st.response.Medias
      ∧ st'.eventIDs = st.eventIDs ∧ st'.mediaIDs = st.mediaIDs
      ∧ (st.response.ID ≠ "" → st' = st) := by
  obtain ⟨hinv, he, hm, _⟩ := flattenLoop_spec rs FlattenState.init st SeenInv_init h
  rw [show eventIdsOf FlattenState.init.response = [] from rfl, foldl_seenStep_nil] at he
  rw [show mediaIdsOf FlattenState.init.response = [] from rfl, foldl_seenStep_nil] at hm
  have hev : ∀ x, childId "event_id" r = some x → st.eventIDs.get x = true := by
    intro x hx
    rw [hinv.events x, he, mem_firstOccurrences]
    exact mem_childIds _ _ _ _ hr hx
  have hmd : ∀ x, childId "media_id" r = some x → st.mediaIDs.get x = true := by
    intro x hx
    rw [hinv.medias x, hm, mem_firstOccurrences]
    exact mem_childIds _ _ _ _ hr hx
  have hpet : ∃ resp1, setPetInfo st.response r = some resp1
      ∧ (st.response.ID ≠ "" → resp1 = st.response) := by
    by_cases hid : st.response.ID = ""
    · obtain ⟨resp1, h1⟩ := setPetInfo_typed st.response r
        (flattenLoop_empty_id_typed rs _ st SeenInv_init h hid r hr)
      exact ⟨resp1, h1, fun hne => absurd hid hne⟩
    · exact ⟨st.response, setPetInfo_of_ne _ _ hid, fun _ => rfl⟩
  obtain ⟨resp1, h1, hsame⟩ := hpet
  obtain ⟨hE, hM⟩ := setPetInfo_children _ _ _ h1
  refine ⟨{ st with response := resp1 }, ?_, hE, hM, rfl, rfl, ?_⟩
  · unfold flattenRow
    simp only [h1, Option.bind_eq_bind, Option.some_bind]
    rw [addEvent_seen { st with response := resp1 } r hev]
    simp only [Option.some_bind]
    exact addMedia_seen { st with response := resp1 } r hmd
  · intro hne
    rw [hsame hne]

/-- Rows that already occur, appended after the result set, leave `Events` and
`Medias` as they are, and the whole view when its identifier is not empty. -/
theorem GetPetDetail_append_seen (rs ds : List Row) (hne : rs ≠ [])
    (hds : ∀ d ∈ ds, d ∈ rs) (v : PetDetailResponse)
    (h : GetPetDetail rs none = Outcome.ok v) :
    ∃ v', GetPetDetail (rs ++ ds) none = Outcome.ok v'
      ∧ v'.Events = v.Events ∧ v'.Medias = v.Medias ∧ (v.ID ≠ "" → v' = v) := by
  induction ds generalizing rs v with
  | nil => exact ⟨v, by simpa using h, rfl, rfl, fun _ => rfl⟩
  | cons d ds ih =>
    obtain ⟨st, hst, hv⟩ := (GetPetDetail_ok_iff rs hne v).mp h
    subst hv
    obtain ⟨st1, h1, e1, m1, _, _, s1⟩ :=
      flattenRow_seen_row rs st d hst (hds d (List.mem_cons_self _ _))
    have hne1 : rs ++ [d] ≠ [] := by simp
    have hrun : GetPetDetail (rs ++ [d]) none = Outcome.ok st1.response := by
      rw [GetPetDetail_ok_iff _ hne1]
      refine ⟨st1, ?_, rfl⟩
      rw [flattenLoop_append, hst]
      simp [flattenLoop, h1]
    have hds1 : ∀ x ∈ ds, x ∈ rs ++ [d] := fun x hx =>
      List.mem_append_left _ (hds x (List.mem_cons_of_mem _ hx))
    obtain ⟨v', hv', e2, m2, s2⟩ := ih (rs ++ [d]) hne1 hds1 st1.response hrun
    refine ⟨v', by simpa using hv', e2.trans e1, m2.trans m1, ?_⟩
    intro hid
    have hst1 : st1 = st := s1 hid
    rw [s2 (by rw [hst1]; exact hid), hst1]

/-! ### Claims C1 to C5 -/

/-- C1. For every non-empty list of joined rows whose unchecked columns have the
asserted types (string `pet_id` and `pet_name`, bool `pet_gender`, string
`event_title` and `media_url` on the rows that carry the child id),
`GetPetDetail` returns a view whose `Events` ids are exactly the distinct
non-null, non-empty `event_id` values of the rows, each once, in order of first
occurrence, and whose `Medias` ids are built the same way from `media_id`. -/
theorem GetPetDetail_children_first_occurrence (rs : List Row) (hne : rs ≠ [])
    (htyped : ∀ r ∈ rs, rowTyped r = true) :
    ∃ v es ms, GetPetDetail rs none = Outcome.ok v
      ∧ v.Events = some es ∧ v.Medias = some ms
      ∧ es.map (fun e => e.ID) = firstOccurrences (childIds "event_id" rs)
      ∧ ms.map (fun m => m.ID) = firstOccurrences (childIds "media_id" rs)
      ∧ DistinctInFirstSeenOrder (es.map (fun e => e.ID)) (childIds "event_id" rs)
      ∧ DistinctInFirstSeenOrder (ms.map (fun m => m.ID)) (childIds "media_id" rs) := by
  obtain ⟨v, es, ms, h, hes, hms, he, hm⟩ := flatten_children rs hne htyped
  refine ⟨v, es, ms, h, hes, hms, he, hm, ?_, ?_⟩
  · rw [he]; exact firstOccurrences_distinct _
  · rw [hm]; exact firstOccurrences_distinct _

/-- C1 at the six rows of two events times three medias: exactly two event views
`e1, e2` and three media views `m1, m2, m3`. -/
theorem GetPetDetail_children_first_occurrence_witness :
    (sixRows ≠ [] ∧ ∀ r ∈ sixRows, rowTyped r = true)
      ∧ ∃ v es ms, GetPetDetail sixRows none = Outcome.ok v
          ∧ v.Events = some es ∧ v.Medias = some ms
          ∧ es.map (fun e => e.ID) = ["e1", "e2"]
          ∧ ms.map (fun m => m.ID) = ["m1", "m2", "m3"]
          ∧ es.length = 2 ∧ ms.length = 3 := by
  refine ⟨⟨by decide, by decide⟩, ?_⟩
  obtain ⟨v, es, ms, h, hes, hms, he, hm, _, _⟩ :=
    GetPetDetail_children_first_occurrence sixRows (by decide) (by decide)
  have he2 : firstOccurrences (childIds "event_id" sixRows) = ["e1", "e2"] := by decide
  have hm2 : firstOccurrences (childIds "media_id" sixRows) = ["m1", "m2", "m3"] := by decide
  rw [he2] at he
  rw [hm2] at hm
  refine ⟨v, es, ms, h, hes, hms, he, hm, ?_, ?_⟩
  · simpa using congrArg List.length he
  · simpa using congrArg List.length hm

/-- C2, the code at a failing input. Both rows of `emptyIdRows` have the empty
string as `pet_id`, so the guard `response.ID == ""` stays true: flattening the
two rows returns the name of the second row, and flattening them with the first
row appended again returns the name of the first row. The view is not stable
under this duplicate row. -/
theorem GetPetDetail_duplicate_row_changes_view :
    parentRow "" "Rex" true ∈ emptyIdRows
      ∧ GetPetDetail emptyIdRows none
          = Outcome.ok { ID := "", Name := "Bella", Gender := true, DateOfBirth := "",
                         DateOfDeath := "", Breed := "", Description := "",
                         Events := some [], Medias := some [] }
      ∧ GetPetDetail (emptyIdRows ++ [parentRow "" "Rex" true]) none
          = Outcome.ok { ID := "", Name := "Rex", Gender := true, DateOfBirth := "",
                         DateOfDeath := "", Breed := "", Description := "",
                         Events := some [], Medias := some [] } := by
  decide

/-- C3. When the detail query yields zero rows, whatever error it reports,
`GetPetDetail` returns no view and the error "Pet ID does not exist", and the
handler answers 404 with code PET_NOT_FOUND. -/
theorem GetPetDetail_zero_rows_not_found (err : Option String) :
    GetPetDetail [] err = Outcome.error "Pet ID does not exist"
      ∧ PetHandler.GetPetDetail (GetPetDetail [] err)
          = some { status := 404,
                   body := Body.errorResponse "PET_NOT_FOUND" "Pet ID does not exist" } := by
  have h : GetPetDetail [] err = Outcome.error "Pet ID does not exist" := by
    simp [GetPetDetail, PetIDNotExist]
  refine ⟨h, ?_⟩
  rw [h]
  rfl

/-- C4 as stated fails: one row with NULL `event_id` and `media_id` whose nullable
`pet_gender` column is NULL makes the unchecked assertion
`r["pet_gender"].(bool)` panic, so `GetPetDetail` does not succeed. -/
theorem GetPetDetail_panics_on_null_gender :
    (nullGenderRows ≠ []
        ∧ ∀ r ∈ nullGenderRows,
            column r "event_id" = Value.null ∧ column r "media_id" = Value.null)
      ∧ GetPetDetail nullGenderRows none = Outcome.panic := by
  decide

/-- C4, amended. For every non-empty row list in which every row has NULL
`event_id` and `media_id` and has a string `pet_id`, a string `pet_name` and a
bool `pet_gender`, `GetPetDetail` succeeds: it returns a view (the handler
answers 200 with it, not the not-found error) whose `Events` and `Medias` are
both present and empty, and whose scalar fields are those of the first row when
that row's `pet_id` is not the empty string. -/
theorem GetPetDetail_null_children (rs : List Row) (hne : rs ≠ [])
    (hnull : ∀ r ∈ rs, column r "event_id" = Value.null ∧ column r "media_id" = Value.null)
    (hpet : ∀ r ∈ rs, petColumnsTyped r = true) :
    ∃ v, GetPetDetail rs none = Outcome.ok v
      ∧ v.Events = some [] ∧ v.Medias = some []
      ∧ PetHandler.GetPetDetail (GetPetDetail rs none)
          = some { status := 200, body := Body.petDetail v }
      ∧ ∀ r0 rest, rs = r0 :: rest → stringOrEmpty (column r0 "pet_id") ≠ "" →
          scalarsOf v = rowScalars r0 := by
  have hce : ∀ r ∈ rs, childId "event_id" r = none := by
    intro r hr; simp [childId, (hnull r hr).1]
  have hcm : ∀ r ∈ rs, childId "media_id" r = none := by
    intro r hr; simp [childId, (hnull r hr).2]
  have htyped : ∀ r ∈ rs, rowTyped r = true := by
    intro r hr
    simp [rowTyped, hpet r hr, eventColumnsTyped, mediaColumnsTyped, hce r hr, hcm r hr]
  obtain ⟨v, es, ms, h, hes, hms, he, hm⟩ := flatten_children rs hne htyped
  have he0 : childIds "event_id" rs = [] := by
    simp only [childIds, List.filterMap_eq_nil_iff]; exact hce
  have hm0 : childIds "media_id" rs = [] := by
    simp only [childIds, List.filterMap_eq_nil_iff]; exact hcm
  rw [he0] at he
  rw [hm0] at hm
  simp only [firstOccurrences, List.map_eq_nil_iff] at he hm
  subst he; subst hm
  refine ⟨v, h, hes, hms, ?_, ?_⟩
  · rw [h]; rfl
  · intro r0 rest hrs hid
    subst hrs
    exact GetPetDetail_first_row_scalars r0 rest v h hid

/-- C4, amended, at a pet without children: one row, all child columns NULL. -/
theorem GetPetDetail_null_children_witness :
    (childlessRows ≠ []
        ∧ (∀ r ∈ childlessRows,
            column r "event_id" = Value.null ∧ column r "media_id" = Value.null)
        ∧ ∀ r ∈ childlessRows, petColumnsTyped r = true)
      ∧ ∃ v, GetPetDetail childlessRows none = Outcome.ok v
          ∧ v.Events = some [] ∧ v.Medias = some []
          ∧ PetHandler.GetPetDetail (GetPetDetail childlessRows none)
              = some { status := 200, body := Body.petDetail v }
          ∧ ∀ r0 rest, childlessRows = r0 :: rest → stringOrEmpty (column r0 "pet_id") ≠ "" →
              scalarsOf v = rowScalars r0 :=
  ⟨⟨by decide, by decide, by decide⟩,
    GetPetDetail_null_children childlessRows (by decide) (by decide) (by decide)⟩

/-- C5, the code at a failing input. The first row of `emptyIdThenOther` has the
empty string as `pet_id`; the block guarded by `response.ID == ""` therefore
runs again on the second row, and the returned scalar fields are those of the
second row, not those of row 0. -/
theorem GetPetDetail_scalars_not_from_first_row :
    GetPetDetail emptyIdThenOther none
        = Outcome.ok { ID := "p2", Name := "Bella", Gender := false, DateOfBirth := "",
                       DateOfDeath := "", Breed := "", Description := "",
                       Events := some [], Medias := some [] }
      ∧ rowScalars (parentRow "" "Rex" true) = ("", "Rex", true, "", "", "", "")
      ∧ emptyIdThenOther.head? = some (parentRow "" "Rex" true) := by
  decide

/-! ## The authorization gate -/

theorem splitChars_ne_nil (sep : Char) (l : List Char) : splitChars sep l ≠ [] := by
  cases l with
  | nil => simp [splitChars]
  | cons c cs =>
    unfold splitChars
    split
    · simp
    · split <;> simp

theorem splitChars_of_not_mem (sep : Char) (l : List Char) (h : sep ∉ l) :
    splitChars sep l = [l] := by
  induction l with
  | nil => rfl
  | cons c cs ih =>
    have hc : c ≠ sep := fun e => h (e ▸ List.mem_cons_self _ _)
    have hcs : sep ∉ cs := fun m => h (List.mem_cons_of_mem _ m)
    simp [splitChars, hc, ih hcs]

theorem splitChars_singleton (sep : Char) (l x : List Char) (h : splitChars sep l = [x]) :
    x = l := by
  induction l generalizing x with
  | nil => simpa [splitChars] using h.symm
  | cons c cs ih =>
    unfold splitChars at h
    split at h
    · simp only [List.cons.injEq] at h
      exact absurd h.2 (splitChars_ne_nil sep cs)
    · cases hs : splitChars sep cs with
      | nil => exact absurd hs (splitChars_ne_nil sep cs)
      | cons p ps =>
        simp only [hs, List.cons.injEq] at h
        obtain ⟨h1, h2⟩ := h
        subst h2
        rw [← h1, ih p hs]

theorem splitChars_append_sep (sep : Char) (p l : List Char) (h : sep ∉ p) :
    splitChars sep (p ++ sep :: l) = p :: splitChars sep l := by
  induction p with
  | nil => simp [splitChars]
  | cons c cs ih =>
    have hc : c ≠ sep := fun e => h (e ▸ List.mem_cons_self _ _)
    have hcs : sep ∉ cs := fun m => h (List.mem_cons_of_mem _ m)
    simp [splitChars, hc, ih hcs]

theorem stringsSplit_bearer (tok : String) :
    stringsSplit ("Bearer " ++ tok) ' ' = "Bearer" :: stringsSplit tok ' ' := by
  have h : ("Bearer " ++ tok).toList = ['B', 'e', 'a', 'r', 'e', 'r'] ++ ' ' :: tok.toList := by
    rw [String.toList, String.data_append]; rfl
  unfold stringsSplit
  rw [h, splitChars_append_sep _ _ _ (by decide)]
  rfl

/-- A header of the form `Bearer <token>` with a token free of spaces splits
into the scheme and the token. -/
theorem stringsSplit_bearer_token (tok : String) (h : ' ' ∉ tok.toList) :
    stringsSplit ("Bearer " ++ tok) ' ' = ["Bearer", tok] := by
  rw [stringsSplit_bearer]
  unfold stringsSplit
  rw [splitChars_of_not_mem _ _ h]
  rfl

/-- If a header `Bearer ` followed by `tok` splits into two parts at all, the
second part is `tok`. -/
theorem stringsSplit_bearer_two (tok a b : String)
    (h : stringsSplit ("Bearer " ++ tok) ' ' = [a, b]) : b = tok := by
  rw [stringsSplit_bearer] at h
  simp only [List.cons.injEq] at h
  obtain ⟨_, h2⟩ := h
  unfold stringsSplit at h2
  cases hs : splitChars ' ' tok.toList with
  | nil => exact absurd hs (splitChars_ne_nil _ _)
  | cons x xs =>
    rw [hs] at h2
    simp only [List.map_cons, List.cons.injEq, List.map_eq_nil_iff] at h2
    obtain ⟨hx, hxs⟩ := h2
    subst hxs
    have := splitChars_singleton _ _ _ hs
    rw [← hx, this]
    rfl

theorem bearer_ne_empty (tok : String) : "Bearer " ++ tok ≠ "" := by
  intro h
  have := congrArg String.length h
  simp only [String.length_append] at this
  have h7 : "Bearer ".length = 7 := by decide
  have h0 : "".length = 0 := by decide
  omega

theorem jwtParse_ok (codec : JwtCodec) (tokenString secret : String) (now : Int)
    (claims : MapClaims) (h : jwtParse codec tokenString secret now = Except.ok claims) :
    ∃ token, codec.decode tokenString = some token ∧ token.key = secret
      ∧ verifyExpiresAt token.claims now = Except.ok () ∧ token.claims = claims := by
  unfold jwtParse at h
  cases hd : codec.decode tokenString with
  | none => simp [hd] at h
  | some token =>
    simp only [hd] at h
    split at h
    · rename_i hk
      cases hv : verifyExpiresAt token.claims now with
      | error e => simp [hv] at h
      | ok u =>
        simp only [hv, Except.ok.injEq] at h
        exact ⟨token, rfl, hk, hv, h⟩
    · cases h

theorem jwtParse_of_valid (codec : JwtCodec) (tokenString secret : String) (now : Int)
    (token : Token) (hd : codec.decode tokenString = some token) (hk : token.key = secret)
    (hv : verifyExpiresAt token.claims now = Except.ok ()) :
    jwtParse codec tokenString secret now = Except.ok token.claims := by
  simp [jwtParse, hd, hk, hv]

/-- A token passes the expiry check exactly when a numeric `exp` claim, if it
has one, lies after `now`, and its `exp` claim is numeric or absent. -/
theorem verifyExpiresAt_ok_iff (claims : MapClaims) (now : Int) :
    verifyExpiresAt claims now = Except.ok ()
      ↔ (claim claims "exp" = Value.null ∨ ∃ exp, claim claims "exp" = Value.int exp ∧ now < exp) := by
  unfold verifyExpiresAt
  cases h : claim claims "exp" with
  | null => simp
  | int exp =>
    by_cases hlt : now < exp <;> simp [hlt]
  | str s => simp
  | bool b => simp
  | time t => simp

theorem asString_getD_eq (v : Value) (s : String) (hs : s ≠ "")
    (h : v.asString.getD "" = s) : v = Value.str s := by
  cases v <;> simp [Value.asString] at h
  · exact absurd h.symm hs
  · rw [h]
  · exact absurd h.symm hs
  · exact absurd h.symm hs
  · exact absurd h.symm hs

theorem isBlacklisted_fault (db : DB) (e jti : String) :
    isBlacklisted db (some e) jti = false := by
  simp [isBlacklisted, countActiveBlacklist]

theorem isBlacklisted_iff (db : DB) (jti : String) :
    isBlacklisted db none jti = true ↔ activeBlacklistEntry db jti := by
  simp only [isBlacklisted, countActiveBlacklist, gt_iff_lt, decide_eq_true_eq,
    List.length_pos, activeBlacklistEntry]
  constructor
  · intro h
    obtain ⟨t, ht⟩ := List.exists_mem_of_ne_nil _ h
    simp only [List.mem_filter, Bool.and_eq_true, decide_eq_true_eq] at ht
    exact ⟨t, ht.1, ht.2.1, ht.2.2⟩
  · rintro ⟨t, ht, hj, ha⟩
    apply List.ne_nil_of_mem (a := t)
    simp [List.mem_filter, ht, hj, ha]

/-- Every run of the handler either aborts with one 401 error response, or
passes every check and then binds the principal and calls the next handler
(panicking instead when an unchecked assertion on an identity claim fails). -/
theorem AuthMiddleware_total (cfg : Config) (codec : JwtCodec) (db : DB)
    (fault : Option String) (now : Int) (c : Context) :
    (∃ code message,
        AuthMiddleware cfg codec db fault now c = some (abortWithError c 401 code message))
      ∨ ∃ tokenString token,
          stringsSplit c.authorization ' ' = ["Bearer", tokenString]
            ∧ codec.decode tokenString = some token
            ∧ token.key = cfg.SecretKey
            ∧ verifyExpiresAt token.claims now = Except.ok ()
            ∧ claim token.claims "token_type" = Value.str "access_token"
            ∧ isBlacklisted db fault ((claim token.claims "jti").asString.getD "") = false
            ∧ AuthMiddleware cfg codec db fault now c
                = (bindUserInfo token.claims ((claim token.claims "jti").asString.getD "")
                    "access_token").map
                    (fun userInfo => { c with currentUser := some userInfo, nextCalled := true }) := by
  unfold AuthMiddleware
  simp only
  split
  · exact Or.inl ⟨_, _, rfl⟩
  · split
    · rename_i scheme tokenString hsplit
      split
      · exact Or.inl ⟨_, _, rfl⟩
      · rename_i hscheme
        have hscheme : scheme = "Bearer" := by simpa using hscheme
        subst hscheme
        split
        · exact Or.inl ⟨_, _, rfl⟩
        · rename_i claims hparse
          obtain ⟨token, hd, hk, hv, hcl⟩ := jwtParse_ok _ _ _ _ _ hparse
          subst hcl
          split
          · exact Or.inl ⟨_, _, rfl⟩
          · rename_i htype
            have htype : (claim token.claims "token_type").asString.getD "" = "access_token" := by
              simpa using htype
            split
            · exact Or.inl ⟨_, _, rfl⟩
            · rename_i hbl
              have hbl : isBlacklisted db fault ((claim token.claims "jti").asString.getD "")
                  = false := by simpa using hbl
              refine Or.inr ⟨tokenString, token, hsplit, hd, hk, hv,
                asString_getD_eq _ _ (by decide) htype, hbl, ?_⟩
              rw [htype]
              cases bindUserInfo token.claims ((claim token.claims "jti").asString.getD "")
                "access_token" <;> rfl
    · exact Or.inl ⟨_, _, rfl⟩

theorem abortWithError_nextCalled (c : Context) (status : Nat) (code message : String) :
    (abortWithError c status code message).nextCalled = c.nextCalled := rfl

/-- A request whose bearer token decodes to a token that the blacklist lookup
reports as revoked is aborted with one 401 error response. -/
theorem AuthMiddleware_blacklisted (cfg : Config) (codec : JwtCodec) (db : DB)
    (fault : Option String) (now : Int) (c : Context) (tokenString : String) (token : Token)
    (hsplit : stringsSplit c.authorization ' ' = ["Bearer", tokenString])
    (hd : codec.decode tokenString = some token)
    (hbl : isBlacklisted db fault ((claim token.claims "jti").asString.getD "") = true) :
    ∃ code message,
      AuthMiddleware cfg codec db fault now c = some (abortWithError c 401 code message) := by
  rcases AuthMiddleware_total cfg codec db fault now c with h | h
  · exact h
  · obtain ⟨ts, tk, hs, hd', _, _, _, hb, _⟩ := h
    rw [hsplit] at hs
    simp only [List.cons.injEq, and_true, true_and] at hs
    subst hs
    rw [hd] at hd'
    cases hd'
    rw [hbl] at hb
    cases hb

/-! ### Repository writes and the blacklist -/

theorem RepoWrite_keeps_blacklist (db db1 : DB) (jti : String) (h : RepoWrite db db1)
    (ha : activeBlacklistEntry db jti) : activeBlacklistEntry db1 jti := by
  obtain ⟨t, ht, hj, hact⟩ := ha
  cases h with
  | createUser newID x x1 e =>
    simp only [UserRepository.CreateUser, Except.ok.injEq, Prod.mk.injEq] at e
    rw [← e.1]; exact ⟨t, ht, hj, hact⟩
  | createUserRole newID x x1 e =>
    simp only [UserRepository.CreateUserRole, Except.ok.injEq, Prod.mk.injEq] at e
    rw [← e.1]; exact ⟨t, ht, hj, hact⟩
  | updateUser x e =>
    simp only [UserRepository.UpdateUser, Except.ok.injEq] at e
    rw [← e]; exact ⟨t, ht, hj, hact⟩
  | createLoginHistory newID x x1 e =>
    simp only [UserRepository.CreateLoginHistory, Except.ok.injEq, Prod.mk.injEq] at e
    rw [← e.1]; exact ⟨t, ht, hj, hact⟩
  | updateLoginHistory x e =>
    simp only [UserRepository.UpdateLoginHistory, Except.ok.injEq] at e
    rw [← e]; exact ⟨t, ht, hj, hact⟩
  | createTokenBlacklist newID x x1 e =>
    simp only [UserRepository.CreateTokenBlacklist, Except.ok.injEq, Prod.mk.injEq] at e
    rw [← e.1]; exact ⟨t, List.mem_append_left _ ht, hj, hact⟩
  | createComment newID x x1 e =>
    simp only [UserRepository.CreateComment, Except.ok.injEq, Prod.mk.injEq] at e
    rw [← e.1]; exact ⟨t, ht, hj, hact⟩
  | updateComment x e =>
    simp only [UserRepository.UpdateComment, Except.ok.injEq] at e
    rw [← e]; exact ⟨t, ht, hj, hact⟩
  | createPet newID x x1 e =>
    simp only [PetRepository.CreatePet, Except.ok.injEq, Prod.mk.injEq] at e
    rw [← e.1]; exact ⟨t, ht, hj, hact⟩
  | updatePet x e =>
    simp only [PetRepository.UpdatePet, Except.ok.injEq] at e
    rw [← e]; exact ⟨t, ht, hj, hact⟩
  | createLifeEvent newID x x1 e =>
    simp only [PetRepository.CreateLifeEvent, Except.ok.injEq, Prod.mk.injEq] at e
    rw [← e.1]; exact ⟨t, ht, hj, hact⟩
  | createMediaBatch newIDs xs e =>
    simp only [PetRepository.CreateMediaBatch, Except.ok.injEq] at e
    rw [← e]; exact ⟨t, ht, hj, hact⟩

theorem Reachable_keeps_blacklist (db db1 : DB) (jti : String) (h : Reachable db db1)
    (ha : activeBlacklistEntry db jti) : activeBlacklistEntry db1 jti := by
  induction h with
  | refl => exact ha
  | tail _ hstep ih => exact RepoWrite_keeps_blacklist _ _ jti hstep ih

theorem created_isActive (base : BaseModel) (newID : String) :
    (base.created newID).IsActive = true := by
  unfold BaseModel.created BaseModel.insertDefaults
  split
  · rfl
  · rename_i h; simpa using h

/-- A successful `Logout` leaves an active blacklist entry for the JTI of the principal. -/
theorem Logout_ok_blacklists (db db1 : DB) (faults : LogoutFaults) (newID : String)
    (userInfo : UserInfo) (resp : MessageResponse)
    (h : userService.Logout db faults newID userInfo = (Outcome.ok resp, db1)) :
    activeBlacklistEntry db1 userInfo.JTI := by
  unfold userService.Logout at h
  split at h
  · simp at h
  · simp only at h
    split at h
    · simp at h
    · rename_i dbu _
      split at h
      · simp at h
      · rename_i db2 stored hc
        simp only [Prod.mk.injEq] at h
        obtain ⟨_, h2⟩ := h
        subst h2
        unfold UserRepository.CreateTokenBlacklist at hc
        split at hc
        · cases hc
        · simp only [Except.ok.injEq, Prod.mk.injEq] at hc
          obtain ⟨hdb, _⟩ := hc
          subst hdb
          exact ⟨_, List.mem_append_right _ (List.mem_singleton_self _), rfl,
            created_isActive _ _⟩

/-! ### Claims C6 to C10 -/

theorem demoCodec_roundTrip : demoCodec.RoundTrip := by
  intro token s h
  simp only [demoCodec] at h ⊢
  split at h
  · rename_i ht
    cases h
    simp [ht]
  · split at h
    · rename_i ht
      cases h
      simp [ht]
    · cases h

theorem not_active_empty (jti : String) : ¬ activeBlacklistEntry DB.empty jti := by
  rintro ⟨t, ht, _⟩
  cases ht

/-- C6 as stated fails: the JTI `j1` has an active blacklist entry, the count
statement of `isBlacklisted` reports an error, and `AuthMiddleware` still binds
the principal and calls the next handler for a valid access token with that JTI. -/
theorem AuthMiddleware_passes_revoked_on_count_error :
    activeBlacklistEntry revokedDB "j1"
      ∧ demoCodec.decode "aaa.bbb.ccc" = some annAccessToken
      ∧ jtiOf annAccessToken.claims = "j1"
      ∧ AuthMiddleware demoConfig demoCodec revokedDB (some "connection refused") 200
          (Context.request "Bearer aaa.bbb.ccc")
        = some { authorization := "Bearer aaa.bbb.ccc", written := [], aborted := false,
                 currentUser := some annInfo, nextCalled := true } := by
  refine ⟨⟨_, List.mem_singleton_self _, rfl, rfl⟩, ?_, ?_, ?_⟩ <;> decide

/-- C6, amended. `AuthMiddleware`, run on a context whose next handler has
not been called yet, passes the request to the next handler only if
the header is `Bearer <token>`, the signature of the token verifies under the
configured secret, the token is unexpired (it has no `exp` claim or a numeric one
after `now`), its `token_type` claim is the string "access_token", and the
blacklist lookup for its jti reported no active entry: the count statement
found none or returned an error. When the count statement succeeds, no active
blacklist entry exists for the jti. -/
theorem AuthMiddleware_next_only_if (cfg : Config) (codec : JwtCodec) (db : DB)
    (fault : Option String) (now : Int) (c c' : Context)
    (hfresh : c.nextCalled = false)
    (h : AuthMiddleware cfg codec db fault now c = some c')
    (hnext : c'.nextCalled = true) :
    ∃ tokenString token,
      stringsSplit c.authorization ' ' = ["Bearer", tokenString]
        ∧ codec.decode tokenString = some token
        ∧ token.key = cfg.SecretKey
        ∧ (claim token.claims "exp" = Value.null
            ∨ ∃ exp, claim token.claims "exp" = Value.int exp ∧ now < exp)
        ∧ claim token.claims "token_type" = Value.str "access_token"
        ∧ isBlacklisted db fault (jtiOf token.claims) = false
        ∧ (fault = none → ¬ activeBlacklistEntry db (jtiOf token.claims)) := by
  rcases AuthMiddleware_total cfg codec db fault now c with ha | hp
  · obtain ⟨code, message, ha⟩ := ha
    rw [ha] at h
    cases h
    rw [abortWithError_nextCalled, hfresh] at hnext
    cases hnext
  · obtain ⟨tokenString, token, hs, hd, hk, hv, ht, hb, _⟩ := hp
    refine ⟨tokenString, token, hs, hd, hk, (verifyExpiresAt_ok_iff _ _).mp hv, ht, hb, ?_⟩
    intro hf hact
    subst hf
    have := (isBlacklisted_iff db _).mpr hact
    unfold jtiOf at this
    rw [hb] at this
    cases this

/-- C6, amended, at the access token of Ann presented at time 200 with an empty
blacklist. -/
theorem AuthMiddleware_next_only_if_witness :
    ((Context.request "Bearer aaa.bbb.ccc").nextCalled = false
        ∧ AuthMiddleware demoConfig demoCodec DB.empty none 200
            (Context.request "Bearer aaa.bbb.ccc")
          = some { authorization := "Bearer aaa.bbb.ccc", written := [], aborted := false,
                   currentUser := some annInfo, nextCalled := true })
      ∧ ∃ tokenString token,
          stringsSplit (Context.request "Bearer aaa.bbb.ccc").authorization ' '
              = ["Bearer", tokenString]
            ∧ demoCodec.decode tokenString = some token
            ∧ token.key = demoConfig.SecretKey
            ∧ (claim token.claims "exp" = Value.null
                ∨ ∃ exp, claim token.claims "exp" = Value.int exp ∧ (200 : Int) < exp)
            ∧ claim token.claims "token_type" = Value.str "access_token"
            ∧ isBlacklisted DB.empty none (jtiOf token.claims) = false
            ∧ ((none : Option String) = none →
                ¬ activeBlacklistEntry DB.empty (jtiOf token.claims)) :=
  ⟨⟨rfl, by decide⟩,
    AuthMiddleware_next_only_if demoConfig demoCodec DB.empty none 200
      (Context.request "Bearer aaa.bbb.ccc")
      { authorization := "Bearer aaa.bbb.ccc", written := [], aborted := false,
        currentUser := some annInfo, nextCalled := true }
      rfl (by decide) rfl⟩

/-- C7 as stated fails: with the count statement failing, a request whose token
has an active blacklist entry gets no 401; the principal is bound and the next
handler is called. -/
theorem AuthMiddleware_fails_open_on_count_error :
    countActiveBlacklist revokedDB (some "dial tcp: i/o timeout") "j1"
        = Except.error "dial tcp: i/o timeout"
      ∧ isBlacklisted revokedDB none "j1" = true
      ∧ isBlacklisted revokedDB (some "dial tcp: i/o timeout") "j1" = false
      ∧ (AuthMiddleware demoConfig demoCodec revokedDB (some "dial tcp: i/o timeout") 500
          (Context.request "Bearer aaa.bbb.ccc")).map
            (fun c => (c.written, c.aborted, c.nextCalled))
        = some ([], false, true) := by
  refine ⟨rfl, ?_, ?_, ?_⟩ <;> decide

/-- C7, amended. If the blacklist count statement returns an error, the error
is dropped: `isBlacklisted` answers false for every jti, and `AuthMiddleware`
does exactly what it does on tables with an empty blacklist and a working
store, so the store error is treated as "not revoked". -/
theorem AuthMiddleware_count_error_as_not_revoked (cfg : Config) (codec : JwtCodec) (db : DB)
    (e : String) (now : Int) (c : Context) :
    (∀ jti, isBlacklisted db (some e) jti = false)
      ∧ AuthMiddleware cfg codec db (some e) now c
          = AuthMiddleware cfg codec { db with token_blacklist := [] } none now c := by
  refine ⟨isBlacklisted_fault db e, ?_⟩
  have h0 : ∀ jti, isBlacklisted { db with token_blacklist := [] } none jti = false := by
    intro jti; simp [isBlacklisted, countActiveBlacklist]
  unfold AuthMiddleware
  simp only [isBlacklisted_fault, h0]

/-- C8. For every identity and jti, when the access token returned by
`GenerateToken` is presented as `Bearer <token>` under the same secret, while
unexpired (`now` before the returned expiry) and unrevoked (no active blacklist
entry for the jti), `AuthMiddleware` binds under "current_user" a `UserInfo`
whose fields are the values given at issuance, with `JTI = jti` and
`TokenType = "access_token"`, and calls the next handler. The token package is
assumed to decode what it signed and to produce token strings without spaces. -/
theorem AuthMiddleware_binds_issued_identity (cfg : Config) (codec : JwtCodec) (db : DB)
    (fault : Option String) (now1 now2 now : Int)
    (userID username firstName lastName email jti : String) (isAdmin : Bool)
    (access refresh : String) (exp : Int) (c : Context)
    (hlaw : codec.RoundTrip)
    (hgen : GenerateToken cfg codec now1 now2 userID username firstName lastName email jti
        isAdmin = Outcome.ok (access, refresh, exp))
    (hnosp : ' ' ∉ access.toList)
    (hhdr : c.authorization = "Bearer " ++ access)
    (hexp : now < exp)
    (hrev : ¬ activeBlacklistEntry db jti) :
    AuthMiddleware cfg codec db fault now c
      = some { c with
          currentUser := some { UserID := userID, Username := username, FirstName := firstName,
                                LastName := lastName, Email := email, IsAdmin := isAdmin,
                                JTI := jti, TokenType := "access_token" },
          nextCalled := true } := by
  unfold GenerateToken at hgen
  simp only at hgen
  split at hgen
  · cases hgen
  · rename_i accessTokenString hsign
    split at hgen
    · cases hgen
    · simp only [Outcome.ok.injEq, Prod.mk.injEq] at hgen
      obtain ⟨ha, _, he⟩ := hgen
      subst ha
      have hd := hlaw _ _ hsign
      have hbl : isBlacklisted db fault jti = false := by
        cases fault with
        | some e => exact isBlacklisted_fault db e jti
        | none =>
          cases hb : isBlacklisted db none jti with
          | false => rfl
          | true => exact absurd ((isBlacklisted_iff db jti).mp hb) hrev
      have hv : verifyExpiresAt
          (accessClaims userID username firstName lastName email jti isAdmin
            (now1 + (AccessTokenExpire1Day : Int) * 60)) now = Except.ok () := by
        rw [verifyExpiresAt_ok_iff]
        exact Or.inr ⟨_, rfl, by rw [he]; exact hexp⟩
      have hparse := jwtParse_of_valid codec accessTokenString cfg.SecretKey now _ hd rfl hv
      unfold AuthMiddleware
      simp only [hhdr, bearer_ne_empty, if_false, stringsSplit_bearer_token _ hnosp, hparse]
      have ht : (claim (accessClaims userID username firstName lastName email jti isAdmin
          (now1 + (AccessTokenExpire1Day : Int) * 60)) "token_type").asString.getD ""
            = "access_token" := rfl
      have hj : (claim (accessClaims userID username firstName lastName email jti isAdmin
          (now1 + (AccessTokenExpire1Day : Int) * 60)) "jti").asString.getD "" = jti := rfl
      simp only [ht, hj, hbl]
      rfl

/-- C8 at the tokens of Ann: issued at time 100 under `demoConfig`, presented at
time 200 with an empty blacklist. -/
theorem AuthMiddleware_binds_issued_identity_witness :
    (demoCodec.RoundTrip
        ∧ GenerateToken demoConfig demoCodec 100 130 "u1" "ann" "Ann" "Lee" "ann@example.com"
            "j1" false = Outcome.ok ("aaa.bbb.ccc", "rrr.sss.ttt", 86500)
        ∧ ' ' ∉ "aaa.bbb.ccc".toList
        ∧ (Context.request "Bearer aaa.bbb.ccc").authorization = "Bearer " ++ "aaa.bbb.ccc"
        ∧ (200 : Int) < 86500
        ∧ ¬ activeBlacklistEntry DB.empty "j1")
      ∧ AuthMiddleware demoConfig demoCodec DB.empty none 200
          (Context.request "Bearer aaa.bbb.ccc")
        = some { Context.request "Bearer aaa.bbb.ccc" with
            currentUser := some { UserID := "u1", Username := "ann", FirstName := "Ann",
                                  LastName := "Lee", Email := "ann@example.com",
                                  IsAdmin := false, JTI := "j1", TokenType := "access_token" },
            nextCalled := true } :=
  ⟨⟨demoCodec_roundTrip, by decide, by decide, by decide, by decide, not_active_empty "j1"⟩,
    AuthMiddleware_binds_issued_identity demoConfig demoCodec DB.empty none 100 130 200
      "u1" "ann" "Ann" "Lee" "ann@example.com" "j1" false "aaa.bbb.ccc" "rrr.sss.ttt" 86500
      (Context.request "Bearer aaa.bbb.ccc")
      demoCodec_roundTrip (by decide) (by decide) (by decide) (by decide)
      (not_active_empty "j1")⟩

/-- C9. For every refresh token produced by `GenerateToken`, a request that
presents it as bearer token is rejected by `AuthMiddleware` with one HTTP 401
error response and the chain is aborted; no principal is bound and the next
handler is not called, whatever the tables (so whatever the revocation state),
the outcome of the blacklist count, the time and the verifying secret. The token
package is assumed to decode what it signed. -/
theorem AuthMiddleware_rejects_refresh_token (cfg verifyCfg : Config) (codec : JwtCodec)
    (db : DB) (fault : Option String) (now1 now2 now : Int)
    (userID username firstName lastName email jti : String) (isAdmin : Bool)
    (access refresh : String) (exp : Int) (c : Context)
    (hlaw : codec.RoundTrip)
    (hgen : GenerateToken cfg codec now1 now2 userID username firstName lastName email jti
        isAdmin = Outcome.ok (access, refresh, exp))
    (hhdr : c.authorization = "Bearer " ++ refresh) :
    ∃ code message,
      AuthMiddleware verifyCfg codec db fault now c
        = some { authorization := c.authorization,
                 written := c.written
                   ++ [{ status := 401, body := Body.errorResponse code message }],
                 aborted := true,
                 currentUser := c.currentUser,
                 nextCalled := c.nextCalled } := by
  rcases AuthMiddleware_total verifyCfg codec db fault now c with ha | hp
  · exact ha
  · exfalso
    obtain ⟨tokenString, token, hs, hd, _, _, ht, _, _⟩ := hp
    rw [hhdr] at hs
    have hts := stringsSplit_bearer_two _ _ _ hs
    subst hts
    unfold GenerateToken at hgen
    simp only at hgen
    split at hgen
    · cases hgen
    · split at hgen
      · cases hgen
      · rename_i refreshTokenString hsign
        simp only [Outcome.ok.injEq, Prod.mk.injEq] at hgen
        obtain ⟨_, hr, _⟩ := hgen
        subst hr
        have hd2 := hlaw _ _ hsign
        rw [hd] at hd2
        cases hd2
        have hkind : claim (refreshClaims userID username firstName lastName email jti isAdmin
            (now2 + 365 * 24 * 3600)) "token_type" = Value.str "refresh_token" := rfl
        rw [hkind] at ht
        exact absurd ht (by decide)

/-- C9 at the refresh token of Ann, presented while the blacklist is empty. -/
theorem AuthMiddleware_rejects_refresh_token_witness :
    (demoCodec.RoundTrip
        ∧ GenerateToken demoConfig demoCodec 100 130 "u1" "ann" "Ann" "Lee" "ann@example.com"
            "j1" false = Outcome.ok ("aaa.bbb.ccc", "rrr.sss.ttt", 86500)
        ∧ (Context.request "Bearer rrr.sss.ttt").authorization = "Bearer " ++ "rrr.sss.ttt")
      ∧ ∃ code message,
          AuthMiddleware demoConfig demoCodec DB.empty none 200
              (Context.request "Bearer rrr.sss.ttt")
            = some { authorization := "Bearer rrr.sss.ttt",
                     written := [{ status := 401, body := Body.errorResponse code message }],
                     aborted := true,
                     currentUser := none,
                     nextCalled := false } :=
  ⟨⟨demoCodec_roundTrip, by decide, by decide⟩,
    AuthMiddleware_rejects_refresh_token demoConfig demoConfig demoCodec DB.empty none 100 130
      200 "u1" "ann" "Ann" "Lee" "ann@example.com" "j1" false "aaa.bbb.ccc" "rrr.sss.ttt" 86500
      (Context.request "Bearer rrr.sss.ttt") demoCodec_roundTrip (by decide) (by decide)⟩

/-- C10 as stated fails: Ann logs out (the logout succeeds and leaves an active
blacklist entry for `j1`), and a later request with the same, still unexpired
access token is accepted when the blacklist count statement of that request
returns an error. -/
theorem Logout_then_count_error_accepts_token :
    userService.Logout loggedInDB LogoutFaults.none "b1" annInfo
        = (Outcome.ok { Message := "Logout successfully" }, loggedOutDB)
      ∧ activeBlacklistEntry loggedOutDB annInfo.JTI
      ∧ demoCodec.decode "aaa.bbb.ccc" = some annAccessToken
      ∧ jtiOf annAccessToken.claims = annInfo.JTI
      ∧ AuthMiddleware demoConfig demoCodec loggedOutDB (some "too many connections") 300
          (Context.request "Bearer aaa.bbb.ccc")
        = some { authorization := "Bearer aaa.bbb.ccc", written := [], aborted := false,
                 currentUser := some annInfo, nextCalled := true } := by
  refine ⟨by decide, ⟨_, List.mem_singleton_self _, rfl, rfl⟩, ?_, ?_, ?_⟩ <;> decide

/-- C10, amended. After `Logout` succeeds for a principal with JTI `j`, an active
blacklist entry for `j` exists, and no write of any repository method removes or
deactivates it: it exists in every state reachable afterwards. Hence in every
such state a request whose bearer token carries JTI `j` is rejected by
`AuthMiddleware` with one HTTP 401 error response, provided the blacklist count
statement of that request succeeds. -/
theorem Logout_revocation_is_permanent (db db1 db2 : DB) (faults : LogoutFaults)
    (newID : String) (userInfo : UserInfo) (resp : MessageResponse)
    (hlogout : userService.Logout db faults newID userInfo = (Outcome.ok resp, db1))
    (hreach : Reachable db1 db2) :
    activeBlacklistEntry db1 userInfo.JTI
      ∧ activeBlacklistEntry db2 userInfo.JTI
      ∧ ∀ (cfg : Config) (codec : JwtCodec) (now : Int) (c : Context) (tokenString : String)
          (token : Token),
          stringsSplit c.authorization ' ' = ["Bearer", tokenString] →
          codec.decode tokenString = some token →
          claim token.claims "jti" = Value.str userInfo.JTI →
          ∃ code message,
            AuthMiddleware cfg codec db2 none now c
              = some { authorization := c.authorization,
                       written := c.written
                         ++ [{ status := 401, body := Body.errorResponse code message }],
                       aborted := true,
                       currentUser := c.currentUser,
                       nextCalled := c.nextCalled } := by
  have h1 := Logout_ok_blacklists db db1 faults newID userInfo resp hlogout
  have h2 := Reachable_keeps_blacklist db1 db2 _ hreach h1
  refine ⟨h1, h2, ?_⟩
  intro cfg codec now c tokenString token hs hd hj
  apply AuthMiddleware_blacklisted cfg codec db2 none now c tokenString token hs hd
  rw [hj]
  exact (isBlacklisted_iff db2 _).mpr h2

/-- C10, amended, at the logout of Ann followed by the creation of a comment. -/
theorem Logout_revocation_is_permanent_witness :
    (userService.Logout loggedInDB LogoutFaults.none "b1" annInfo
          = (Outcome.ok { Message := "Logout successfully" }, loggedOutDB)
        ∧ Reachable loggedOutDB laterDB)
      ∧ activeBlacklistEntry loggedOutDB annInfo.JTI
      ∧ activeBlacklistEntry laterDB annInfo.JTI
      ∧ ∀ (cfg : Config) (codec : JwtCodec) (now : Int) (c : Context) (tokenString : String)
          (token : Token),
          stringsSplit c.authorization ' ' = ["Bearer", tokenString] →
          codec.decode tokenString = some token →
          claim token.claims "jti" = Value.str annInfo.JTI →
          ∃ code message,
            AuthMiddleware cfg codec laterDB none now c
              = some { authorization := c.authorization,
                       written := c.written
                         ++ [{ status := 401, body := Body.errorResponse code message }],
                       aborted := true,
                       currentUser := c.currentUser,
                       nextCalled := c.nextCalled } :=
  have hstep : RepoWrite loggedOutDB laterDB :=
    RepoWrite.createComment loggedOutDB laterDB "c1" laterComment
      { base := { ID := "c1", CreatedBy := "u2", UpdatedBy := "", IsActive := true },
        Content := "hello", PetID := "p1", ParentID := "" } rfl
  ⟨⟨by decide, Relation.ReflTransGen.single hstep⟩,
    Logout_revocation_is_permanent loggedInDB loggedOutDB laterDB LogoutFaults.none "b1" annInfo
      { Message := "Logout successfully" } (by decide) (Relation.ReflTransGen.single hstep)⟩

/-! ## Logout twice, permissions, and the steps of the gate -/

theorem firstByID_mem_aux {α : Type} (key : α → String) (rows : List α) (best : Option α)
    (x : α)
    (h : rows.foldl
        (fun best x =>
          match best with
          | none => some x
          | some b => if key x < key b then some x else some b)
        best = some x) :
    x ∈ rows ∨ best = some x := by
  induction rows generalizing best with
  | nil => exact Or.inr h
  | cons r rs ih =>
    simp only [List.foldl_cons] at h
    rcases ih _ h with hm | hb
    · exact Or.inl (List.mem_cons_of_mem _ hm)
    · cases best with
      | none =>
        simp only [Option.some.injEq] at hb
        exact Or.inl (hb ▸ List.mem_cons_self _ _)
      | some b =>
        simp only at hb
        split at hb
        · simp only [Option.some.injEq] at hb
          exact Or.inl (hb ▸ List.mem_cons_self _ _)
        · exact Or.inr hb

theorem firstByID_mem {α : Type} (key : α → String) (rows : List α) (x : α)
    (h : firstByID key rows = some x) : x ∈ rows := by
  rcases firstByID_mem_aux key rows none x h with hm | hb
  · exact hm
  · cases hb

theorem saveRow_mem {α : Type} (key : α → String) (x : α) (table : List α) (y : α)
    (hx : x ∈ table) (hy : y ∈ saveRow key x table) :
    y = x ∨ (y ∈ table ∧ key y ≠ key x) := by
  unfold saveRow at hy
  have hany : table.any (fun z => decide (key z = key x)) = true := by
    simp only [List.any_eq_true, decide_eq_true_eq]
    exact ⟨x, hx, rfl⟩
  simp only [hany, if_true, List.mem_map] at hy
  obtain ⟨z, hz, hzy⟩ := hy
  by_cases hk : key z = key x
  · simp only [hk, if_true] at hzy
    exact Or.inl hzy.symm
  · simp only [hk, if_false] at hzy
    subst hzy
    exact Or.inr ⟨hz, hk⟩

/-- After a successful `Logout` for a JTI that stands for one login, no active
login-history record with that JTI is left. -/
theorem Logout_ok_no_active_history (db db1 : DB) (faults : LogoutFaults) (newID : String)
    (userInfo : UserInfo) (resp : MessageResponse) (hsingle : singleLogin db userInfo.JTI)
    (h : userService.Logout db faults newID userInfo = (Outcome.ok resp, db1)) :
    db1.login_history.filter (fun h => decide (h.JTI = userInfo.JTI) && h.base.IsActive) = [] := by
  unfold userService.Logout at h
  split at h
  · simp at h
  · rename_i history hget
    simp only at h
    split at h
    · simp at h
    · rename_i dbu hupd
      split at h
      · simp at h
      · rename_i db2 stored hc
        simp only [Prod.mk.injEq] at h
        obtain ⟨_, h2⟩ := h
        subst h2
        unfold UserRepository.CreateTokenBlacklist at hc
        split at hc
        · cases hc
        · simp only [Except.ok.injEq, Prod.mk.injEq] at hc
          obtain ⟨hdb, _⟩ := hc
          subst hdb
          unfold UserRepository.UpdateLoginHistory at hupd
          split at hupd
          · cases hupd
          · simp only [Except.ok.injEq] at hupd
            subst hupd
            unfold UserRepository.GetLoginHistoryByJTI at hget
            split at hget
            · cases hget
            · split at hget
              · rename_i found hfirst
                simp only [Except.ok.injEq] at hget
                subst hget
                have hmem := firstByID_mem _ _ _ hfirst
                simp only [List.mem_filter, Bool.and_eq_true, decide_eq_true_eq] at hmem
                obtain ⟨hin, hj, hact⟩ := hmem
                simp only [List.filter_eq_nil_iff, Bool.and_eq_true, decide_eq_true_eq, not_and]
                intro y hy hyj
                have hsave : saveRow (fun h => h.base.ID)
                    { found with base := { found.base with IsActive := false } }
                    db.login_history
                    = db.login_history.map (fun z =>
                        if z.base.ID = found.base.ID then
                          { found with base := { found.base with IsActive := false } }
                        else z) := by
                  unfold saveRow
                  have hany : db.login_history.any
                      (fun z => decide (z.base.ID = found.base.ID)) = true := by
                    simp only [List.any_eq_true, decide_eq_true_eq]
                    exact ⟨found, hin, rfl⟩
                  simp only [hany, if_true]
                simp only [hsave, List.mem_map] at hy
                obtain ⟨z, hz, hzy⟩ := hy
                by_cases hk : z.base.ID = found.base.ID
                · simp only [hk, if_true] at hzy
                  subst hzy
                  simp
                · simp only [hk, if_false] at hzy
                  subst hzy
                  intro hzact
                  exact hk (hsingle z hz found hin hyj hzact hj hact)
              · cases hget

/-- When no active login-history record carries the JTI, `Logout` returns the
error "JTI does not exist" and changes nothing, whatever the database reports. -/
theorem Logout_without_history (db : DB) (faults : LogoutFaults) (newID : String)
    (userInfo : UserInfo)
    (h : db.login_history.filter (fun h => decide (h.JTI = userInfo.JTI) && h.base.IsActive)
      = []) :
    userService.Logout db faults newID userInfo = (Outcome.error "JTI does not exist", db) := by
  unfold userService.Logout UserRepository.GetLoginHistoryByJTI
  cases faults.getHistory with
  | some e => rfl
  | none =>
    simp only [h]
    rfl

theorem foldl_setTrue_get (names : List String) (m : BoolMap) (k : String) :
    (names.foldl (fun m p => m.setTrue p) m).get k = true ↔ k ∈ names ∨ m.get k = true := by
  induction names generalizing m with
  | nil => simp
  | cons n ns ih =>
    simp only [List.foldl_cons, ih, BoolMap.get_setTrue, Bool.or_eq_true, decide_eq_true_eq,
      List.mem_cons]
    tauto

theorem permissionMapOf_get (names : List String) (k : String) :
    (permissionMapOf names).get k = true ↔ k ∈ names := by
  unfold permissionMapOf
  rw [foldl_setTrue_get]
  simp [BoolMap.get]

theorem firstMissing_none_iff (m : BoolMap) (required : List String) :
    firstMissing m required = none ↔ ∀ p ∈ required, m.get p = true := by
  induction required with
  | nil => simp [firstMissing]
  | cons r rs ih =>
    unfold firstMissing
    by_cases h : m.get r = false
    · simp [h]
    · have h1 : m.get r = true := by simpa using h
      simp [h1, ih]

/-- The names the statement of `PermissionMiddleware` returns: those of the
active permissions that a `role_permissions` row and a `user_roles` row link to
the user. -/
theorem mem_permissionNamesQuery (db : DB) (userID n : String) (names : List String)
    (h : permissionNamesQuery db none userID = Except.ok names) :
    n ∈ names ↔
      ∃ p ∈ db.permissions, ∃ rp ∈ db.role_permissions, ∃ ur ∈ db.user_roles,
        rp.PermissionID = p.base.ID ∧ ur.RoleID = rp.RoleID ∧ ur.UserID = userID
          ∧ p.base.IsActive = true ∧ p.Name = n := by
  simp only [permissionNamesQuery, Except.ok.injEq] at h
  subst h
  simp only [List.mem_flatMap, List.mem_filterMap]
  constructor
  · rintro ⟨p, hp, rp, hrp, ur, hur, hif⟩
    split at hif
    · rename_i hc
      simp only [Option.some.injEq] at hif
      exact ⟨p, hp, rp, hrp, ur, hur, hc.1, hc.2.1, hc.2.2.1, hc.2.2.2, hif⟩
    · cases hif
  · rintro ⟨p, hp, rp, hrp, ur, hur, h1, h2, h3, h4, h5⟩
    refine ⟨p, hp, rp, hrp, ur, hur, ?_⟩
    rw [if_pos ⟨h1, h2, h3, h4⟩, h5]

theorem mem_GetPermissionsByUserID (db : DB) (userID n : String) (names : List String)
    (h : UserRepository.GetPermissionsByUserID db none userID = Except.ok names) :
    n ∈ names ↔
      ∃ p ∈ db.permissions, ∃ rp ∈ db.role_permissions, ∃ ur ∈ db.user_roles,
        rp.PermissionID = p.base.ID ∧ ur.RoleID = rp.RoleID ∧ ur.UserID = userID
          ∧ p.Name = n := by
  simp only [UserRepository.GetPermissionsByUserID, Except.ok.injEq] at h
  subst h
  simp only [List.mem_flatMap, List.mem_filterMap]
  constructor
  · rintro ⟨p, hp, rp, hrp, ur, hur, hif⟩
    split at hif
    · rename_i hc
      simp only [Option.some.injEq] at hif
      exact ⟨p, hp, rp, hrp, ur, hur, hc.1, hc.2.1, hc.2.2, hif⟩
    · cases hif
  · rintro ⟨p, hp, rp, hrp, ur, hur, h1, h2, h3, h5⟩
    refine ⟨p, hp, rp, hrp, ur, hur, ?_⟩
    rw [if_pos ⟨h1, h2, h3⟩, h5]

/-- What the handler of `PermissionMiddleware` does for a principal that is not
an administrator, in terms of the names its statement returned. -/
theorem PermissionMiddleware_non_admin (required : List String) (db : DB)
    (fault : Option String) (c : Context) (user : UserInfo)
    (hu : c.currentUser = some user) (ha : user.IsAdmin = false) :
    PermissionMiddleware required db fault c =
      if effectivePermissions db fault user.UserID = [] then
        { context := abortWithError c 403 "PERMISSION_DENIED" "User has no permissions",
          queries := 1 }
      else if ∀ p ∈ required, p ∈ effectivePermissions db fault user.UserID then
        { context := { c with nextCalled := true }, queries := 1 }
      else
        { context := abortWithError c 403 "PERMISSION_DENIED" "Permission denied",
          queries := 1 } := by
  have key : ∀ names : List String,
      (if names.length = 0 then
          ({ context := abortWithError c StatusForbidden ErrCodePermissionDenied
                UserHasNoPermission, queries := 1 } : PermissionRun)
        else
          match firstMissing (permissionMapOf names) required with
          | some _ =>
            { context := abortWithError c StatusForbidden ErrCodePermissionDenied
                PermissionDenied, queries := 1 }
          | none => { context := { c with nextCalled := true }, queries := 1 })
      = if names = [] then
          { context := abortWithError c 403 "PERMISSION_DENIED" "User has no permissions",
            queries := 1 }
        else if ∀ p ∈ required, p ∈ names then
          { context := { c with nextCalled := true }, queries := 1 }
        else
          { context := abortWithError c 403 "PERMISSION_DENIED" "Permission denied",
            queries := 1 } := by
    intro names
    by_cases he : names = []
    · subst he
      rfl
    · have hlen : names.length ≠ 0 := by simpa [List.length_eq_zero] using he
      simp only [hlen, he, if_false]
      by_cases hall : ∀ p ∈ required, p ∈ names
      · have hnone : firstMissing (permissionMapOf names) required = none := by
          rw [firstMissing_none_iff]
          intro p hp
          exact (permissionMapOf_get _ _).mpr (hall p hp)
        rw [hnone, if_pos hall]
      · cases hfm : firstMissing (permissionMapOf names) required with
        | none =>
          exfalso
          rw [firstMissing_none_iff] at hfm
          exact hall (fun p hp => (permissionMapOf_get _ _).mp (hfm p hp))
        | some r =>
          rw [if_neg hall]
          rfl
  unfold PermissionMiddleware effectivePermissions
  split
  · rename_i hnone
    rw [hu] at hnone
    cases hnone
  · rename_i user1 hsome
    rw [hu] at hsome
    cases hsome
    simp only [ha, Bool.false_eq_true, if_false]
    cases permissionNamesQuery db fault user.UserID with
    | error e => exact key []
    | ok names => exact key names

theorem splitChars_singleton_not_mem (sep : Char) (l x : List Char)
    (h : splitChars sep l = [x]) : sep ∉ l := by
  induction l generalizing x with
  | nil => simp
  | cons c cs ih =>
    unfold splitChars at h
    split at h
    · simp only [List.cons.injEq] at h
      exact absurd h.2 (splitChars_ne_nil sep cs)
    · rename_i hc
      cases hs : splitChars sep cs with
      | nil => exact absurd hs (splitChars_ne_nil sep cs)
      | cons p ps =>
        simp only [hs, List.cons.injEq] at h
        obtain ⟨_, h2⟩ := h
        subst h2
        intro hmem
        rcases List.mem_cons.mp hmem with e | hm
        · exact hc e.symm
        · exact ih p hs hm

/-- A list that splits into exactly two parts is the two parts around one
separator, and the second part holds no separator. -/
theorem splitChars_pair (sep : Char) (l a b : List Char) (h : splitChars sep l = [a, b]) :
    l = a ++ sep :: b ∧ sep ∉ b := by
  induction l generalizing a with
  | nil => simp [splitChars] at h
  | cons c cs ih =>
    unfold splitChars at h
    split at h
    · rename_i hc
      simp only [List.cons.injEq, and_true] at h
      obtain ⟨ha, hb⟩ := h
      subst ha
      have := splitChars_singleton sep cs b hb
      subst this
      exact ⟨by rw [hc]; rfl, splitChars_singleton_not_mem sep _ _ hb⟩
    · cases hs : splitChars sep cs with
      | nil => exact absurd hs (splitChars_ne_nil sep cs)
      | cons p ps =>
        simp only [hs, List.cons.injEq] at h
        obtain ⟨ha, hps⟩ := h
        subst ha
        subst hps
        obtain ⟨h1, h2⟩ := ih p hs
        exact ⟨by rw [h1]; rfl, h2⟩

/-- The format test of `AuthMiddleware` accepts exactly the headers `Bearer <token>`
whose token holds no space (an empty token included). -/
theorem stringsSplit_bearer_iff (authorization tokenString : String) :
    stringsSplit authorization ' ' = ["Bearer", tokenString]
      ↔ authorization = "Bearer " ++ tokenString ∧ ' ' ∉ tokenString.toList := by
  constructor
  · intro h
    unfold stringsSplit at h
    cases hs : splitChars ' ' authorization.toList with
    | nil => exact absurd hs (splitChars_ne_nil _ _)
    | cons a rest =>
      rw [hs] at h
      cases rest with
      | nil => simp at h
      | cons b rest2 =>
        cases rest2 with
        | cons _ _ => simp at h
        | nil =>
          simp only [List.map_cons, List.map_nil, List.cons.injEq, and_true] at h
          obtain ⟨ha, hb⟩ := h
          obtain ⟨h1, h2⟩ := splitChars_pair _ _ _ _ hs
          have hb' : tokenString.toList = b := by rw [← hb]; rfl
          have ha' : a = "Bearer".toList := by rw [← ha]; rfl
          refine ⟨?_, by rw [hb']; exact h2⟩
          apply String.ext
          rw [String.data_append]
          change authorization.toList = _
          rw [h1, ha', ← hb']
          rfl
  · rintro ⟨h1, h2⟩
    rw [h1]
    exact stringsSplit_bearer_token _ h2

theorem not_bearerFormat_iff (authorization : String) :
    ¬ bearerFormat authorization
      ↔ ∀ tokenString, stringsSplit authorization ' ' ≠ ["Bearer", tokenString] := by
  unfold bearerFormat
  constructor
  · intro h t ht
    exact h ⟨t, (stringsSplit_bearer_iff _ _).mp ht⟩
  · rintro h ⟨t, ht⟩
    exact h t ((stringsSplit_bearer_iff _ _).mpr ht)

/-- The handler of `AuthMiddleware` follows the state machine of the spec: on the
first failing check it writes the 401 error of that check and aborts; when every
check passes it binds the principal and calls the next handler (the unchecked
assertions of the binding can panic). -/
theorem AuthMiddleware_eq_gate (cfg : Config) (codec : JwtCodec) (db : DB)
    (fault : Option String) (now : Int) (c : Context) :
    AuthMiddleware cfg codec db fault now c =
      match gateChecks cfg codec db fault now c.authorization with
      | Except.error f => some (abortWithError c 401 f.response.1 f.response.2)
      | Except.ok claims =>
        (bindUserInfo claims (jtiOf claims) "access_token").map
          (fun userInfo => { c with currentUser := some userInfo, nextCalled := true }) := by
  unfold AuthMiddleware gateChecks
  simp only
  split
  · rfl
  · split
    · split
      · rfl
      · split
        · rfl
        · rename_i claims hparse
          split
          · rfl
          · rename_i htype
            have htype : (claim claims "token_type").asString.getD "" = "access_token" := by
              simpa using htype
            unfold jtiOf
            split
            · rfl
            · simp only [htype]
              cases bindUserInfo claims ((claim claims "jti").asString.getD "") "access_token"
                <;> rfl
    · rfl

/-! ### Claims C11 to C15 -/

/-- C11 as stated fails: Ann logs out twice with the same JTI. The first call
returns the success message; the second call returns the error
"JTI does not exist", not the result of the first, because the lookup of the
login history is restricted to active records and the first call deactivated
the only one. -/
theorem Logout_twice_second_call_fails :
    userService.Logout loggedInDB LogoutFaults.none "b1" annInfo
        = (Outcome.ok { Message := "Logout successfully" }, loggedOutDB)
      ∧ userService.Logout loggedOutDB LogoutFaults.none "b2" annInfo
        = (Outcome.error "JTI does not exist", loggedOutDB) := by
  decide

/-- C11, amended. After `Logout` succeeds for a JTI that stands for one login
(no two active login-history records with that JTI have different IDs), a
second `Logout` for the same JTI returns the error "JTI does not exist",
whatever the database reports, and leaves every table, so the login-history and
the blacklist, as it was after the first call; the active blacklist entry of the
first call stays. -/
theorem Logout_second_call_changes_nothing (db db1 : DB) (faults1 faults2 : LogoutFaults)
    (newID1 newID2 : String) (userInfo : UserInfo) (resp : MessageResponse)
    (hsingle : singleLogin db userInfo.JTI)
    (h : userService.Logout db faults1 newID1 userInfo = (Outcome.ok resp, db1)) :
    userService.Logout db1 faults2 newID2 userInfo = (Outcome.error "JTI does not exist", db1)
      ∧ activeBlacklistEntry db1 userInfo.JTI :=
  ⟨Logout_without_history db1 faults2 newID2 userInfo
      (Logout_ok_no_active_history db db1 faults1 newID1 userInfo resp hsingle h),
    Logout_ok_blacklists db db1 faults1 newID1 userInfo resp h⟩

/-- C11, amended, at the two logouts of Ann. -/
theorem Logout_second_call_changes_nothing_witness :
    (singleLogin loggedInDB annInfo.JTI
        ∧ userService.Logout loggedInDB LogoutFaults.none "b1" annInfo
            = (Outcome.ok { Message := "Logout successfully" }, loggedOutDB))
      ∧ userService.Logout loggedOutDB LogoutFaults.none "b2" annInfo
          = (Outcome.error "JTI does not exist", loggedOutDB)
      ∧ activeBlacklistEntry loggedOutDB annInfo.JTI :=
  ⟨⟨by unfold singleLogin; decide, by decide⟩,
    Logout_second_call_changes_nothing loggedInDB loggedOutDB LogoutFaults.none
      LogoutFaults.none "b1" "b2" annInfo { Message := "Logout successfully" }
      (by unfold singleLogin; decide) (by decide)⟩

/-- C12. For every principal with `IsAdmin = true` and every list of required
permissions, the handler of `PermissionMiddleware` calls the next handler,
writes nothing, and sends no statement to the database: the result is the same
for all tables and all database errors. -/
theorem PermissionMiddleware_admin_bypass (required : List String) (db : DB)
    (fault : Option String) (c : Context) (user : UserInfo)
    (hu : c.currentUser = some user) (ha : user.IsAdmin = true) :
    PermissionMiddleware required db fault c
      = { context := { authorization := c.authorization, written := c.written,
                       aborted := c.aborted, currentUser := c.currentUser,
                       nextCalled := true },
          queries := 0 } := by
  unfold PermissionMiddleware
  split
  · rename_i hnone
    rw [hu] at hnone
    cases hnone
  · rename_i user1 hsome
    rw [hu] at hsome
    cases hsome
    simp only [ha, if_true]

/-- C12 at the administrator Eve, who holds no role at all, and a permission
that only another role grants. -/
theorem PermissionMiddleware_admin_bypass_witness :
    ((Context.boundTo eveInfo).currentUser = some eveInfo ∧ eveInfo.IsAdmin = true)
      ∧ PermissionMiddleware ["delete_pet"] editorDB none (Context.boundTo eveInfo)
          = { context := { authorization := "Bearer aaa.bbb.ccc", written := [],
                           aborted := false, currentUser := some eveInfo,
                           nextCalled := true },
              queries := 0 } :=
  ⟨⟨rfl, rfl⟩,
    PermissionMiddleware_admin_bypass ["delete_pet"] editorDB none (Context.boundTo eveInfo)
      eveInfo rfl rfl⟩

/-- C13 as stated fails for the empty list of required permissions: Bob is not
an administrator and has no permission, so every element of the empty list is
in his permission set, yet the handler answers 403 and does not call the next
handler. -/
theorem PermissionMiddleware_empty_required_forbidden :
    bobInfo.IsAdmin = false
      ∧ effectivePermissions DB.empty none bobInfo.UserID = []
      ∧ (∀ p ∈ ([] : List String), p ∈ effectivePermissions DB.empty none bobInfo.UserID)
      ∧ PermissionMiddleware [] DB.empty none (Context.boundTo bobInfo)
          = { context :=
                { authorization := "Bearer aaa.bbb.ccc",
                  written := [{ status := 403,
                                body := Body.errorResponse "PERMISSION_DENIED"
                                  "User has no permissions" }],
                  aborted := true, currentUser := some bobInfo, nextCalled := false },
              queries := 1 } := by
  refine ⟨rfl, rfl, ?_, by decide⟩
  intro p hp
  cases hp

/-- C13, amended. For every principal with `IsAdmin = false` and every list `P`
of required permissions, the handler of `PermissionMiddleware` calls the next
handler if and only if the permission set computed for the user is not empty
and holds every element of `P`; otherwise it writes one 403 error with code
PERMISSION_DENIED and aborts. The permission set is what the statement of the
handler returns, and is empty when that statement fails. -/
theorem PermissionMiddleware_non_admin_iff (required : List String) (db : DB)
    (fault : Option String) (c : Context) (user : UserInfo)
    (hu : c.currentUser = some user) (ha : user.IsAdmin = false)
    (hfresh : c.nextCalled = false) :
    ((PermissionMiddleware required db fault c).context.nextCalled = true
        ↔ effectivePermissions db fault user.UserID ≠ []
            ∧ ∀ p ∈ required, p ∈ effectivePermissions db fault user.UserID)
      ∧ ((effectivePermissions db fault user.UserID ≠ []
            ∧ ∀ p ∈ required, p ∈ effectivePermissions db fault user.UserID) →
          (PermissionMiddleware required db fault c).context
            = { authorization := c.authorization, written := c.written,
                aborted := c.aborted, currentUser := c.currentUser, nextCalled := true })
      ∧ (¬ (effectivePermissions db fault user.UserID ≠ []
            ∧ ∀ p ∈ required, p ∈ effectivePermissions db fault user.UserID) →
          ∃ message,
            (PermissionMiddleware required db fault c).context
              = { authorization := c.authorization,
                  written := c.written
                    ++ [{ status := 403,
                          body := Body.errorResponse "PERMISSION_DENIED" message }],
                  aborted := true, currentUser := c.currentUser,
                  nextCalled := c.nextCalled }) := by
  rw [PermissionMiddleware_non_admin required db fault c user hu ha]
  by_cases he : effectivePermissions db fault user.UserID = []
  · rw [if_pos he]
    refine ⟨⟨fun h => ?_, fun h => absurd he h.1⟩, fun h => absurd he h.1, fun _ => ⟨_, rfl⟩⟩
    have h1 : c.nextCalled = true := h
    rw [hfresh] at h1
    cases h1
  · rw [if_neg he]
    by_cases hall : ∀ p ∈ required, p ∈ effectivePermissions db fault user.UserID
    · rw [if_pos hall]
      exact ⟨⟨fun _ => ⟨he, hall⟩, fun _ => rfl⟩, fun _ => rfl, fun h => absurd ⟨he, hall⟩ h⟩
    · rw [if_neg hall]
      refine ⟨⟨fun h => ?_, fun h => absurd h.2 hall⟩, fun h => absurd h.2 hall,
        fun _ => ⟨_, rfl⟩⟩
      have h1 : c.nextCalled = true := h
      rw [hfresh] at h1
      cases h1

/-- C13, amended, at Bob, who is Editor: `edit_pet` is granted, and `delete_pet`,
which only the role Admin has, is not. -/
theorem PermissionMiddleware_non_admin_iff_witness :
    ((Context.boundTo bobInfo).currentUser = some bobInfo ∧ bobInfo.IsAdmin = false
        ∧ (Context.boundTo bobInfo).nextCalled = false)
      ∧ (PermissionMiddleware ["edit_pet"] editorDB none
            (Context.boundTo bobInfo)).context.nextCalled = true
      ∧ (PermissionMiddleware ["delete_pet"] editorDB none
            (Context.boundTo bobInfo)).context.nextCalled = false :=
  ⟨⟨rfl, rfl, rfl⟩,
    (PermissionMiddleware_non_admin_iff ["edit_pet"] editorDB none (Context.boundTo bobInfo)
      bobInfo rfl rfl rfl).1.mpr (by decide),
    by decide⟩

/-- C14 as stated fails: in `inactiveLinksDB` the `user_roles` row, the role and the
`role_permissions` row on the path from Bob to `edit_pet` are all inactive, and
the statement of `PermissionMiddleware` still returns `edit_pet`, so a route
that requires it lets Bob pass. -/
theorem permissionNamesQuery_ignores_inactive_links :
    (∀ ur ∈ inactiveLinksDB.user_roles, ur.base.IsActive = false)
      ∧ (∀ r ∈ inactiveLinksDB.roles, r.base.IsActive = false)
      ∧ (∀ rp ∈ inactiveLinksDB.role_permissions, rp.base.IsActive = false)
      ∧ permissionNamesQuery inactiveLinksDB none "u2" = Except.ok ["edit_pet"]
      ∧ UserRepository.GetPermissionsByUserID inactiveLinksDB none "u2" = Except.ok ["edit_pet"]
      ∧ (PermissionMiddleware ["edit_pet"] inactiveLinksDB none
            (Context.boundTo bobInfo)).context.nextCalled = true := by
  refine ⟨by decide, by decide, by decide, rfl, rfl, by decide⟩

/-- C14, amended. The permission set computed by the statement of
`PermissionMiddleware` is restricted to active permissions only: a name is
included if and only if some permission row with that name has
`is_active = true` and is linked to the user by a `role_permissions` row and a
`user_roles` row; the `is_active` flags of those two rows and of the role are
not consulted. Every name that `GetPermissionsByUserID` returns is likewise the
name of a permission linked to the user by such rows. -/
theorem permission_queries_characterised (db : DB) (userID : String) :
    (∃ names, permissionNamesQuery db none userID = Except.ok names
        ∧ ∀ n, n ∈ names ↔
            ∃ p ∈ db.permissions, ∃ rp ∈ db.role_permissions, ∃ ur ∈ db.user_roles,
              rp.PermissionID = p.base.ID ∧ ur.RoleID = rp.RoleID ∧ ur.UserID = userID
                ∧ p.base.IsActive = true ∧ p.Name = n)
      ∧ ∃ names, UserRepository.GetPermissionsByUserID db none userID = Except.ok names
          ∧ ∀ n, n ∈ names →
              ∃ p ∈ db.permissions, ∃ rp ∈ db.role_permissions, ∃ ur ∈ db.user_roles,
                rp.PermissionID = p.base.ID ∧ ur.RoleID = rp.RoleID ∧ ur.UserID = userID
                  ∧ p.Name = n :=
  ⟨⟨_, rfl, fun n => mem_permissionNamesQuery db userID n _ rfl⟩,
    ⟨_, rfl, fun n => (mem_GetPermissionsByUserID db userID n _ rfl).mp⟩⟩

/-- C15. For every table state in which user `u` is linked only to the role
Editor, Editor is linked only to the permissions `view_pet` and `edit_pet`, and
those rows are active, the names resolved for `u`, by the statement of
`PermissionMiddleware` and by `GetPermissionsByUserID` alike, are exactly the
set of `view_pet` and `edit_pet`, whatever rows exist for other roles and other
users. The role is given by its id: neither statement reads the table `roles`. -/
theorem permissions_of_editor (db : DB) (u editor viewPet editPet : String)
    (hs : EditorScenario db u editor viewPet editPet) :
    (∃ names, permissionNamesQuery db none u = Except.ok names
        ∧ ∀ n, n ∈ names ↔ n = "view_pet" ∨ n = "edit_pet")
      ∧ ∃ names, UserRepository.GetPermissionsByUserID db none u = Except.ok names
          ∧ ∀ n, n ∈ names ↔ n = "view_pet" ∨ n = "edit_pet" := by
  obtain ⟨ur0, hur0, hu0, hr0⟩ := hs.linked
  obtain ⟨rpv, hrpv, hrv1, hrv2⟩ := hs.has_view
  obtain ⟨rpe, hrpe, hre1, hre2⟩ := hs.has_edit
  obtain ⟨pv, hpv, hpvid⟩ := hs.view_row
  obtain ⟨pe, hpe, hpeid⟩ := hs.edit_row
  have hname : ∀ p ∈ db.permissions, ∀ rp ∈ db.role_permissions, ∀ ur ∈ db.user_roles,
      rp.PermissionID = p.base.ID → ur.RoleID = rp.RoleID → ur.UserID = u →
      p.Name = "view_pet" ∨ p.Name = "edit_pet" := by
    intro p hp rp hrp ur hur h1 h2 h3
    have hrole : rp.RoleID = editor := by rw [← h2]; exact hs.only_editor ur hur h3
    rcases hs.only_two rp hrp hrole with hv | he
    · exact Or.inl (hs.view_named p hp (by rw [← h1]; exact hv)).1
    · exact Or.inr (hs.edit_named p hp (by rw [← h1]; exact he)).1
  refine ⟨⟨_, rfl, fun n => ?_⟩, ⟨_, rfl, fun n => ?_⟩⟩
  · rw [mem_permissionNamesQuery db u n _ rfl]
    constructor
    · rintro ⟨p, hp, rp, hrp, ur, hur, h1, h2, h3, _, h5⟩
      rw [← h5]
      exact hname p hp rp hrp ur hur h1 h2 h3
    · rintro (hn | hn)
      · exact ⟨pv, hpv, rpv, hrpv, ur0, hur0, by rw [hrv2, hpvid], by rw [hr0, hrv1], hu0,
          (hs.view_named pv hpv hpvid).2, by rw [hn]; exact (hs.view_named pv hpv hpvid).1⟩
      · exact ⟨pe, hpe, rpe, hrpe, ur0, hur0, by rw [hre2, hpeid], by rw [hr0, hre1], hu0,
          (hs.edit_named pe hpe hpeid).2, by rw [hn]; exact (hs.edit_named pe hpe hpeid).1⟩
  · rw [mem_GetPermissionsByUserID db u n _ rfl]
    constructor
    · rintro ⟨p, hp, rp, hrp, ur, hur, h1, h2, h3, h5⟩
      rw [← h5]
      exact hname p hp rp hrp ur hur h1 h2 h3
    · rintro (hn | hn)
      · exact ⟨pv, hpv, rpv, hrpv, ur0, hur0, by rw [hrv2, hpvid], by rw [hr0, hrv1], hu0,
          by rw [hn]; exact (hs.view_named pv hpv hpvid).1⟩
      · exact ⟨pe, hpe, rpe, hrpe, ur0, hur0, by rw [hre2, hpeid], by rw [hr0, hre1], hu0,
          by rw [hn]; exact (hs.edit_named pe hpe hpeid).1⟩

theorem editorDB_scenario : EditorScenario editorDB "u2" "r-editor" "p-view" "p-edit" where
  linked := by decide
  only_editor := by decide
  only_two := by decide
  has_view := by decide
  has_edit := by decide
  view_row := by decide
  edit_row := by decide
  view_named := by decide
  edit_named := by decide

/-- C15 at `editorDB`, where a second role Admin with permission `delete_pet` is
held by another user: the names resolved for Bob are `view_pet` and `edit_pet`. -/
theorem permissions_of_editor_witness :
    EditorScenario editorDB "u2" "r-editor" "p-view" "p-edit"
      ∧ (∃ names, permissionNamesQuery editorDB none "u2" = Except.ok names
          ∧ ∀ n, n ∈ names ↔ n = "view_pet" ∨ n = "edit_pet")
      ∧ ∃ names, UserRepository.GetPermissionsByUserID editorDB none "u2" = Except.ok names
          ∧ ∀ n, n ∈ names ↔ n = "view_pet" ∨ n = "edit_pet" :=
  ⟨editorDB_scenario,
    permissions_of_editor editorDB "u2" "r-editor" "p-view" "p-edit" editorDB_scenario⟩

/-! ### Claims C16 to C20 -/

theorem gateChecks_not_bearer (cfg : Config) (codec : JwtCodec) (db : DB)
    (fault : Option String) (now : Int) (authorization : String)
    (h : ¬ bearerFormat authorization) :
    gateChecks cfg codec db fault now authorization
      = Except.error
          (if authorization = "" then GateFailure.headerMissing
            else GateFailure.headerMalformed) := by
  have hsplit := (not_bearerFormat_iff authorization).mp h
  unfold gateChecks
  split
  · rfl
  · split
    · rename_i scheme tokenString hs
      split
      · rfl
      · rename_i hscheme
        have hscheme : scheme = "Bearer" := by simpa using hscheme
        subst hscheme
        exact absurd hs (hsplit tokenString)
    · rfl

theorem gateChecks_bearer (cfg : Config) (codec : JwtCodec) (db : DB)
    (fault : Option String) (now : Int) (authorization tokenString : String)
    (hs : stringsSplit authorization ' ' = ["Bearer", tokenString]) :
    gateChecks cfg codec db fault now authorization =
      match jwtParse codec tokenString cfg.SecretKey now with
      | Except.error e => Except.error (GateFailure.decodeFailed e)
      | Except.ok claims =>
        if (claim claims "token_type").asString.getD "" ≠ "access_token" then
          Except.error GateFailure.wrongKind
        else if isBlacklisted db fault (jtiOf claims) = true then
          Except.error GateFailure.revoked
        else Except.ok claims := by
  have hne : authorization ≠ "" := by
    intro h
    rw [h] at hs
    have h0 : stringsSplit "" ' ' = [""] := by decide
    rw [h0] at hs
    simp at hs
  unfold gateChecks
  rw [if_neg hne]
  simp only [hs, ne_eq, not_true_eq_false, if_false]

/-- C16 as stated fails for the header `Bearer ` with no token: it passes the
format test, the empty string is handed to the decoder, and the answer is 401
with code INVALID_TOKEN, not UNAUTHORIZED. -/
theorem AuthMiddleware_empty_token_reaches_decoder :
    stringsSplit "Bearer " ' ' = ["Bearer", ""]
      ∧ jwtParse threeTokenCodec "" demoConfig.SecretKey 200 = Except.error ParseError.malformed
      ∧ AuthMiddleware demoConfig threeTokenCodec DB.empty none 200 (Context.request "Bearer ")
        = some { authorization := "Bearer ",
                 written := [{ status := 401,
                               body := Body.errorResponse "INVALID_TOKEN" "Invalid token" }],
                 aborted := true, currentUser := none, nextCalled := false } := by
  refine ⟨by decide, rfl, by decide⟩

/-- C16, amended. Every request whose `Authorization` header is missing, or is
not `Bearer <token>` with a token free of spaces (wrong scheme, wrong case,
extra spaces, no space after the scheme), is rejected by `AuthMiddleware` with
one HTTP 401 error of code UNAUTHORIZED and the chain is aborted, before any
token decoding: the answer is the same for every decoder, secret, table state
and time. An empty token is not rejected at this step. -/
theorem AuthMiddleware_rejects_bad_header (c : Context)
    (h : ¬ bearerFormat c.authorization) :
    ∃ message, ∀ (cfg : Config) (codec : JwtCodec) (db : DB) (fault : Option String)
        (now : Int),
      AuthMiddleware cfg codec db fault now c
        = some { authorization := c.authorization,
                 written := c.written
                   ++ [{ status := 401, body := Body.errorResponse "UNAUTHORIZED" message }],
                 aborted := true, currentUser := c.currentUser,
                 nextCalled := c.nextCalled } := by
  by_cases he : c.authorization = ""
  · refine ⟨"Authorization header required", fun cfg codec db fault now => ?_⟩
    rw [AuthMiddleware_eq_gate, gateChecks_not_bearer cfg codec db fault now _ h, if_pos he]
    rfl
  · refine ⟨"Invalid authorization format", fun cfg codec db fault now => ?_⟩
    rw [AuthMiddleware_eq_gate, gateChecks_not_bearer cfg codec db fault now _ h, if_neg he]
    rfl

theorem not_bearerFormat_lowercase : ¬ bearerFormat "bearer aaa.bbb.ccc" := by
  rw [not_bearerFormat_iff]
  intro t ht
  have h0 : stringsSplit "bearer aaa.bbb.ccc" ' ' = ["bearer", "aaa.bbb.ccc"] := by decide
  rw [h0] at ht
  simp only [List.cons.injEq, and_true] at ht
  exact absurd ht.1 (by decide)

/-- C16, amended, at a header with the scheme in lower case. -/
theorem AuthMiddleware_rejects_bad_header_witness :
    ¬ bearerFormat (Context.request "bearer aaa.bbb.ccc").authorization
      ∧ ∃ message, ∀ (cfg : Config) (codec : JwtCodec) (db : DB) (fault : Option String)
          (now : Int),
        AuthMiddleware cfg codec db fault now (Context.request "bearer aaa.bbb.ccc")
          = some { authorization := "bearer aaa.bbb.ccc",
                   written := [{ status := 401,
                                 body := Body.errorResponse "UNAUTHORIZED" message }],
                   aborted := true, currentUser := none, nextCalled := false } :=
  ⟨not_bearerFormat_lowercase,
    AuthMiddleware_rejects_bad_header (Context.request "bearer aaa.bbb.ccc")
      not_bearerFormat_lowercase⟩

/-- C17 as stated fails: the access token of Ann is validly signed and
unexpired and its jti has an active blacklist entry, but the count statement of
`isBlacklisted` returns an error, and `AuthMiddleware` writes no 401: it binds
the principal and calls the next handler. -/
theorem AuthMiddleware_revoked_token_passes_on_count_error :
    threeTokenCodec.decode "aaa.bbb.ccc" = some annAccessToken
      ∧ annAccessToken.key = demoConfig.SecretKey
      ∧ verifyExpiresAt annAccessToken.claims 400 = Except.ok ()
      ∧ claim annAccessToken.claims "token_type" = Value.str "access_token"
      ∧ activeBlacklistEntry revokedDB (jtiOf annAccessToken.claims)
      ∧ AuthMiddleware demoConfig threeTokenCodec revokedDB
          (some "server closed the connection") 400 (Context.request "Bearer aaa.bbb.ccc")
        = some { authorization := "Bearer aaa.bbb.ccc", written := [], aborted := false,
                 currentUser := some annInfo, nextCalled := true } := by
  refine ⟨by decide, by decide, rfl, by decide,
    ⟨_, List.mem_singleton_self _, rfl, rfl⟩, by decide⟩

/-- C17, amended. For every validly signed, unexpired access token presented as
bearer token: when its jti has an active blacklist entry and the blacklist count
statement succeeds, `AuthMiddleware` writes one HTTP 401 error with code
UNAUTHORIZED and message "Token has been revoked" and aborts the chain; when
its jti has no active entry (entries with `is_active = false` do not count), no
rejection follows, whatever the count statement reports: the handler goes on to
bind the principal and call the next handler. -/
theorem AuthMiddleware_revocation_check (cfg : Config) (codec : JwtCodec) (db : DB)
    (now : Int) (c : Context) (tokenString : String) (token : Token)
    (hs : stringsSplit c.authorization ' ' = ["Bearer", tokenString])
    (hd : codec.decode tokenString = some token)
    (hk : token.key = cfg.SecretKey)
    (hv : verifyExpiresAt token.claims now = Except.ok ())
    (ht : claim token.claims "token_type" = Value.str "access_token") :
    (activeBlacklistEntry db (jtiOf token.claims) →
        AuthMiddleware cfg codec db none now c
          = some { authorization := c.authorization,
                   written := c.written
                     ++ [{ status := 401,
                           body := Body.errorResponse "UNAUTHORIZED" "Token has been revoked" }],
                   aborted := true, currentUser := c.currentUser,
                   nextCalled := c.nextCalled })
      ∧ (¬ activeBlacklistEntry db (jtiOf token.claims) →
          ∀ fault : Option String,
            AuthMiddleware cfg codec db fault now c
              = (bindUserInfo token.claims (jtiOf token.claims) "access_token").map
                  (fun userInfo =>
                    { authorization := c.authorization, written := c.written,
                      aborted := c.aborted, currentUser := some userInfo,
                      nextCalled := true })) := by
  have hkind : (claim token.claims "token_type").asString.getD "" = "access_token" := by
    rw [ht]; rfl
  have hgate : ∀ fault, gateChecks cfg codec db fault now c.authorization
      = if isBlacklisted db fault (jtiOf token.claims) = true then
          Except.error GateFailure.revoked
        else Except.ok token.claims := by
    intro fault
    rw [gateChecks_bearer cfg codec db fault now _ _ hs,
      jwtParse_of_valid codec tokenString cfg.SecretKey now token hd hk hv]
    simp only [hkind, ne_eq, not_true_eq_false, if_false]
  constructor
  · intro hact
    rw [AuthMiddleware_eq_gate, hgate, if_pos ((isBlacklisted_iff db _).mpr hact)]
    rfl
  · intro hno fault
    have hbl : isBlacklisted db fault (jtiOf token.claims) = false := by
      cases fault with
      | some e => exact isBlacklisted_fault db e _
      | none =>
        cases hb : isBlacklisted db none (jtiOf token.claims) with
        | false => rfl
        | true => exact absurd ((isBlacklisted_iff db _).mp hb) hno
    rw [AuthMiddleware_eq_gate, hgate, hbl]
    rfl

theorem not_active_inactiveEntryDB : ¬ activeBlacklistEntry inactiveEntryDB "j1" := by
  rintro ⟨t, ht, _, hact⟩
  simp only [inactiveEntryDB, DB.empty, List.mem_singleton] at ht
  subst ht
  cases hact

/-- C17, amended, at the access token of Ann: rejected as revoked on `revokedDB`,
and bound and passed on when the only blacklist entry for `j1` is inactive. -/
theorem AuthMiddleware_revocation_check_witness :
    (stringsSplit (Context.request "Bearer aaa.bbb.ccc").authorization ' '
          = ["Bearer", "aaa.bbb.ccc"]
        ∧ threeTokenCodec.decode "aaa.bbb.ccc" = some annAccessToken
        ∧ annAccessToken.key = demoConfig.SecretKey
        ∧ verifyExpiresAt annAccessToken.claims 400 = Except.ok ()
        ∧ claim annAccessToken.claims "token_type" = Value.str "access_token"
        ∧ activeBlacklistEntry revokedDB (jtiOf annAccessToken.claims)
        ∧ ¬ activeBlacklistEntry inactiveEntryDB (jtiOf annAccessToken.claims))
      ∧ AuthMiddleware demoConfig threeTokenCodec revokedDB none 400
          (Context.request "Bearer aaa.bbb.ccc")
        = some { authorization := "Bearer aaa.bbb.ccc",
                 written := [{ status := 401,
                               body := Body.errorResponse "UNAUTHORIZED"
                                 "Token has been revoked" }],
                 aborted := true, currentUser := none, nextCalled := false }
      ∧ AuthMiddleware demoConfig threeTokenCodec inactiveEntryDB none 400
          (Context.request "Bearer aaa.bbb.ccc")
        = some { authorization := "Bearer aaa.bbb.ccc", written := [], aborted := false,
                 currentUser := some annInfo, nextCalled := true } :=
  ⟨⟨by decide, by decide, by decide, rfl, by decide,
      ⟨_, List.mem_singleton_self _, rfl, rfl⟩, not_active_inactiveEntryDB⟩,
    (AuthMiddleware_revocation_check demoConfig threeTokenCodec revokedDB 400
      (Context.request "Bearer aaa.bbb.ccc") "aaa.bbb.ccc" annAccessToken
      (by decide) (by decide) (by decide) rfl (by decide)).1
      ⟨_, List.mem_singleton_self _, rfl, rfl⟩,
    ((AuthMiddleware_revocation_check demoConfig threeTokenCodec inactiveEntryDB 400
      (Context.request "Bearer aaa.bbb.ccc") "aaa.bbb.ccc" annAccessToken
      (by decide) (by decide) (by decide) rfl (by decide)).2
      not_active_inactiveEntryDB none).trans (by decide)⟩

/-- C18 as stated fails: a malformed token, a badly signed token, an expired
token and a token of the wrong kind are told apart by the decoder, but
`AuthMiddleware` answers all four with the same response, 401 with code
INVALID_TOKEN and message "Invalid token". -/
theorem AuthMiddleware_decode_failures_indistinguishable :
    jwtParse threeTokenCodec "garbage" "s3cret" 200 = Except.error ParseError.malformed
      ∧ jwtParse threeTokenCodec "aaa.bbb.xxx" "s3cret" 200
          = Except.error ParseError.signatureInvalid
      ∧ jwtParse threeTokenCodec "aaa.bbb.ccc" "s3cret" 90000 = Except.error ParseError.expired
      ∧ jwtParse threeTokenCodec "rrr.sss.ttt" "s3cret" 200 = Except.ok annRefreshToken.claims
      ∧ (AuthMiddleware demoConfig threeTokenCodec DB.empty none 200
            (Context.request "Bearer garbage")).map (fun c => c.written)
          = some [{ status := 401, body := Body.errorResponse "INVALID_TOKEN" "Invalid token" }]
      ∧ (AuthMiddleware demoConfig threeTokenCodec DB.empty none 200
            (Context.request "Bearer aaa.bbb.xxx")).map (fun c => c.written)
          = some [{ status := 401, body := Body.errorResponse "INVALID_TOKEN" "Invalid token" }]
      ∧ (AuthMiddleware demoConfig threeTokenCodec DB.empty none 90000
            (Context.request "Bearer aaa.bbb.ccc")).map (fun c => c.written)
          = some [{ status := 401, body := Body.errorResponse "INVALID_TOKEN" "Invalid token" }]
      ∧ (AuthMiddleware demoConfig threeTokenCodec DB.empty none 200
            (Context.request "Bearer rrr.sss.ttt")).map (fun c => c.written)
          = some [{ status := 401, body := Body.errorResponse "INVALID_TOKEN" "Invalid token" }] := by
  refine ⟨rfl, rfl, rfl, rfl, by decide, by decide, by decide, by decide⟩

/-- C18, amended. `AuthMiddleware` does not distinguish the failure reasons of
decoding: for a bearer token that is malformed, badly signed or expired
(whatever error the decoder reports) and for a token of the wrong kind, it
writes the same response, one HTTP 401 error with code INVALID_TOKEN and
message "Invalid token", and aborts the chain. -/
theorem AuthMiddleware_decode_failures_collapse (cfg : Config) (codec : JwtCodec) (db : DB)
    (fault : Option String) (now : Int) (c : Context) (tokenString : String)
    (hs : stringsSplit c.authorization ' ' = ["Bearer", tokenString])
    (hbad : (∃ e, jwtParse codec tokenString cfg.SecretKey now = Except.error e)
      ∨ ∃ claims, jwtParse codec tokenString cfg.SecretKey now = Except.ok claims
          ∧ claim claims "token_type" ≠ Value.str "access_token") :
    AuthMiddleware cfg codec db fault now c
      = some { authorization := c.authorization,
               written := c.written
                 ++ [{ status := 401,
                       body := Body.errorResponse "INVALID_TOKEN" "Invalid token" }],
               aborted := true, currentUser := c.currentUser,
               nextCalled := c.nextCalled } := by
  rw [AuthMiddleware_eq_gate, gateChecks_bearer cfg codec db fault now _ _ hs]
  rcases hbad with ⟨e, he⟩ | ⟨claims, hc, hk⟩
  · rw [he]
    rfl
  · rw [hc]
    have hkind : (claim claims "token_type").asString.getD "" ≠ "access_token" :=
      fun h => hk (asString_getD_eq _ _ (by decide) h)
    simp only [ne_eq, hkind, not_false_eq_true, if_true]
    rfl

/-- C18, amended, at the expired access token of Ann. -/
theorem AuthMiddleware_decode_failures_collapse_witness :
    (stringsSplit (Context.request "Bearer aaa.bbb.ccc").authorization ' '
          = ["Bearer", "aaa.bbb.ccc"]
        ∧ ((∃ e, jwtParse threeTokenCodec "aaa.bbb.ccc" demoConfig.SecretKey 90000
              = Except.error e)
          ∨ ∃ claims, jwtParse threeTokenCodec "aaa.bbb.ccc" demoConfig.SecretKey 90000
              = Except.ok claims
              ∧ claim claims "token_type" ≠ Value.str "access_token"))
      ∧ AuthMiddleware demoConfig threeTokenCodec DB.empty none 90000
          (Context.request "Bearer aaa.bbb.ccc")
        = some { authorization := "Bearer aaa.bbb.ccc",
                 written := [{ status := 401,
                               body := Body.errorResponse "INVALID_TOKEN" "Invalid token" }],
                 aborted := true, currentUser := none, nextCalled := false } :=
  ⟨⟨by decide, Or.inl ⟨ParseError.expired, rfl⟩⟩,
    AuthMiddleware_decode_failures_collapse demoConfig threeTokenCodec DB.empty none 90000
      (Context.request "Bearer aaa.bbb.ccc") "aaa.bbb.ccc" (by decide)
      (Or.inl ⟨ParseError.expired, rfl⟩)⟩

/-- C19. Every failing step of `AuthMiddleware` is terminal and leaves the rest
of the request context as it was: when a check of the state machine fails
(header missing or malformed, decoding failed, wrong kind, revoked), exactly
one JSON error with status 401 is appended, the chain is aborted, and neither
"current_user" nor the next handler is touched. When every check passes, the
handler binds the principal and calls the next handler in one step. So
"current_user" changes only on the success path, together with the call of the
next handler, with nothing written and no abort. -/
theorem AuthMiddleware_frame (cfg : Config) (codec : JwtCodec) (db : DB)
    (fault : Option String) (now : Int) (c : Context) :
    (∀ f, gateChecks cfg codec db fault now c.authorization = Except.error f →
        AuthMiddleware cfg codec db fault now c
          = some { authorization := c.authorization,
                   written := c.written
                     ++ [{ status := 401,
                           body := Body.errorResponse f.response.1 f.response.2 }],
                   aborted := true, currentUser := c.currentUser,
                   nextCalled := c.nextCalled })
      ∧ (∀ claims, gateChecks cfg codec db fault now c.authorization = Except.ok claims →
          AuthMiddleware cfg codec db fault now c
            = (bindUserInfo claims (jtiOf claims) "access_token").map
                (fun userInfo =>
                  { authorization := c.authorization, written := c.written,
                    aborted := c.aborted, currentUser := some userInfo,
                    nextCalled := true }))
      ∧ ∀ c1, AuthMiddleware cfg codec db fault now c = some c1 →
          c1.currentUser ≠ c.currentUser →
          c1.nextCalled = true ∧ c1.written = c.written ∧ c1.aborted = c.aborted
            ∧ ∃ claims, gateChecks cfg codec db fault now c.authorization = Except.ok claims := by
  refine ⟨fun f hf => ?_, fun claims hc => ?_, fun c1 h1 hne => ?_⟩
  · rw [AuthMiddleware_eq_gate, hf]
    rfl
  · rw [AuthMiddleware_eq_gate, hc]
  · rw [AuthMiddleware_eq_gate] at h1
    cases hg : gateChecks cfg codec db fault now c.authorization with
    | error f =>
      rw [hg] at h1
      simp only [Option.some.injEq] at h1
      subst h1
      exact absurd rfl hne
    | ok claims =>
      rw [hg] at h1
      simp only at h1
      cases hb : bindUserInfo claims (jtiOf claims) "access_token" with
      | none => rw [hb] at h1; cases h1
      | some userInfo =>
        rw [hb] at h1
        simp only [Option.map_some', Option.some.injEq] at h1
        subst h1
        exact ⟨rfl, rfl, rfl, claims, rfl⟩

/-- C20 as stated fails: the query behind `GetPetDetail` reports a lost
connection, and the caller receives 404 with code PET_NOT_FOUND, the outcome of
an absent pet, not 500 with code INTERNAL_ERROR. -/
theorem GetPetDetail_store_error_reported_as_not_found :
    GetPetDetail [] (some "dial tcp: connection refused")
        = Outcome.error "Pet ID does not exist"
      ∧ PetHandler.GetPetDetail (GetPetDetail [] (some "dial tcp: connection refused"))
        = some { status := 404,
                 body := Body.errorResponse "PET_NOT_FOUND" "Pet ID does not exist" } := by
  decide

/-- C20, amended. When the repository query behind `GetPetDetail` returns an
error, whatever rows come with it, `GetPetDetail` returns the not-found error
"Pet ID does not exist" and the handler answers 404 with code PET_NOT_FOUND,
the same outcome as for an absent pet. The handler answers 500 with code
INTERNAL_ERROR only for a service error with another message, which
`GetPetDetail` never returns: no response of the handler has status 500. -/
theorem GetPetDetail_query_error_is_not_found (rows : List Row) (e : String) :
    GetPetDetail rows (some e) = Outcome.error "Pet ID does not exist"
      ∧ PetHandler.GetPetDetail (GetPetDetail rows (some e))
          = some { status := 404,
                   body := Body.errorResponse "PET_NOT_FOUND" "Pet ID does not exist" }
      ∧ ∀ (rows1 : List Row) (err : Option String) (resp : JSONResponse),
          PetHandler.GetPetDetail (GetPetDetail rows1 err) = some resp →
          resp.status = 404 ∨ resp.status = 200 := by
  have h : GetPetDetail rows (some e) = Outcome.error "Pet ID does not exist" := by
    simp [GetPetDetail, PetIDNotExist]
  refine ⟨h, by rw [h]; rfl, ?_⟩
  intro rows1 err resp hresp
  unfold GetPetDetail at hresp
  split at hresp
  · simp only [PetHandler.GetPetDetail, if_true, Option.some.injEq] at hresp
    subst hresp
    exact Or.inl rfl
  · split at hresp
    · simp only [PetHandler.GetPetDetail, Option.some.injEq] at hresp
      subst hresp
      exact Or.inr rfl
    · simp [PetHandler.GetPetDetail] at hresp

/-! ## Token issuance (C21, C22) -/

/-- When `GenerateToken` succeeds, its two strings are the signatures of the two
issued tokens and the returned expiry is the first clock reading plus 1440 minutes. -/
theorem GenerateToken_ok (cfg : Config) (codec : JwtCodec) (now1 now2 : Int)
    (userID username firstName lastName email jti : String) (isAdmin : Bool)
    (a r : String) (e : Int)
    (h : GenerateToken cfg codec now1 now2 userID username firstName lastName email jti isAdmin
      = Outcome.ok (a, r, e)) :
    codec.SignedString
        (issuedAccessToken cfg now1 userID username firstName lastName email jti isAdmin)
      = Except.ok a ∧
    codec.SignedString
        (issuedRefreshToken cfg now2 userID username firstName lastName email jti isAdmin)
      = Except.ok r ∧
    e = now1 + 86400 := by
  unfold GenerateToken at h
  simp only at h
  split at h
  · cases h
  · rename_i s1 h1
    split at h
    · cases h
    · rename_i s2 h2
      simp only [Outcome.ok.injEq, Prod.mk.injEq] at h
      obtain ⟨ha, hr, he⟩ := h
      subst ha hr
      refine ⟨h1, h2, ?_⟩
      rw [← he]
      simp [AccessTokenExpire1Day]

/-- `GenerateToken` never panics: it returns the triple or the error of signing. -/
theorem GenerateToken_ne_panic (cfg : Config) (codec : JwtCodec) (now1 now2 : Int)
    (userID username firstName lastName email jti : String) (isAdmin : Bool) :
    GenerateToken cfg codec now1 now2 userID username firstName lastName email jti isAdmin
      ≠ Outcome.panic := by
  unfold GenerateToken
  simp only
  split
  · simp
  · split <;> simp

theorem claim_access_eq_refresh (userID username firstName lastName email jti : String)
    (isAdmin : Bool) (e1 e2 : Int) (key : String) (h1 : key ≠ "token_type") (h2 : key ≠ "exp") :
    claim (accessClaims userID username firstName lastName email jti isAdmin e1) key
      = claim (refreshClaims userID username firstName lastName email jti isAdmin e2) key := by
  have b1 : (key == "token_type") = false := by simpa using h1
  have b2 : (key == "exp") = false := by simpa using h2
  simp only [claim, accessClaims, refreshClaims, List.lookup, b1, b2]

/-- C21: when one call of `GenerateToken` returns an access and a refresh string,
they are the signatures of two tokens (the ones the strings decode to under a
codec that reads back what it signed) that both name HS256 and are both signed
under the configured secret, that carry the same `user_id`, `username`,
`first_name`, `last_name`, `email`, `is_admin` and `jti` claims, namely the
arguments of the call, whose `token_type` is "access_token" and "refresh_token"
respectively, and whose claim sets have the same keys and agree on every key
other than `token_type` and `exp`. -/
theorem GenerateToken_pair_shares_identity (cfg : Config) (codec : JwtCodec) (now1 now2 : Int)
    (userID username firstName lastName email jti : String) (isAdmin : Bool)
    (a r : String) (e : Int)
    (h : GenerateToken cfg codec now1 now2 userID username firstName lastName email jti isAdmin
      = Outcome.ok (a, r, e)) :
    ∃ access refresh : Token,
      codec.SignedString access = Except.ok a ∧ codec.SignedString refresh = Except.ok r ∧
      (codec.RoundTrip → codec.decode a = some access ∧ codec.decode r = some refresh) ∧
      access.alg = "HS256" ∧ refresh.alg = "HS256" ∧
      access.key = cfg.SecretKey ∧ refresh.key = cfg.SecretKey ∧
      (claim access.claims "user_id" = Value.str userID ∧
        claim refresh.claims "user_id" = Value.str userID) ∧
      (claim access.claims "username" = Value.str username ∧
        claim refresh.claims "username" = Value.str username) ∧
      (claim access.claims "first_name" = Value.str firstName ∧
        claim refresh.claims "first_name" = Value.str firstName) ∧
      (claim access.claims "last_name" = Value.str lastName ∧
        claim refresh.claims "last_name" = Value.str lastName) ∧
      (claim access.claims "email" = Value.str email ∧
        claim refresh.claims "email" = Value.str email) ∧
      (claim access.claims "is_admin" = Value.bool isAdmin ∧
        claim refresh.claims "is_admin" = Value.bool isAdmin) ∧
      (claim access.claims "jti" = Value.str jti ∧
        claim refresh.claims "jti" = Value.str jti) ∧
      claim access.claims "token_type" = Value.str "access_token" ∧
      claim refresh.claims "token_type" = Value.str "refresh_token" ∧
      (∀ key, key ≠ "token_type" → key ≠ "exp" →
        claim access.claims key = claim refresh.claims key) ∧
      access.claims.map Prod.fst = refresh.claims.map Prod.fst := by
  obtain ⟨ha, hr, _⟩ :=
    GenerateToken_ok cfg codec now1 now2 userID username firstName lastName email jti isAdmin
      a r e h
  refine ⟨issuedAccessToken cfg now1 userID username firstName lastName email jti isAdmin,
    issuedRefreshToken cfg now2 userID username firstName lastName email jti isAdmin,
    ha, hr, fun hrt => ⟨hrt _ _ ha, hrt _ _ hr⟩, rfl, rfl, rfl, rfl,
    ⟨rfl, rfl⟩, ⟨rfl, rfl⟩, ⟨rfl, rfl⟩, ⟨rfl, rfl⟩, ⟨rfl, rfl⟩, ⟨rfl, rfl⟩, ⟨rfl, rfl⟩,
    rfl, rfl, ?_, rfl⟩
  intro key h1 h2
  exact claim_access_eq_refresh userID username firstName lastName email jti isAdmin _ _ key h1 h2

/-- The tokens issued to Ann at clock readings 100 and 130 are both signed
under "s3cret" with HS256, carry her identity and the JTI `j1`, and differ in
`token_type`. -/
theorem GenerateToken_pair_shares_identity_witness :
    GenerateToken demoConfig demoCodec 100 130 "u1" "ann" "Ann" "Lee" "ann@example.com" "j1"
        false = Outcome.ok ("aaa.bbb.ccc", "rrr.sss.ttt", 86500) ∧
    ∃ access refresh : Token,
      demoCodec.SignedString access = Except.ok "aaa.bbb.ccc" ∧
      demoCodec.SignedString refresh = Except.ok "rrr.sss.ttt" ∧
      access.key = "s3cret" ∧ refresh.key = "s3cret" ∧
      claim access.claims "jti" = Value.str "j1" ∧ claim refresh.claims "jti" = Value.str "j1" ∧
      claim access.claims "token_type" ≠ claim refresh.claims "token_type" := by
  refine ⟨by decide, ?_⟩
  obtain ⟨access, refresh, ha, hr, _, _, _, hka, hkr, _, _, _, _, _, _, hj, hta, htr, _, _⟩ :=
    GenerateToken_pair_shares_identity demoConfig demoCodec 100 130 "u1" "ann" "Ann" "Lee"
      "ann@example.com" "j1" false "aaa.bbb.ccc" "rrr.sss.ttt" 86500 (by decide)
  refine ⟨access, refresh, ha, hr, hka, hkr, hj.1, hj.2, ?_⟩
  rw [hta, htr]
  decide

/-- A successful `Login` found a user, verified the password, generated the
token pair it returns and inserted the login-history record of that pair. -/
theorem Login_ok (cfg : Config) (codec : JwtCodec) (bcrypt : Bcrypt) (db db1 : DB)
    (faults : LoginFaults) (jti newID : String) (now1 now2 : Int) (req : LoginRequest)
    (resp : LoginResponse)
    (h : userService.Login cfg codec bcrypt db faults jti newID now1 now2 req
      = (Outcome.ok resp, db1)) :
    ∃ user stored,
      UserRepository.GetUserByEmail db faults.getUser req.Email = Except.ok user ∧
      VerifyPassword bcrypt req.Password user.Password = true ∧
      GenerateToken cfg codec now1 now2 user.base.ID user.Username user.FirstName user.LastName
          user.Email jti user.IsAdmin
        = Outcome.ok (resp.AccessToken, resp.RefreshToken, resp.Expire) ∧
      UserRepository.CreateLoginHistory db faults.createHistory newID
          (loginRecord user jti resp.AccessToken resp.RefreshToken)
        = Except.ok (db1, stored) := by
  unfold userService.Login at h
  split at h
  · simp at h
  · rename_i user hu
    split at h
    · simp at h
    · rename_i hv
      split at h
      · simp at h
      · simp at h
      · rename_i a r e hg
        simp only at h
        split at h
        · simp at h
        · rename_i dbh stored hc
          simp only [Prod.mk.injEq, Outcome.ok.injEq] at h
          obtain ⟨hresp, hdb⟩ := h
          subst hresp hdb
          exact ⟨user, stored, hu, by simpa using hv, hg, hc⟩

/-- C22: for a call of `GenerateToken` during which the clock reads Unix time `t`
(at both of its readings), the returned expiry epoch is `t + 86400` and is the
`exp` claim of the access token, and the `exp` claim of the refresh token is
`t + 31536000`; the tokens are the ones the returned strings are signatures of
(and decode to, under a codec that reads back what it signed). A `Login` whose
token generation runs at `t` returns `t + 86400` as `Expire`, the expiry its
`GenerateToken` call returned. -/
theorem GenerateToken_expiry_epochs (cfg : Config) (codec : JwtCodec) (t : Int)
    (userID username firstName lastName email jti : String) (isAdmin : Bool)
    (a r : String) (e : Int)
    (h : GenerateToken cfg codec t t userID username firstName lastName email jti isAdmin
      = Outcome.ok (a, r, e)) :
    e = t + 86400 ∧
    (∃ access refresh : Token,
      codec.SignedString access = Except.ok a ∧ codec.SignedString refresh = Except.ok r ∧
      (codec.RoundTrip → codec.decode a = some access ∧ codec.decode r = some refresh) ∧
      claim access.claims "exp" = Value.int e ∧
      claim access.claims "token_type" = Value.str "access_token" ∧
      claim refresh.claims "exp" = Value.int (t + 31536000) ∧
      claim refresh.claims "token_type" = Value.str "refresh_token") ∧
    (∀ (bcrypt : Bcrypt) (db db1 : DB) (faults : LoginFaults) (jti1 newID : String)
        (req : LoginRequest) (resp : LoginResponse),
      userService.Login cfg codec bcrypt db faults jti1 newID t t req = (Outcome.ok resp, db1) →
      resp.Expire = t + 86400 ∧
      ∃ user : User,
        GenerateToken cfg codec t t user.base.ID user.Username user.FirstName user.LastName
            user.Email jti1 user.IsAdmin
          = Outcome.ok (resp.AccessToken, resp.RefreshToken, resp.Expire)) := by
  obtain ⟨ha, hr, he⟩ :=
    GenerateToken_ok cfg codec t t userID username firstName lastName email jti isAdmin a r e h
  refine ⟨he, ⟨issuedAccessToken cfg t userID username firstName lastName email jti isAdmin,
    issuedRefreshToken cfg t userID username firstName lastName email jti isAdmin,
    ha, hr, fun hrt => ⟨hrt _ _ ha, hrt _ _ hr⟩, ?_, rfl, ?_, rfl⟩, ?_⟩
  · rw [he]
    simp [issuedAccessToken, accessClaims, claim, List.lookup, AccessTokenExpire1Day]
  · simp [issuedRefreshToken, refreshClaims, claim, List.lookup]
  · intro bcrypt db db1 faults jti1 newID req resp hl
    obtain ⟨user, _, _, _, hg, _⟩ :=
      Login_ok cfg codec bcrypt db db1 faults jti1 newID t t req resp hl
    obtain ⟨_, _, hexp⟩ :=
      GenerateToken_ok cfg codec t t user.base.ID user.Username user.FirstName user.LastName
        user.Email jti1 user.IsAdmin resp.AccessToken resp.RefreshToken resp.Expire hg
    exact ⟨hexp, user, hg⟩

/-- The pair issued to Ann within the second 100 expires at 86500 and 31536100,
and her login at that second returns 86500 as `Expire`. -/
theorem GenerateToken_expiry_epochs_witness :
    GenerateToken demoConfig sameSecondCodec 100 100 "u1" "ann" "Ann" "Lee" "ann@example.com"
        "j1" false = Outcome.ok ("aaa.bbb.ccc", "rrr.sss.uuu", 86500) ∧
    (86500 : Int) = 100 + 86400 ∧
    (∃ access refresh : Token,
      sameSecondCodec.SignedString access = Except.ok "aaa.bbb.ccc" ∧
      sameSecondCodec.SignedString refresh = Except.ok "rrr.sss.uuu" ∧
      claim access.claims "exp" = Value.int 86500 ∧
      claim refresh.claims "exp" = Value.int 31536100) ∧
    (userService.Login demoConfig sameSecondCodec demoBcrypt annDB LoginFaults.none "j1" "h1"
        100 100 annLogin).1
      = Outcome.ok { AccessToken := "aaa.bbb.ccc", RefreshToken := "rrr.sss.uuu",
                     Expire := 100 + 86400 } := by
  have hg : GenerateToken demoConfig sameSecondCodec 100 100 "u1" "ann" "Ann" "Lee"
      "ann@example.com" "j1" false = Outcome.ok ("aaa.bbb.ccc", "rrr.sss.uuu", 86500) := by
    decide
  obtain ⟨he, ⟨access, refresh, ha, hr, _, hea, _, her, _⟩, _⟩ :=
    GenerateToken_expiry_epochs demoConfig sameSecondCodec 100 "u1" "ann" "Ann" "Lee"
      "ann@example.com" "j1" false "aaa.bbb.ccc" "rrr.sss.uuu" 86500 hg
  exact ⟨hg, he, ⟨access, refresh, ha, hr, hea, her⟩, by decide⟩

/-! ## Editing a comment (C24) -/

theorem firstByID_fold_some {α : Type} (key : α → String) (rows : List α) (b : α) :
    ∃ x, rows.foldl
        (fun best x =>
          match best with
          | none => some x
          | some b => if key x < key b then some x else some b)
        (some b) = some x := by
  induction rows generalizing b with
  | nil => exact ⟨b, rfl⟩
  | cons r rs ih =>
    simp only [List.foldl_cons]
    split
    · exact ih r
    · exact ih b

/-- The statement `First` finds a row whenever some row matches. -/
theorem firstByID_of_mem {α : Type} (key : α → String) (rows : List α) (y : α)
    (h : y ∈ rows) : ∃ x, firstByID key rows = some x := by
  cases rows with
  | nil => cases h
  | cons r rs =>
    unfold firstByID
    simp only [List.foldl_cons]
    exact firstByID_fold_some key rs r

/-- Without a store error `GetCommentByID` finds an active comment with the
given id whenever the table holds one. -/
theorem GetCommentByID_of_mem (db : DB) (commentID : String) (comment : Comment)
    (hc : comment ∈ db.comments) (hid : comment.base.ID = commentID)
    (hact : comment.base.IsActive = true) :
    ∃ found, UserRepository.GetCommentByID db none commentID = Except.ok found ∧
      found ∈ db.comments ∧ found.base.ID = commentID ∧ found.base.IsActive = true := by
  have hmem : comment ∈
      db.comments.filter (fun c => decide (c.base.ID = commentID) && c.base.IsActive) := by
    simp [List.mem_filter, hc, hid, hact]
  obtain ⟨found, hf⟩ := firstByID_of_mem (fun c : Comment => c.base.ID) _ comment hmem
  have hfm := firstByID_mem _ _ _ hf
  simp only [List.mem_filter, Bool.and_eq_true, decide_eq_true_eq] at hfm
  refine ⟨found, ?_, hfm.1, hfm.2.1, hfm.2.2⟩
  unfold UserRepository.GetCommentByID
  simp only [hf]

/-- C24: for every principal, every pet id and every active comment of the
table, `EditComment` (the store reporting no error) succeeds, answers with the
new content under the principal's user id, and leaves every row with the
comment's id holding the new content and the principal as `UpdatedBy`, the
other rows being rows of the table before; no hypothesis relates the principal
to the comment's `CreatedBy` or the pet id to the comment's `PetID`. Whatever
the store reports, the outcome is the same for every pet id. -/
theorem EditComment_not_restricted_to_author (db : DB) (updatedAt : String)
    (userInfo : UserInfo) (petID commentID : String) (req : CommentRequest) (comment : Comment)
    (hc : comment ∈ db.comments) (hid : comment.base.ID = commentID)
    (hact : comment.base.IsActive = true) :
    (∃ resp db1,
      userService.EditComment db EditCommentFaults.none updatedAt userInfo petID commentID req
        = (Outcome.ok resp, db1) ∧
      resp.ID = commentID ∧ resp.Content = req.Content ∧ resp.UserID = userInfo.UserID ∧
      (∃ x ∈ db1.comments, x.base.ID = commentID) ∧
      (∀ x ∈ db1.comments, x.base.ID = commentID →
        x.Content = req.Content ∧ x.base.UpdatedBy = userInfo.UserID) ∧
      (∀ x ∈ db1.comments, x.base.ID ≠ commentID → x ∈ db.comments)) ∧
    (∀ (faults : EditCommentFaults) (petID1 : String),
      userService.EditComment db faults updatedAt userInfo petID1 commentID req
        = userService.EditComment db faults updatedAt userInfo petID commentID req) := by
  refine ⟨?_, fun _ _ => rfl⟩
  obtain ⟨found, hget, hfm, hfid, _⟩ := GetCommentByID_of_mem db commentID comment hc hid hact
  let edited : Comment :=
    { found with Content := req.Content,
                 base := { found.base with UpdatedBy := userInfo.UserID } }
  have hkey : edited.base.ID = commentID := hfid
  have hany : db.comments.any (fun y => decide (y.base.ID = edited.base.ID)) = true := by
    simp only [List.any_eq_true, decide_eq_true_eq]
    exact ⟨found, hfm, rfl⟩
  let resp : CommentResponse :=
    { ID := edited.base.ID, Content := edited.Content, CreatedAt := "", UpdatedAt := updatedAt,
      ParentID := "", UserID := userInfo.UserID, FirstName := userInfo.FirstName,
      LastName := userInfo.LastName, AvatarURL := "" }
  refine ⟨resp, { db with comments := saveRow (fun c => c.base.ID) edited db.comments }, ?_,
    hfid, rfl, rfl, ?_, ?_, ?_⟩
  · unfold userService.EditComment
    simp only [EditCommentFaults.none, hget, UserRepository.UpdateComment]
  · refine ⟨edited, ?_, hkey⟩
    show edited ∈ saveRow (fun c => c.base.ID) edited db.comments
    unfold saveRow
    simp only [hany, if_true, List.mem_map]
    exact ⟨found, hfm, by simp [edited]⟩
  · intro x hx hxid
    have hx1 : x ∈ saveRow (fun c => c.base.ID) edited db.comments := hx
    unfold saveRow at hx1
    simp only [hany, if_true, List.mem_map] at hx1
    obtain ⟨z, _, hz⟩ := hx1
    by_cases hk : z.base.ID = edited.base.ID
    · simp only [hk, if_true] at hz
      subst hz
      exact ⟨rfl, rfl⟩
    · simp only [hk, if_false] at hz
      subst hz
      exact absurd (hxid.trans hkey.symm) hk
  · intro x hx hxid
    have hx1 : x ∈ saveRow (fun c => c.base.ID) edited db.comments := hx
    unfold saveRow at hx1
    simp only [hany, if_true, List.mem_map] at hx1
    obtain ⟨z, hzm, hz⟩ := hx1
    by_cases hk : z.base.ID = edited.base.ID
    · simp only [hk, if_true] at hz
      subst hz
      exact absurd hkey hxid
    · simp only [hk, if_false] at hz
      subst hz
      exact hzm

/-- Ann edits the comment `c1`, which `u2` wrote, giving a pet id that is not
the comment's: the edit goes through. -/
theorem EditComment_not_restricted_to_author_witness :
    (∃ comment ∈ laterDB.comments,
      comment.base.ID = "c1" ∧ comment.base.IsActive = true ∧ comment.PetID = "p1" ∧
      comment.base.CreatedBy = "u2") ∧
    annInfo.UserID = "u1" ∧
    ∃ resp db1,
      userService.EditComment laterDB EditCommentFaults.none "2024-05-17 10:00:00" annInfo "p9"
          "c1" { Content := "edited", ParentID := "" } = (Outcome.ok resp, db1) ∧
      resp.Content = "edited" ∧ resp.UserID = "u1" ∧
      ∀ x ∈ db1.comments, x.base.ID = "c1" → x.Content = "edited" ∧ x.base.UpdatedBy = "u1" := by
  refine ⟨⟨_, List.mem_singleton.mpr rfl, rfl, rfl, rfl, rfl⟩, rfl, ?_⟩
  obtain ⟨⟨resp, db1, h, _, hcontent, huser, _, hall, _⟩, _⟩ :=
    EditComment_not_restricted_to_author laterDB "2024-05-17 10:00:00" annInfo "p9" "c1"
      { Content := "edited", ParentID := "" }
      { base := { ID := "c1", CreatedBy := "u2", UpdatedBy := "", IsActive := true },
        Content := "hello", PetID := "p1", ParentID := "" }
      (List.mem_singleton.mpr rfl) rfl rfl
  exact ⟨resp, db1, h, hcontent, huser, hall⟩

/-! ## Logout, step by step (C26) -/

/-- After `Save`, every row that has the key of the saved row is the saved row. -/
theorem saveRow_key_eq {α : Type} (key : α → String) (x : α) (table : List α) (y : α)
    (hy : y ∈ saveRow key x table) (hk : key y = key x) : y = x := by
  unfold saveRow at hy
  split at hy
  · simp only [List.mem_map] at hy
    obtain ⟨z, _, hz⟩ := hy
    by_cases hzk : key z = key x
    · simp only [hzk, if_true] at hz
      exact hz.symm
    · simp only [hzk, if_false] at hz
      subst hz
      exact absurd hk hzk
  · rename_i hany
    simp only [List.mem_append, List.mem_singleton] at hy
    rcases hy with hm | he
    · exfalso
      apply hany
      simp only [List.any_eq_true, decide_eq_true_eq]
      exact ⟨y, hm, hk⟩
    · exact he

/-- After `Save`, the saved row is in the table. -/
theorem saveRow_self_mem {α : Type} (key : α → String) (x : α) (table : List α) :
    x ∈ saveRow key x table := by
  unfold saveRow
  split
  · rename_i hany
    simp only [List.any_eq_true, decide_eq_true_eq] at hany
    obtain ⟨z, hz, hzk⟩ := hany
    simp only [List.mem_map]
    exact ⟨z, hz, by simp [hzk]⟩
  · simp

theorem created_CreatedBy (base : BaseModel) (newID : String) :
    (base.created newID).CreatedBy = base.CreatedBy := by
  unfold BaseModel.created BaseModel.insertDefaults BaseModel.BeforeCreate
  split <;> split <;> rfl

/-- C26 (as amended): `Logout` never panics. If it returns an error, the
blacklist is as before, and all tables are as before unless the error is that
of the blacklist insert, in which case the login-history record found for the
JTI has already been saved as inactive. If it succeeds, the record found for
the JTI is inactive, and the blacklist has gained exactly one entry, which is
active, carries the JTI and has `CreatedBy` equal to the principal's user id. -/
theorem Logout_error_or_success (db db1 : DB) (faults : LogoutFaults) (newID : String)
    (userInfo : UserInfo) (out : Outcome MessageResponse)
    (h : userService.Logout db faults newID userInfo = (out, db1)) :
    out ≠ Outcome.panic ∧
    (∀ e, out = Outcome.error e →
      db1.token_blacklist = db.token_blacklist ∧
      (db1 = db ∨
        (faults.createBlacklist = some e ∧
          ∃ history,
            UserRepository.GetLoginHistoryByJTI db faults.getHistory userInfo.JTI
              = Except.ok history ∧
            (∃ x ∈ db1.login_history, x.base.ID = history.base.ID) ∧
            ∀ x ∈ db1.login_history, x.base.ID = history.base.ID → x.base.IsActive = false))) ∧
    (∀ resp, out = Outcome.ok resp →
      ∃ history entry,
        UserRepository.GetLoginHistoryByJTI db faults.getHistory userInfo.JTI
          = Except.ok history ∧
        (∃ x ∈ db1.login_history, x.base.ID = history.base.ID) ∧
        (∀ x ∈ db1.login_history, x.base.ID = history.base.ID → x.base.IsActive = false) ∧
        db1.token_blacklist = db.token_blacklist ++ [entry] ∧
        entry.JTI = userInfo.JTI ∧ entry.base.IsActive = true ∧
        entry.base.CreatedBy = userInfo.UserID) := by
  unfold userService.Logout at h
  split at h
  · simp only [Prod.mk.injEq] at h
    obtain ⟨ho, hdb⟩ := h
    subst ho hdb
    refine ⟨by simp, fun e _ => ⟨rfl, Or.inl rfl⟩, fun resp hr => by simp at hr⟩
  · rename_i history hget
    simp only at h
    split at h
    · simp only [Prod.mk.injEq] at h
      obtain ⟨ho, hdb⟩ := h
      subst ho hdb
      refine ⟨by simp, fun e _ => ⟨rfl, Or.inl rfl⟩, fun resp hr => by simp at hr⟩
    · rename_i dbu hupd
      have hsaved : ∀ x ∈ dbu.login_history, x.base.ID = history.base.ID →
          x.base.IsActive = false := by
        intro x hx hxid
        unfold UserRepository.UpdateLoginHistory at hupd
        split at hupd
        · simp at hupd
        · simp only [Except.ok.injEq] at hupd
          subst hupd
          have := saveRow_key_eq (fun h : LoginHistory => h.base.ID) _ _ x hx hxid
          subst this
          rfl
      have hthere : ∃ x ∈ dbu.login_history, x.base.ID = history.base.ID := by
        unfold UserRepository.UpdateLoginHistory at hupd
        split at hupd
        · simp at hupd
        · simp only [Except.ok.injEq] at hupd
          subst hupd
          exact ⟨_, saveRow_self_mem (fun h : LoginHistory => h.base.ID) _ _, rfl⟩
      have hbl : dbu.token_blacklist = db.token_blacklist := by
        unfold UserRepository.UpdateLoginHistory at hupd
        split at hupd
        · simp at hupd
        · simp only [Except.ok.injEq] at hupd
          subst hupd
          rfl
      split at h
      · rename_i e hcreate
        simp only [Prod.mk.injEq] at h
        obtain ⟨ho, hdb⟩ := h
        subst ho hdb
        refine ⟨by simp, ?_, fun resp hr => by simp at hr⟩
        intro e1 he1
        simp only [Outcome.error.injEq] at he1
        subst he1
        refine ⟨hbl, Or.inr ⟨?_, history, hget, hthere, hsaved⟩⟩
        unfold UserRepository.CreateTokenBlacklist at hcreate
        split at hcreate
        · rename_i e2 hf
          simp only [Except.error.injEq] at hcreate
          rw [hf, hcreate]
        · simp at hcreate
      · rename_i dbc stored hcreate
        simp only [Prod.mk.injEq] at h
        obtain ⟨ho, hdb⟩ := h
        subst ho hdb
        refine ⟨by simp, fun e he => by simp at he, ?_⟩
        intro resp _
        unfold UserRepository.CreateTokenBlacklist at hcreate
        split at hcreate
        · simp at hcreate
        · simp only [Except.ok.injEq, Prod.mk.injEq] at hcreate
          obtain ⟨hdbc, hstored⟩ := hcreate
          subst hdbc
          refine ⟨history, stored, hget, hthere, hsaved, ?_, ?_, ?_, ?_⟩
          · rw [← hstored, ← hbl]
          · rw [← hstored]
          · rw [← hstored]
            exact created_isActive _ _
          · rw [← hstored]
            exact created_CreatedBy _ _

/-- C26, the counterexample: Ann logs out of `loggedInDB` and the blacklist
insert fails. `Logout` returns the error, no blacklist entry was added, yet the
login-history record of `j1`, active before, is inactive afterwards. -/
theorem Logout_error_leaves_history_inactive :
    (userService.Logout loggedInDB
        { getHistory := none, updateHistory := none, createBlacklist := some "connection lost" }
        "b1" annInfo).1 = Outcome.error "connection lost" ∧
    (∃ h ∈ loggedInDB.login_history, h.JTI = "j1" ∧ h.base.IsActive = true) ∧
    (userService.Logout loggedInDB
        { getHistory := none, updateHistory := none, createBlacklist := some "connection lost" }
        "b1" annInfo).2.token_blacklist = [] ∧
    ∀ h ∈ (userService.Logout loggedInDB
        { getHistory := none, updateHistory := none, createBlacklist := some "connection lost" }
        "b1" annInfo).2.login_history, h.JTI = "j1" → h.base.IsActive = false := by
  decide

/-- Ann logs out of `loggedInDB` while the blacklist insert fails: the error
is the one of the insert and the record `h1` is inactive. -/
theorem Logout_error_or_success_witness :
    userService.Logout loggedInDB
        { getHistory := none, updateHistory := none, createBlacklist := some "connection lost" }
        "b1" annInfo
      = (Outcome.error "connection lost",
         { loggedInDB with login_history := loggedOutDB.login_history }) ∧
    ({ loggedInDB with login_history := loggedOutDB.login_history } : DB).token_blacklist
      = loggedInDB.token_blacklist := by
  have h : userService.Logout loggedInDB
      { getHistory := none, updateHistory := none, createBlacklist := some "connection lost" }
      "b1" annInfo
      = (Outcome.error "connection lost",
         { loggedInDB with login_history := loggedOutDB.login_history }) := by decide
  exact ⟨h, ((Logout_error_or_success _ _ _ _ _ _ h).2.1 "connection lost" rfl).1⟩

/-! ## Login (C27) -/

/-- A user that `GetUserByEmail` returns is an active row of `users` with the email. -/
theorem GetUserByEmail_ok_mem (db : DB) (fault : Option String) (email : String) (user : User)
    (h : UserRepository.GetUserByEmail db fault email = Except.ok user) :
    user ∈ db.users ∧ user.Email = email ∧ user.base.IsActive = true := by
  unfold UserRepository.GetUserByEmail at h
  split at h
  · simp at h
  · split at h
    · rename_i found hf
      simp only [Except.ok.injEq] at h
      subst h
      have hm := firstByID_mem _ _ _ hf
      simpa [List.mem_filter] using hm
    · simp at h

/-- Without a store error `GetUserByEmail` finds a user whenever an active row
has the email. -/
theorem GetUserByEmail_of_mem (db : DB) (email : String) (user : User)
    (hm : user ∈ db.users) (he : user.Email = email) (ha : user.base.IsActive = true) :
    ∃ found, UserRepository.GetUserByEmail db none email = Except.ok found := by
  have hmem : user ∈ db.users.filter (fun u => decide (u.Email = email) && u.base.IsActive) := by
    simp [List.mem_filter, hm, he, ha]
  obtain ⟨found, hf⟩ := firstByID_of_mem (fun u : User => u.base.ID) _ user hmem
  refine ⟨found, ?_⟩
  unfold UserRepository.GetUserByEmail
  simp only [hf]

/-- The lookup fails when no active row has the email. -/
theorem GetUserByEmail_error_of_absent (db : DB) (fault : Option String) (email : String)
    (h : ∀ user ∈ db.users, user.Email = email → user.base.IsActive = false) :
    ∃ e, UserRepository.GetUserByEmail db fault email = Except.error e := by
  cases hg : UserRepository.GetUserByEmail db fault email with
  | error e => exact ⟨e, rfl⟩
  | ok user =>
    obtain ⟨hm, he, ha⟩ := GetUserByEmail_ok_mem db fault email user hg
    rw [h user hm he] at ha
    cases ha

/-- C27 (as amended): `Login` never panics, and
* it returns a token pair only if an active user with the request's email
  exists and `VerifyPassword` accepts the request's password against that
  user's stored hash; then the tables gain exactly one login-history row, active,
  with the generated JTI, the user's id and the returned access and refresh
  strings, which are signatures of tokens carrying that JTI;
* when the lookup fails (a store error, or no active user with the email) it
  returns "User does not exist", and when the lookup yields a user whose hash
  does not verify it returns "Invalid password";
* whenever it returns no pair the tables are unchanged. -/
theorem Login_pair_only_if_verified (cfg : Config) (codec : JwtCodec) (bcrypt : Bcrypt)
    (db db1 : DB) (faults : LoginFaults) (jti newID : String) (now1 now2 : Int)
    (req : LoginRequest) (out : Outcome LoginResponse)
    (h : userService.Login cfg codec bcrypt db faults jti newID now1 now2 req = (out, db1)) :
    out ≠ Outcome.panic ∧
    (∀ resp, out = Outcome.ok resp →
      ∃ user ∈ db.users, user.Email = req.Email ∧ user.base.IsActive = true ∧
        VerifyPassword bcrypt req.Password user.Password = true ∧
        ∃ (record : LoginHistory) (access refresh : Token),
          db1 = { db with login_history := db.login_history ++ [record] } ∧
          record.JTI = jti ∧ record.UserID = user.base.ID ∧
          record.AccessToken = resp.AccessToken ∧ record.RefreshToken = resp.RefreshToken ∧
          record.base.IsActive = true ∧
          codec.SignedString access = Except.ok resp.AccessToken ∧
          codec.SignedString refresh = Except.ok resp.RefreshToken ∧
          claim access.claims "jti" = Value.str jti ∧
          claim refresh.claims "jti" = Value.str jti) ∧
    ((∃ e, UserRepository.GetUserByEmail db faults.getUser req.Email = Except.error e) →
      out = Outcome.error UserIsNotExist ∧ db1 = db) ∧
    ((∀ user ∈ db.users, user.Email = req.Email → user.base.IsActive = false) →
      out = Outcome.error UserIsNotExist ∧ db1 = db) ∧
    (∀ user, UserRepository.GetUserByEmail db faults.getUser req.Email = Except.ok user →
      VerifyPassword bcrypt req.Password user.Password = false →
      out = Outcome.error PasswordInvalid ∧ db1 = db) ∧
    ((∀ resp, out ≠ Outcome.ok resp) → db1 = db) := by
  have hlookup : (∃ e, UserRepository.GetUserByEmail db faults.getUser req.Email
      = Except.error e) → out = Outcome.error UserIsNotExist ∧ db1 = db := by
    rintro ⟨e, he⟩
    unfold userService.Login at h
    simp only [he, Prod.mk.injEq] at h
    exact ⟨h.1.symm, h.2.symm⟩
  refine ⟨?_, ?_, hlookup, ?_, ?_, ?_⟩
  · intro hp
    subst hp
    unfold userService.Login at h
    split at h
    · simp at h
    · split at h
      · simp at h
      · split at h
        · rename_i hg
          exact GenerateToken_ne_panic _ _ _ _ _ _ _ _ _ _ _ hg
        · simp at h
        · simp only at h
          split at h <;> simp at h
  · intro resp ho
    subst ho
    obtain ⟨user, stored, hget, hv, hg, hc⟩ :=
      Login_ok cfg codec bcrypt db db1 faults jti newID now1 now2 req resp h
    obtain ⟨hm, he, ha⟩ := GetUserByEmail_ok_mem db faults.getUser req.Email user hget
    obtain ⟨hsa, hsr, _⟩ := GenerateToken_ok cfg codec now1 now2 _ _ _ _ _ _ _ _ _ _ hg
    refine ⟨user, hm, he, ha, hv, stored, _, _, ?_, ?_, ?_, ?_, ?_, ?_, hsa, hsr, rfl, rfl⟩
    all_goals
      unfold UserRepository.CreateLoginHistory at hc
      split at hc
      · simp at hc
      · simp only [Except.ok.injEq, Prod.mk.injEq] at hc
        obtain ⟨hdb, hst⟩ := hc
        subst hst hdb
        rfl
  · intro habsent
    exact hlookup (GetUserByEmail_error_of_absent db faults.getUser req.Email habsent)
  · intro user hget hv
    unfold userService.Login at h
    simp only [hget, hv, if_true, Prod.mk.injEq] at h
    exact ⟨h.1.symm, h.2.symm⟩
  · intro hno
    unfold userService.Login at h
    split at h
    · simp only [Prod.mk.injEq] at h
      exact h.2.symm
    · split at h
      · simp only [Prod.mk.injEq] at h
        exact h.2.symm
      · split at h
        · simp only [Prod.mk.injEq] at h
          exact h.2.symm
        · simp only [Prod.mk.injEq] at h
          exact h.2.symm
        · simp only at h
          split at h
          · simp only [Prod.mk.injEq] at h
            exact h.2.symm
          · simp only [Prod.mk.injEq] at h
            exact absurd h.1.symm (hno _)

/-- C27, the counterexample: Ann has an active account and the request carries
a password that does not verify against her hash, but the store reports an
error for the lookup. `Login` answers "User does not exist", not "Invalid
password". -/
theorem Login_store_error_hides_invalid_password :
    annUser ∈ annDB.users ∧ annUser.Email = annWrongLogin.Email ∧
    annUser.base.IsActive = true ∧
    VerifyPassword demoBcrypt annWrongLogin.Password annUser.Password = false ∧
    userService.Login demoConfig sameSecondCodec demoBcrypt annDB
        { getUser := some "connection lost", createHistory := none } "j1" "h1" 100 100
        annWrongLogin
      = (Outcome.error "User does not exist", annDB) ∧
    "User does not exist" ≠ PasswordInvalid := by
  decide

/-- Ann logs in with her password at the second 100: one history row is added,
carrying the JTI and the two returned strings. -/
theorem Login_pair_only_if_verified_witness :
    userService.Login demoConfig sameSecondCodec demoBcrypt annDB LoginFaults.none "j1" "h1"
        100 100 annLogin
      = (Outcome.ok { AccessToken := "aaa.bbb.ccc", RefreshToken := "rrr.sss.uuu",
                      Expire := 86500 },
         { annDB with login_history := [annLoginRecord] }) ∧
    ∃ user ∈ annDB.users, user.Email = "ann@example.com" ∧
      VerifyPassword demoBcrypt "hunter22" user.Password = true := by
  have h : userService.Login demoConfig sameSecondCodec demoBcrypt annDB LoginFaults.none "j1"
      "h1" 100 100 annLogin
      = (Outcome.ok { AccessToken := "aaa.bbb.ccc", RefreshToken := "rrr.sss.uuu",
                      Expire := 86500 },
         { annDB with login_history := [annLoginRecord] }) := by decide
  obtain ⟨user, hm, he, _, hv, _⟩ :=
    (Login_pair_only_if_verified _ _ _ _ _ _ _ _ _ _ _ _ h).2.1 _ rfl
  exact ⟨h, user, hm, he, hv⟩

/-! ## Register (C30) -/

/-- C30 (as amended): `Register` never panics and never creates an
administrator: the user it hands to `CreateUser` has `IsAdmin = false` whatever
the request holds, a response it returns has `IsAdmin = false`, and the table
`users` afterwards is the table before, or the table before followed by one
row with `IsAdmin = false`. If the lookup yields an active user with the
request's email, as it does whenever such a user exists and the store reports
no error for the lookup, `Register` returns "Email is already taken" and
leaves all tables, `users` and `user_roles` among them, unchanged. -/
theorem Register_never_admin (bcrypt : Bcrypt) (db db1 : DB) (faults : RegisterFaults)
    (newUserID newLinkID : String) (req : UserRegisterRequest) (out : Outcome UserResponse)
    (h : userService.Register bcrypt db faults newUserID newLinkID req = (out, db1)) :
    out ≠ Outcome.panic ∧
    (∀ hashedPassword, (registeredUser req hashedPassword).IsAdmin = false) ∧
    (∀ resp, out = Outcome.ok resp → resp.IsAdmin = false) ∧
    (db1.users = db.users ∨ ∃ stored : User, db1.users = db.users ++ [stored] ∧
      stored.IsAdmin = false) ∧
    (∀ user, UserRepository.GetUserByEmail db faults.getUser req.Email = Except.ok user →
      out = Outcome.error EmailTaken ∧ db1 = db) ∧
    (faults.getUser = none →
      (∃ user ∈ db.users, user.Email = req.Email ∧ user.base.IsActive = true) →
      out = Outcome.error EmailTaken ∧ db1 = db) := by
  have hfound : ∀ user, UserRepository.GetUserByEmail db faults.getUser req.Email
      = Except.ok user → out = Outcome.error EmailTaken ∧ db1 = db := by
    intro user hget
    unfold userService.Register at h
    simp only [hget, Prod.mk.injEq] at h
    exact ⟨h.1.symm, h.2.symm⟩
  have hmain : out ≠ Outcome.panic ∧ (∀ resp, out = Outcome.ok resp → resp.IsAdmin = false) ∧
      (db1.users = db.users ∨ ∃ stored : User, db1.users = db.users ++ [stored] ∧
        stored.IsAdmin = false) := by
    unfold userService.Register at h
    split at h
    · simp only [Prod.mk.injEq] at h
      obtain ⟨ho, hdb⟩ := h
      subst ho hdb
      exact ⟨by simp, fun resp hr => by simp at hr, Or.inl rfl⟩
    · split at h
      · simp only [Prod.mk.injEq] at h
        obtain ⟨ho, hdb⟩ := h
        subst ho hdb
        exact ⟨by simp, fun resp hr => by simp at hr, Or.inl rfl⟩
      · rename_i hashedPassword _
        split at h
        · simp only [Prod.mk.injEq] at h
          obtain ⟨ho, hdb⟩ := h
          subst ho hdb
          exact ⟨by simp, fun resp hr => by simp at hr, Or.inl rfl⟩
        · rename_i dbu user hcreate
          unfold UserRepository.CreateUser at hcreate
          split at hcreate
          · simp at hcreate
          · simp only [Except.ok.injEq, Prod.mk.injEq] at hcreate
            obtain ⟨hdbu, huser⟩ := hcreate
            have hadmin : user.IsAdmin = false := by rw [← huser]; rfl
            simp only [Prod.mk.injEq] at h
            obtain ⟨ho, hdb⟩ := h
            refine ⟨by rw [← ho]; simp, ?_, Or.inr ⟨user, ?_, hadmin⟩⟩
            · intro resp hr
              rw [← ho] at hr
              simp only [Outcome.ok.injEq] at hr
              rw [← hr]
              exact hadmin
            · rw [← hdb]
              have hu1 : dbu.users = db.users ++ [user] := by rw [← hdbu, ← huser]
              split
              · exact hu1
              · split
                · exact hu1
                · rename_i dbr _ hlink
                  unfold UserRepository.CreateUserRole at hlink
                  split at hlink
                  · simp at hlink
                  · simp only [Except.ok.injEq, Prod.mk.injEq] at hlink
                    rw [← hlink.1]
                    exact hu1
  refine ⟨hmain.1, fun _ => rfl, hmain.2.1, hmain.2.2, hfound, ?_⟩
  intro hnofault ⟨user, hm, he, ha⟩
  obtain ⟨found, hget⟩ := GetUserByEmail_of_mem db req.Email user hm he ha
  rw [← hnofault] at hget
  exact hfound found hget

/-- C30, the counterexample: an active account with the address exists, the
store reports an error for the lookup of `Register` and none afterwards.
`Register` does not answer "Email is already taken": it returns a response and
the table holds a second active row with the address. -/
theorem Register_store_error_admits_taken_email :
    rootUser ∈ rootDB.users ∧ rootUser.Email = annRegistration.Email ∧
    rootUser.base.IsActive = true ∧
    userService.Register demoBcrypt rootDB
        { getUser := some "connection lost", createUser := none, getRole := none,
          createUserRole := none, getRolesPermissions := none }
        "u1" "l1" annRegistration
      = (Outcome.ok
          { ID := "u1", FirstName := "Ann", LastName := "Lee", Email := "ann@example.com",
            Phone := "0123", IsAdmin := false, Avatar := "", Roles := none,
            Permissions := none },
         { rootDB with users := [rootUser, annRegistered] }) := by
  decide

/-- Ann registers her address while `rootDB` holds an active account with it
and the store works: the answer is "Email is already taken" and nothing is
written. -/
theorem Register_never_admin_witness :
    userService.Register demoBcrypt rootDB RegisterFaults.none "u1" "l1" annRegistration
      = (Outcome.error "Email is already taken", rootDB) ∧
    (registeredUser annRegistration "$2a$10$hunter22").IsAdmin = false ∧
    (Outcome.error "Email is already taken" : Outcome UserResponse)
      = Outcome.error EmailTaken := by
  have h : userService.Register demoBcrypt rootDB RegisterFaults.none "u1" "l1" annRegistration
      = (Outcome.error "Email is already taken", rootDB) := by decide
  obtain ⟨_, hadmin, _, _, _, htaken⟩ := Register_never_admin _ _ _ _ _ _ _ _ h
  exact ⟨h, hadmin _, (htaken rfl ⟨rootUser, List.mem_singleton.mpr rfl, rfl, rfl⟩).1⟩

/-! ## Binding the principal (C28) -/

/-- Past the checks of a validly signed, unexpired access token that is not
blacklisted, the handler is the binding: it panics exactly when one of the six
unchecked assertions fails, and otherwise binds the principal and calls next. -/
theorem AuthMiddleware_after_checks (cfg : Config) (codec : JwtCodec) (db : DB)
    (fault : Option String) (now : Int) (c : Context) (tokenString : String)
    (claims : MapClaims)
    (hheader : c.authorization = "Bearer " ++ tokenString)
    (hsplit : stringsSplit tokenString ' ' = [tokenString])
    (hparse : jwtParse codec tokenString cfg.SecretKey now = Except.ok claims)
    (htype : claim claims "token_type" = Value.str "access_token")
    (hfree : isBlacklisted db fault (jtiOf claims) = false) :
    AuthMiddleware cfg codec db fault now c
      = (bindUserInfo claims (jtiOf claims) "access_token").map
          (fun userInfo => { c with currentUser := some userInfo, nextCalled := true }) := by
  unfold AuthMiddleware
  simp only [hheader, bearer_ne_empty, if_false, stringsSplit_bearer, hsplit, hparse]
  have ht : (claim claims "token_type").asString.getD "" = "access_token" := by
    rw [htype]; rfl
  simp only [ht, ne_eq, not_true_eq_false, if_false]
  unfold jtiOf at hfree
  simp only [hfree, Bool.false_eq_true, if_false]
  unfold jtiOf
  cases bindUserInfo claims ((claim claims "jti").asString.getD "") "access_token" <;> rfl

/-- C28, at the failing inputs: `foreignCodec` decodes "ddd.eee.fff" to a token
signed under the configured secret, unexpired at time 100, of type
"access_token", with a JTI that is not blacklisted and without any identity
claim, and "ggg.hhh.iii" to such a token whose `is_admin` claim is a string.
On either the handler neither binds a principal nor responds 401: it panics in
the unchecked assertions of the binding. -/
theorem AuthMiddleware_panics_on_untyped_identity_claims :
    jwtParse foreignCodec "ddd.eee.fff" demoConfig.SecretKey 100
      = Except.ok bareAccessToken.claims ∧
    claim bareAccessToken.claims "token_type" = Value.str "access_token" ∧
    isBlacklisted DB.empty none (jtiOf bareAccessToken.claims) = false ∧
    claim bareAccessToken.claims "user_id" = Value.null ∧
    AuthMiddleware demoConfig foreignCodec DB.empty none 100
      (Context.request "Bearer ddd.eee.fff") = none ∧
    jwtParse foreignCodec "ggg.hhh.iii" demoConfig.SecretKey 100
      = Except.ok stringAdminToken.claims ∧
    claim stringAdminToken.claims "is_admin" = Value.str "false" ∧
    AuthMiddleware demoConfig foreignCodec DB.empty none 100
      (Context.request "Bearer ggg.hhh.iii") = none := by
  refine ⟨rfl, rfl, rfl, rfl, ?_, rfl, rfl, ?_⟩ <;> decide

/-! ## Dates of pets and life events (C29) -/

/-- The function `ParseDateTime` returns nil exactly when `time.Parse` rejects
the string under each of the three layouts. -/
theorem ParseDateTime_eq_none_iff (timeParse : String → String → Option Time)
    (dateStr : String) :
    ParseDateTime timeParse dateStr = none ↔
      timeParse "2006-01-02" dateStr = none ∧ timeParse "2006-01-02 15:04:05" dateStr = none ∧
      timeParse RFC3339 dateStr = none := by
  unfold ParseDateTime
  simp [List.findSome?]
  constructor
  · intro h
    cases h1 : timeParse "2006-01-02" dateStr with
    | some t => simp [h1] at h
    | none =>
      cases h2 : timeParse "2006-01-02 15:04:05" dateStr with
      | some t => simp [h1, h2] at h
      | none =>
        cases h3 : timeParse RFC3339 dateStr with
        | some t => simp [h1, h2, h3] at h
        | none => exact ⟨rfl, rfl, rfl⟩
  · rintro ⟨h1, h2, h3⟩
    simp [h1, h2, h3]

/-- The method `CreatePetLifeEvent` panics exactly when the date parses to nil,
and then nothing is written. -/
theorem CreatePetLifeEvent_panic_iff (timeParse : String → String → Option Time) (db : DB)
    (fault : Option String) (newID : String) (userInfo : UserInfo)
    (req : PetLifeEventRequest) :
    (petService.CreatePetLifeEvent timeParse db fault newID userInfo req).1 = Outcome.panic ↔
      ParseDateTime timeParse req.Date = none := by
  unfold petService.CreatePetLifeEvent
  cases ParseDateTime timeParse req.Date with
  | none => simp
  | some date =>
    simp only
    split <;> simp

/-- The method `CreatePet` panics exactly when the date of birth parses to nil
and the insert succeeds. -/
theorem CreatePet_panic_iff (timeParse : String → String → Option Time) (db : DB)
    (fault : Option String) (newID : String) (userInfo : UserInfo) (req : PetCreateRequest) :
    (petService.CreatePet timeParse db fault newID userInfo req).1 = Outcome.panic ↔
      ParseDateTime timeParse req.DateOfBirth = none ∧ fault = none := by
  unfold petService.CreatePet PetRepository.CreatePet
  cases fault with
  | some e => simp
  | none =>
    cases ParseDateTime timeParse req.DateOfBirth with
    | none => simp
    | some birth => simp

/-- C29, at the failing inputs: the date "someday" matches none of the layouts,
so `ParseDateTime` returns nil. `CreatePetLifeEvent` then panics on `*date`
before it writes anything, and `CreatePet` inserts the pet without a date of
birth and panics on `pet.DateOfBirth.Format` while building the response. -/
theorem CreatePet_and_life_event_panic_on_unparsed_date :
    ParseDateTime demoTimeParse "someday" = none ∧
    petService.CreatePetLifeEvent demoTimeParse DB.empty none "e1" annInfo somedayEventRequest
      = (Outcome.panic, DB.empty) ∧
    petService.CreatePet demoTimeParse DB.empty none "p1" annInfo rexSomedayRequest
      = (Outcome.panic, { DB.empty with pets := [rexWithoutBirth] }) := by
  decide

/-! ## The cron spec of RegisterAppointment (C25) -/

theorem digitChar_isDigit (n : Nat) (h : n < 10) : (Nat.digitChar n).isDigit = true := by
  interval_cases n <;> decide

theorem digitChar_not_isSpace (n : Nat) (h : n < 10) : isSpace (Nat.digitChar n) = false := by
  interval_cases n <;> decide

/-- Every character that `Nat.toDigitsCore 10` adds is a decimal digit. -/
theorem toDigitsCore_digits (fuel n : Nat) (ds : List Char) (P : Char → Prop)
    (hP : ∀ k, k < 10 → P (Nat.digitChar k)) (hds : ∀ c ∈ ds, P c) :
    ∀ c ∈ Nat.toDigitsCore 10 fuel n ds, P c := by
  induction fuel generalizing n ds with
  | zero => simpa [Nat.toDigitsCore] using hds
  | succ fuel ih =>
    have hcons : ∀ c ∈ Nat.digitChar (n % 10) :: ds, P c := by
      intro c hc
      rcases List.mem_cons.mp hc with h | h
      · rw [h]; exact hP _ (Nat.mod_lt _ (by decide))
      · exact hds c h
    unfold Nat.toDigitsCore
    simp only
    split
    · exact hcons
    · exact ih _ _ hcons

theorem toDigitsCore_ne_nil (fuel n : Nat) (ds : List Char) (hds : ds ≠ []) :
    Nat.toDigitsCore 10 fuel n ds ≠ [] := by
  induction fuel generalizing n ds with
  | zero => simpa [Nat.toDigitsCore] using hds
  | succ fuel ih =>
    unfold Nat.toDigitsCore
    simp only
    split
    · simp
    · exact ih _ _ (by simp)

/-- The decimal numeral of a natural number is a non-empty run of digits. -/
theorem toString_nat_digits (n : Nat) :
    (toString n).toList ≠ [] ∧ (∀ c ∈ (toString n).toList, c.isDigit = true) ∧
    ∀ c ∈ (toString n).toList, isSpace c = false := by
  have hl : (toString n).toList = Nat.toDigitsCore 10 (n + 1) n [] := rfl
  rw [hl]
  refine ⟨?_, ?_, ?_⟩
  · unfold Nat.toDigitsCore
    simp only
    split
    · simp
    · exact toDigitsCore_ne_nil _ _ _ (by simp)
  · exact toDigitsCore_digits _ _ _ (fun c => c.isDigit = true) digitChar_isDigit (by simp)
  · exact toDigitsCore_digits _ _ _ (fun c => isSpace c = false) digitChar_not_isSpace
      (by simp)

theorem fieldsAux_run (d rest cur : List Char) (hd : ∀ c ∈ d, isSpace c = false) :
    fieldsAux (d ++ rest) cur = fieldsAux rest (d.reverse ++ cur) := by
  induction d generalizing cur with
  | nil => rfl
  | cons c cs ih =>
    have hc : isSpace c = false := hd c (List.mem_cons_self _ _)
    have hcs : ∀ x ∈ cs, isSpace x = false := fun x hx => hd x (List.mem_cons_of_mem _ hx)
    have step : fieldsAux (c :: (cs ++ rest)) cur = fieldsAux (cs ++ rest) (c :: cur) := by
      rw [fieldsAux]
      simp [hc]
    rw [List.cons_append, step, ih _ hcs]
    simp

/-- A non-empty run without white space, followed by a space, is the first field. -/
theorem fieldsAux_field (d rest : List Char) (hne : d ≠ [])
    (hd : ∀ c ∈ d, isSpace c = false) :
    fieldsAux (d ++ ' ' :: rest) [] = d :: fieldsAux rest [] := by
  rw [fieldsAux_run d _ [] hd]
  have hr : d.reverse ++ [] ≠ [] := by simpa using hne
  have hsp : isSpace ' ' = true := by decide
  simp only [fieldsAux, hsp, if_true, hr, if_false]
  simp

theorem cronSpec_toList (sendTime : SendTime) :
    (cronSpec sendTime).toList
      = (toString sendTime.second).toList ++ ' ' :: ((toString sendTime.minute).toList ++ ' ' ::
          ((toString sendTime.hour).toList ++ ' ' :: ((toString sendTime.day).toList ++ ' ' ::
            ((toString sendTime.month).toList ++ ' ' :: ['*'])))) := by
  unfold cronSpec
  simp only [String.toList, String.data_append, List.append_assoc]
  rfl

/-- The spec string of `RegisterAppointment` always has six fields: the five
numerals and the star. -/
theorem cronSpec_fields (sendTime : SendTime) :
    stringsFields (cronSpec sendTime)
      = [toString sendTime.second, toString sendTime.minute, toString sendTime.hour,
         toString sendTime.day, toString sendTime.month, "*"] := by
  have hl := cronSpec_toList sendTime
  obtain ⟨n1, _, s1⟩ := toString_nat_digits sendTime.second
  obtain ⟨n2, _, s2⟩ := toString_nat_digits sendTime.minute
  obtain ⟨n3, _, s3⟩ := toString_nat_digits sendTime.hour
  obtain ⟨n4, _, s4⟩ := toString_nat_digits sendTime.day
  obtain ⟨n5, _, s5⟩ := toString_nat_digits sendTime.month
  unfold stringsFields
  rw [hl, fieldsAux_field _ _ n1 s1, fieldsAux_field _ _ n2 s2, fieldsAux_field _ _ n3 s3,
    fieldsAux_field _ _ n4 s4, fieldsAux_field _ _ n5 s5]
  have hstar : fieldsAux ['*'] [] = [['*']] := by decide
  rw [hstar]
  rfl

/-- The spec string begins with a digit. -/
theorem cronSpec_starts_with_digit (sendTime : SendTime) :
    ∃ c cs, (cronSpec sendTime).toList = c :: cs ∧ c.isDigit = true := by
  obtain ⟨n1, d1, _⟩ := toString_nat_digits sendTime.second
  have hrest := cronSpec_toList sendTime
  cases hs : (toString sendTime.second).toList with
  | nil => exact absurd hs n1
  | cons c cs =>
    have hd : c.isDigit = true := d1 c (by rw [hs]; exact List.mem_cons_self _ _)
    rw [hs, List.cons_append] at hrest
    exact ⟨c, _, hrest, hd⟩

/-- The parser that takes exactly five fields obeys the law `StandardParser`. -/
theorem fiveFieldScheduler_standard : fiveFieldScheduler.StandardParser := by
  intro spec id h _
  unfold fiveFieldScheduler at h
  simp only at h
  split at h
  · assumption
  · cases h

/-- C25, at every send time: the spec that `RegisterAppointment` builds has six
fields (second, minute, hour, day, month and a star), as "5 7 13 4 11 *" for
13:07:05 on 4 November. A scheduler made by `cron.New()`, whose parser obeys
`StandardParser` (five fields), therefore answers `AddJob` with an error:
`RegisterAppointment` adds no job, logs the failure and still returns the
response. The five-field parser `fiveFieldScheduler` shows the run. -/
theorem RegisterAppointment_spec_has_six_fields (sendTime : SendTime) :
    (stringsFields (cronSpec sendTime)).length = 6 ∧
    cronSpec novemberSendTime = "5 7 13 4 11 *" ∧
    (∀ (sch : Scheduler) (code : String) (req : AppointmentRequest), sch.StandardParser →
      (appointmentService.RegisterAppointment sch code sendTime req).job = none ∧
      (appointmentService.RegisterAppointment sch code sendTime req).logged ≠ none ∧
      (appointmentService.RegisterAppointment sch code sendTime req).response
        = { Code := code, StartTime := req.StartTime }) ∧
    appointmentService.RegisterAppointment fiveFieldScheduler "TXN20241104130655"
        novemberSendTime { StartTime := "2024-11-05 09:00", Message := "" }
      = { response := { Code := "TXN20241104130655", StartTime := "2024-11-05 09:00" },
          job := none,
          logged := some "Failed to schedule email: expected exactly 5 fields, found 6" } := by
  have hsix : (stringsFields (cronSpec sendTime)).length = 6 := by
    rw [cronSpec_fields]; rfl
  refine ⟨hsix, by decide, ?_, by decide⟩
  intro sch code req hlaw
  unfold appointmentService.RegisterAppointment
  cases hadd : sch.AddJob (cronSpec sendTime) with
  | error e => exact ⟨rfl, by simp, rfl⟩
  | ok id =>
    have h5 := hlaw _ id hadd (cronSpec_starts_with_digit sendTime)
    rw [hsix] at h5
    cases h5

end PetService
